import Mathlib

/-!
ESC/P printer emulation (`src/hardware/parport/printer.cpp`)

A shallow embedding of `CPrinter`: the byte-at-a-time command interpreter
(`processCommandChar`), the character/bit-image path (`printChar`,
`setupBitImage`, `printBitGraph`) and the page raster operations
(`blitGlyph`, `drawLine`, `newPage`, `isBlank`).

Conventions of the embedding

* `Real64` (a C `double`) is the field of rationals: arithmetic is exact. A
  quotient by zero (an infinity in the source) has no counterpart; statements
  that depend on a quotient keep the divisor away from zero.
* Unsigned machine integers are natural numbers; where the source truncates
  (`uint16_t penX`, `int16_t toMove`, `uint8_t` ink arithmetic, the 8 bit
  counter `neededParam`, the 16 bit counter `bitGraph.remBytes`) the model
  reduces modulo the width explicitly.
* The parameter buffer `params` has 20 bytes. A store behind its end lands on
  the member `style` (indices 20 and 21) or is recorded in `paramsOverrun`
  (indices from 22 on); the model does not follow such a store any further.
* Member functions take the printer state and return the new state;
  `bool` results are returned next to it.
* FreeType, the code-page tables and the output encoders are outside the
  modelled code. FreeType is an oracle stored in the `FTlib` field, the tables
  are fields of `Tables`, and `outputPage` records the raster it was handed.
* The host timer (`PIC_RemoveEvents`, `timeout_dirty`) is not part of the
  printer object and is left out.
-/

namespace Printer

/-- The C type `Real64`, with exact arithmetic. -/
abbrev Real64 := ℚ

/-! ## Constants of `printer.h` -/

/-- Modelled from the spec: the `STYLE_*` flag macros of `printer.h` (the header is not
among the sources). One bit per flag of the style bitset; the first seven are the ones
that `ESC !` resets with `style &= 0xFF80`. -/
def STYLE_PROP : Nat := 0x01
/-- Modelled from the spec: condensed flag of the style bitset, see `STYLE_PROP`. -/
def STYLE_CONDENSED : Nat := 0x02
/-- Modelled from the spec: bold flag of the style bitset, see `STYLE_PROP`. -/
def STYLE_BOLD : Nat := 0x04
/-- Modelled from the spec: double-strike flag of the style bitset, see `STYLE_PROP`. -/
def STYLE_DOUBLESTRIKE : Nat := 0x08
/-- Modelled from the spec: double-width flag of the style bitset, see `STYLE_PROP`. -/
def STYLE_DOUBLEWIDTH : Nat := 0x10
/-- Modelled from the spec: italics flag of the style bitset, see `STYLE_PROP`. -/
def STYLE_ITALICS : Nat := 0x20
/-- Modelled from the spec: underline flag of the style bitset, see `STYLE_PROP`. -/
def STYLE_UNDERLINE : Nat := 0x40
/-- Modelled from the spec: superscript flag of the style bitset, see `STYLE_PROP`. -/
def STYLE_SUPERSCRIPT : Nat := 0x80
/-- Modelled from the spec: subscript flag of the style bitset, see `STYLE_PROP`. -/
def STYLE_SUBSCRIPT : Nat := 0x100
/-- Modelled from the spec: strike-through flag of the style bitset, see `STYLE_PROP`. -/
def STYLE_STRIKETHROUGH : Nat := 0x200
/-- Modelled from the spec: overscore flag of the style bitset, see `STYLE_PROP`. -/
def STYLE_OVERSCORE : Nat := 0x400
/-- Modelled from the spec: one-line double-width flag of the style bitset, see `STYLE_PROP`. -/
def STYLE_DOUBLEWIDTHONELINE : Nat := 0x800
/-- Modelled from the spec: double-height flag of the style bitset, see `STYLE_PROP`. -/
def STYLE_DOUBLEHEIGHT : Nat := 0x1000

/-- Modelled from the spec: the `SCORE_*` macros of `printer.h` (absent): the line kinds
none, single, double, single broken, double broken selected by `ESC ( -`. -/
def SCORE_NONE : Nat := 0x00
/-- Modelled from the spec: single continuous score line, see `SCORE_NONE`. -/
def SCORE_SINGLE : Nat := 0x01
/-- Modelled from the spec: double continuous score line, see `SCORE_NONE`. -/
def SCORE_DOUBLE : Nat := 0x02
/-- Modelled from the spec: single broken score line, see `SCORE_NONE`. -/
def SCORE_SINGLEBROKEN : Nat := 0x05
/-- Modelled from the spec: double broken score line, see `SCORE_NONE`. -/
def SCORE_DOUBLEBROKEN : Nat := 0x06

/-- Modelled from the spec: the `QUALITY_*` macros of `printer.h` (absent): draft print
quality. -/
def QUALITY_DRAFT : Nat := 0x01
/-- Modelled from the spec: letter quality, see `QUALITY_DRAFT`. -/
def QUALITY_LQ : Nat := 0x02

/-- Modelled from the spec: the `COLOR_BLACK` macro of `printer.h` (absent). Black is ink
band 7 of the `yyyxxxxx` pixel pattern described in the constructor, so its colour bits
are `7 << 5`. -/
def COLOR_BLACK : Nat := 7 <<< 5

/-- Modelled from the spec: the member `roman` of `enum Typeface` in `printer.h`
(absent); the typefaces are numbered as in the `ESC k` parameter. -/
def roman : Nat := 0

/-! ## Data model -/

/-- A rendered glyph bitmap (`FT_Bitmap`): `buffer` is indexed by `x + y*pitch`. -/
structure FT_Bitmap where
  rows : Nat
  width : Nat
  pitch : Nat
  buffer : Nat → Nat

/-- The glyph slot after `FT_Load_Glyph` and `FT_Render_Glyph`. -/
structure FT_GlyphSlot where
  bitmap : FT_Bitmap
  bitmap_left : Int
  bitmap_top : Int
  advance_x : Int

/-- A loaded face: which font file, the character size set by `FT_Set_Char_Size` and
whether the italic shear was installed by `FT_Set_Transform`. -/
structure FT_Face where
  fontName : String
  charWidth : Nat
  charHeight : Nat
  sheared : Bool

/-- The FreeType library, as an oracle: whether a font file loads, the rendered glyph
of a character code, and the size metrics of a face. -/
structure FT_Library where
  New_Face : String → Bool
  glyph : FT_Face → Nat → FT_GlyphSlot
  ascender : FT_Face → Int
  height : FT_Face → Int

/-- The tables of `printer_charmaps.h` (absent): `charmap` holds the entries before the
terminating entry with code page 0, each a code page and its 256 entry translation table,
`codepages` lists the code pages of `ESC ( t`, `intCharSets` holds the twelve replaced
characters of every international character set. -/
structure Tables where
  charmap : List (Nat × (Nat → Nat))
  codepages : Nat → Nat
  intCharSets : Nat → Nat → Nat

/-- The page surface: `w` by `h` pixels of one byte each. `pixels x y` is the byte of
column `x` in row `y`, that is `page->pixels + x + y*page->pitch`. -/
structure Page where
  w : Nat
  h : Nat
  pixels : Nat → Nat → Nat

/-- Modelled from the spec: the declaration of the bit-image session `bitGraph` in
`printer.h` (absent). The members are those that `setupBitImage` and `printBitGraph` use;
`remBytes` is the number of payload bytes still to come, a counter of 16 bits
(`Bit16u remBytes`): `setupBitImage` reduces the product "columns × bytes-per-column"
modulo 65536. `column` is the buffer of the column being read. -/
structure BitGraph where
  horizDens : Nat
  vertDens : Nat
  adjacent : Bool
  bytesColumn : Nat
  remBytes : Nat
  column : Nat → Nat
  readBytesColumn : Nat

/-- Modelled from the spec: the declaration of `class CPrinter` in `printer.h` (absent).
The members are those that `printer.cpp` uses, under their names there; reals are
`Real64`, counters and bytes are natural numbers, reduced modulo their width where a
value that does not fit is assigned (`neededParam` is `Bit8u`), the arrays `params`,
`horiztabs`, `verttabs`, `charTables` and `curMap` are functions of the index.
`outputPages` is the list of rasters handed to `outputPage`, oldest first.

`params` is the "small fixed buffer" of the parameter bytes, `Bit8u params[20]`, with the
16 bit member `style` declared directly behind it. `paramsOverrun` is no member of the
class: it records, oldest first, every store `params[i] = ch` with `i ≥ 22` as the pair
`(i, ch)`. Such a store lands on the members declared behind `style`, at a place that the
declaration order and the compiler fix; the model leaves those members as they are, so
what it says about them describes the code only as long as `paramsOverrun` is empty. -/
structure CPrinter where
  FTlib : FT_Library
  tables : Tables
  dpi : Nat
  multipageOutput : Bool
  defaultPageWidth : Real64
  defaultPageHeight : Real64
  page : Page
  outputPages : List Page
  curFont : Option FT_Face
  color : Nat
  curX : Real64
  curY : Real64
  pageWidth : Real64
  pageHeight : Real64
  topMargin : Real64
  bottomMargin : Real64
  leftMargin : Real64
  rightMargin : Real64
  lineSpacing : Real64
  cpi : Real64
  actcpi : Real64
  hmi : Real64
  extraIntraSpace : Real64
  definedUnit : Real64
  multipoint : Bool
  multiPointSize : Real64
  multicpi : Real64
  style : Nat
  score : Nat
  printQuality : Nat
  LQtypeFace : Nat
  printUpperContr : Bool
  curCharTable : Nat
  charTables : Nat → Nat
  curMap : Nat → Nat
  horiztabs : Nat → Real64
  numHorizTabs : Nat
  verttabs : Nat → Real64
  numVertTabs : Nat
  ESCSeen : Bool
  FSSeen : Bool
  ESCCmd : Nat
  numParam : Nat
  neededParam : Nat
  params : Nat → Nat
  paramsOverrun : List (Nat × Nat)
  bitGraph : BitGraph
  densk : Nat
  densl : Nat
  densy : Nat
  densz : Nat
  msb : Nat
  numPrintAsChar : Nat
  autoFeed : Bool
  charRead : Bool

/-! ## Helpers for machine arithmetic -/

/-- The test `style & flag` of the source. -/
def hasStyle (style flag : Nat) : Bool := style &&& flag != 0

/-- The update `style &= ~flag` on the 16 bit style word. -/
def clearStyle (style flag : Nat) : Nat := style &&& (0xFFFF - flag)

/-- The macro `PARAM16(I)`: `params[I+1]*256+params[I]`. -/
def PARAM16 (params : Nat → Nat) (i : Nat) : Nat := params (i + 1) * 256 + params i

/-- Conversion of a 16 bit value to `int16_t`. -/
def toInt16 (v : Nat) : Int := if v % 65536 < 32768 then (v % 65536 : Nat) else (v % 65536 : Nat) - 65536

/-- The cast `(uint16_t)q` of a double: truncation, then reduction modulo 2^16. -/
def truncU16 (q : Real64) : Nat := (Int.floor q % 65536).toNat

/-- The cast `(Bitu)floor(q)` of a double to the 64 bit unsigned `Bitu`. -/
def toBitu (q : Real64) : Nat := (Int.floor q % 18446744073709551616).toNat

/-- The macro `PIXX`: `(Bitu)floor(curX*dpi+0.5)`. -/
def PIXX (s : CPrinter) : Nat := toBitu (s.curX * s.dpi + 1 / 2)

/-- The macro `PIXY`: `(Bitu)floor(curY*dpi+0.5)`. -/
def PIXY (s : CPrinter) : Nat := toBitu (s.curY * s.dpi + 1 / 2)

/-! ## Page handling -/

/-- The call `SDL_FillRect(page, &rect, SDL_MapRGB(page->format, 255, 255, 255))` of
`newPage` over the whole surface. Entries 0 to 31 of the palette are white, the colour
is mapped to the first of them, index 0. -/
def Page.clear (pg : Page) : Page :=
  { pg with pixels := fun x y => if x < pg.w ∧ y < pg.h then 0 else pg.pixels x y }

/-- The store `*(page->pixels + x + y*page->pitch) = v`, with no check of its own. -/
def Page.put (pg : Page) (x y v : Nat) : Page :=
  { pg with pixels := fun a b => if a = x ∧ b = y then v else pg.pixels a b }

/-- The member `outputPage`, seen from the interpreter: the current raster is handed to
the output encoder. -/
def outputPage (s : CPrinter) : CPrinter :=
  { s with outputPages := s.outputPages ++ [s.page] }

/-- The member `newPage(save, resetx)`. -/
def newPage (s : CPrinter) (save resetx : Bool) : CPrinter :=
  let s := if save then outputPage s else s
  let s := if resetx then { s with curX := s.leftMargin } else s
  let s := { s with curY := s.topMargin }
  { s with page := s.page.clear }

/-- The member `isBlank`: no pixel of the page differs from 0. -/
def isBlank (s : CPrinter) : Bool :=
  (List.range s.page.h).all fun y => (List.range s.page.w).all fun x => s.page.pixels x y == 0

/-! ## Code page and font selection -/

/-- The search loop of `selectCodepage`: the table of the first entry for `cp`. The
terminating entry has code page 0, so a search for 0 finds nothing. -/
def findCharmap (t : Tables) (cp : Nat) : Option (Nat → Nat) :=
  if cp = 0 then none else (t.charmap.find? fun e => e.1 == cp).map Prod.snd

/-- The member `selectCodepage`: an unsupported code page falls back to 437. (Were 437
itself missing the source would recurse for ever; the model then leaves `curMap`.) -/
def selectCodepage (s : CPrinter) (cp : Nat) : CPrinter :=
  match findCharmap s.tables cp with
  | some m => { s with curMap := m }
  | none =>
    match findCharmap s.tables 437 with
    | some m => { s with curMap := m }
    | none => s

/-- Modelled from the spec: the `switch (LQtypeFace)` of `updateFont` over `enum Typeface`
of `printer.h` (absent), numbered as the `ESC k` parameter: roman 0, sansserif 1,
courier 2, script 4, ocrb 5, ocra 6; every other face prints with the roman font. -/
def fontFileName (face : Nat) : String :=
  if face = 1 then "sansserif.ttf"
  else if face = 2 then "courier.ttf"
  else if face = 4 then "script.ttf"
  else if face = 5 ∨ face = 6 then "ocra.ttf"
  else "roman.ttf"

/-- The pitch computation of `updateFont`: the triple `(actcpi, horizPoints, vertPoints)`. -/
def fontMetrics (s : CPrinter) : Real64 × Real64 × Real64 :=
  let condensed := hasStyle s.style STYLE_CONDENSED
  let m : Real64 × Real64 × Real64 :=
    if !s.multipoint then
      let a := s.cpi
      let hp : Real64 := 21 / 2
      let vp : Real64 := 21 / 2
      let hp := if !condensed then hp * (10 / s.cpi) else hp
      let vp := if !condensed then vp * (10 / s.cpi) else vp
      let m1 : Real64 × Real64 × Real64 :=
        if !hasStyle s.style STYLE_PROP then
          let m0 : Real64 × Real64 × Real64 :=
            if s.cpi = 10 ∧ condensed then (1714 / 100, hp * (10 / (1714 / 100)), vp) else (a, hp, vp)
          if s.cpi = 12 ∧ condensed then (20, m0.2.1 * (10 / 20), m0.2.2 * (10 / 12)) else m0
        else if condensed then (a, hp / 2, vp)
        else (a, hp, vp)
      let m2 : Real64 × Real64 × Real64 :=
        if hasStyle s.style STYLE_DOUBLEWIDTH || hasStyle s.style STYLE_DOUBLEWIDTHONELINE then
          (m1.1 / 2, m1.2.1 * 2, m1.2.2)
        else m1
      if hasStyle s.style STYLE_DOUBLEHEIGHT then (m2.1, m2.2.1, m2.2.2 * 2) else m2
    else (s.multicpi, s.multiPointSize, s.multiPointSize)
  if hasStyle s.style STYLE_SUPERSCRIPT || hasStyle s.style STYLE_SUBSCRIPT then
    (m.1 / (2 / 3), m.2.1 * (2 / 3), m.2.2 * (2 / 3))
  else m

/-- The member `updateFont`: reloads the face of the selected typeface, recomputes the
effective pitch and point sizes and installs the italic shear. -/
def updateFont (s : CPrinter) : CPrinter :=
  let name := fontFileName s.LQtypeFace
  let m := fontMetrics s
  let sheared := hasStyle s.style STYLE_ITALICS || s.charTables s.curCharTable == 0
  let face : Option FT_Face :=
    if s.FTlib.New_Face name then
      some { fontName := name, charWidth := truncU16 m.2.1 * 64,
             charHeight := truncU16 m.2.2 * 64, sheared := sheared }
    else none
  { s with curFont := face, actcpi := m.1 }

/-- The member `resetPrinter`. -/
def resetPrinter (s : CPrinter) : CPrinter :=
  let s := { s with
    color := COLOR_BLACK, curX := 0, curY := 0,
    ESCSeen := false, FSSeen := false, ESCCmd := 0, numParam := 0, neededParam := 0,
    topMargin := 0, leftMargin := 0,
    rightMargin := s.defaultPageWidth, pageWidth := s.defaultPageWidth,
    bottomMargin := s.defaultPageHeight, pageHeight := s.defaultPageHeight,
    lineSpacing := 1 / 6, cpi := 10, curCharTable := 1, style := 0,
    extraIntraSpace := 0, printUpperContr := true,
    bitGraph := { s.bitGraph with remBytes := 0 },
    densk := 0, densl := 1, densy := 2, densz := 3,
    charTables := fun i => if i = 0 then 0 else if i = 1 ∨ i = 2 ∨ i = 3 then 437 else s.charTables i,
    definedUnit := -1, multipoint := false, multiPointSize := 0, multicpi := 0,
    hmi := -1, msb := 255, numPrintAsChar := 0, LQtypeFace := roman }
  let s := selectCodepage s (s.charTables s.curCharTable)
  let s := updateFont s
  let s := newPage s false true
  { s with
    horiztabs := fun i => if i < 32 then (i : Real64) * 8 * (1 / s.cpi) else s.horiztabs i,
    numHorizTabs := 32,
    numVertTabs := 255 }

/-! ## Bit images -/

/-- The arms of the `switch (dens)` of `setupBitImage`: density code, then horizontal
density, vertical density, adjacency and bytes per column. -/
def densityTable : List (Nat × (Nat × Nat × Bool × Nat)) :=
  [(0, (60, 60, true, 1)),
   (1, (120, 60, true, 1)),
   (2, (120, 60, false, 1)),
   (3, (60, 240, false, 1)),
   (4, (80, 60, true, 1)),
   (6, (90, 60, true, 1)),
   (32, (60, 180, true, 3)),
   (33, (120, 180, true, 3)),
   (38, (90, 180, true, 3)),
   (39, (180, 180, true, 3)),
   (40, (360, 180, false, 3)),
   (71, (180, 360, true, 6)),
   (72, (360, 360, false, 6)),
   (73, (360, 360, true, 6))]

/-- The parameters that `setupBitImage` assigns for a supported density code; `none` for
the `default` arm (unsupported density). -/
def densityParams (dens : Nat) : Option (Nat × Nat × Bool × Nat) :=
  (densityTable.find? (fun e => e.1 == dens)).map Prod.snd

/-- The member `setupBitImage(dens, numCols)`. An unsupported density keeps the
parameters of the previous session. The product `numCols * bytesColumn` is stored in the
16 bit member `remBytes`. -/
def setupBitImage (s : CPrinter) (dens numCols : Nat) : CPrinter :=
  let bg : BitGraph :=
    match densityParams dens with
    | some d => { s.bitGraph with horizDens := d.1, vertDens := d.2.1, adjacent := d.2.2.1,
                                  bytesColumn := d.2.2.2 }
    | none => s.bitGraph
  { s with bitGraph := { bg with remBytes := (numCols * bg.bytesColumn) % 65536,
                                 readBytesColumn := 0 } }

/-! ## The command interpreter -/

/-- Commands of the first `switch` of `processCommandChar` with `neededParam = 0`. -/
def escNoParam : List Nat :=
  [0x02, 0x0a, 0x0c, 0x0e, 0x0f, 0x23, 0x30, 0x31, 0x32, 0x34, 0x35, 0x36, 0x37, 0x38, 0x39,
   0x3c, 0x3d, 0x3e, 0x40, 0x45, 0x46, 0x47, 0x48, 0x4d, 0x4f, 0x50, 0x54, 0x5e, 0x67,
   0x834, 0x835, 0x846, 0x852]

/-- Commands of the first `switch` with `neededParam = 1`. -/
def escOneParam : List Nat :=
  [0x19, 0x20, 0x21, 0x2b, 0x2d, 0x2f, 0x33, 0x41, 0x43, 0x49, 0x4a, 0x4e, 0x51, 0x52, 0x53,
   0x55, 0x57, 0x61, 0x66, 0x68, 0x69, 0x6a, 0x6b, 0x6c, 0x70, 0x72, 0x73, 0x74, 0x77, 0x78,
   0x7e, 0x832, 0x833, 0x841, 0x843, 0x845, 0x849, 0x853, 0x856]

/-- Commands of the first `switch` with `neededParam = 2`. -/
def escTwoParam : List Nat :=
  [0x24, 0x3f, 0x4b, 0x4c, 0x59, 0x5a, 0x5c, 0x63, 0x65, 0x85a]

/-- Commands of the first `switch` with `neededParam = 3`. -/
def escThreeParam : List Nat := [0x2a, 0x58]

/-- Commands of the first `switch` with `neededParam = 7`. -/
def escSevenParam : List Nat := [0x5b]

/-- The parameter count that the first `switch` of `processCommandChar` assigns to
`neededParam` for the command identifier `cmd` (`ESC x` is `x`, `FS x` is `x | 0x800`);
`none` for the identifiers of the other arms. -/
def escParamCount (cmd : Nat) : Option Nat :=
  if cmd ∈ escNoParam then some 0
  else if cmd ∈ escOneParam then some 1
  else if cmd ∈ escTwoParam then some 2
  else if cmd ∈ escThreeParam then some 3
  else if cmd ∈ escSevenParam then some 7
  else none

/-- The parameter count that the second `switch` (after `ESC (`) assigns to `neededParam`
for the identifier `cmd = 0x200 + x`; `none` for the `default` arm. -/
def esc2ParamCount (cmd : Nat) : Option Nat :=
  if cmd = 0x242 ∨ cmd = 0x25e then some 2
  else if cmd = 0x255 then some 3
  else if cmd = 0x243 ∨ cmd = 0x256 ∨ cmd = 0x276 then some 4
  else if cmd = 0x274 ∨ cmd = 0x22d then some 5
  else if cmd = 0x263 then some 6
  else none

/-- Control flow of `processCommandChar`: `ret r s` is `return r` in state `s`, `next s`
falls through to the following statement. -/
inductive Flow where
  | ret (r : Bool) (s : CPrinter)
  | next (s : CPrinter)

/-- Sequencing of two statements of `processCommandChar`. -/
def Flow.andThen (f : Flow) (k : CPrinter → Flow) : Flow :=
  match f with
  | Flow.ret r s => Flow.ret r s
  | Flow.next s => k s

/-- The block `if (ESCSeen || FSSeen) { ... }`: `ch` is the command identifier. -/
def escStage (s : CPrinter) (ch : Nat) : Flow :=
  if s.ESCSeen || s.FSSeen then
    let cmd := if s.FSSeen then ch ||| 0x800 else ch
    let s := { s with ESCCmd := cmd, ESCSeen := false, FSSeen := false, numParam := 0 }
    match escParamCount cmd with
    | some n =>
      let s := { s with neededParam := n }
      if n > 0 then Flow.ret true s else Flow.next s
    | none =>
      if cmd = 0x62 ∨ cmd = 0x42 then Flow.ret true { s with numVertTabs := 0 }
      else if cmd = 0x44 then Flow.ret true { s with numHorizTabs := 0 }
      else if cmd = 0x25 ∨ cmd = 0x26 ∨ cmd = 0x3a then Flow.ret true s
      else if cmd = 0x28 then Flow.ret true s
      else Flow.ret true { s with neededParam := 0, ESCCmd := 0 }
  else Flow.next s

/-- The block `if (ESCCmd == '(') { ... }`: `ch` selects the two byte command. -/
def twoByteStage (s : CPrinter) (ch : Nat) : Flow :=
  if s.ESCCmd = 0x28 then
    let cmd := 0x200 + ch
    match esc2ParamCount cmd with
    | some n =>
      let s := { s with ESCCmd := cmd, neededParam := n }
      if n > 0 then Flow.ret true s else Flow.next s
    | none => Flow.ret true { s with neededParam := 2, ESCCmd := 0x101 }
  else Flow.next s

/-- The block `if (ESCCmd == 0x62) { ESCCmd = 0x42; return true; }`. -/
def vfuStage (s : CPrinter) : Flow :=
  if s.ESCCmd = 0x62 then Flow.ret true { s with ESCCmd := 0x42 } else Flow.next s

/-- The block "Collect vertical tabs". -/
def vertTabStage (s : CPrinter) (ch : Nat) : CPrinter :=
  if s.ESCCmd = 0x42 then
    if ch = 0 ∨ (s.numVertTabs > 0 ∧ s.verttabs (s.numVertTabs - 1) > (ch : Real64) * s.lineSpacing) then
      { s with ESCCmd := 0 }
    else if s.numVertTabs < 16 then
      { s with verttabs := fun i => if i = s.numVertTabs then (ch : Real64) * s.lineSpacing
                                     else s.verttabs i,
               numVertTabs := s.numVertTabs + 1 }
    else s
  else s

/-- The block "Collect horizontal tabs". -/
def horizTabStage (s : CPrinter) (ch : Nat) : CPrinter :=
  if s.ESCCmd = 0x44 then
    if ch = 0 ∨ (s.numHorizTabs > 0 ∧ s.horiztabs (s.numHorizTabs - 1) > (ch : Real64) * (1 / s.cpi)) then
      { s with ESCCmd := 0 }
    else if s.numHorizTabs < 32 then
      { s with horiztabs := fun i => if i = s.numHorizTabs then (ch : Real64) * (1 / s.cpi)
                                      else s.horiztabs i,
               numHorizTabs := s.numHorizTabs + 1 }
    else s
  else s

/-- Modelled from the spec: the size of the "small fixed buffer" `params`, declared in
`printer.h` (absent) as `Bit8u params[20]`. -/
def PARAMS_SIZE : Nat := 20

/-- The statement `params[numParam++] = ch`. Below `PARAMS_SIZE` the byte is stored in the
buffer. The source has no bound on the index: the store at index 20 replaces the low byte
of `style`, the store at index 21 its high byte, and a store at a higher index is
recorded in `paramsOverrun`. -/
def storeParam (s : CPrinter) (ch : Nat) : CPrinter :=
  if s.numParam < PARAMS_SIZE then
    { s with params := fun i => if i = s.numParam then ch else s.params i,
             numParam := s.numParam + 1 }
  else if s.numParam = PARAMS_SIZE then
    { s with style := s.style / 256 * 256 + ch % 256, numParam := s.numParam + 1 }
  else if s.numParam = PARAMS_SIZE + 1 then
    { s with style := ch % 256 * 256 + s.style % 256, numParam := s.numParam + 1 }
  else
    { s with paramsOverrun := s.paramsOverrun ++ [(s.numParam, ch)],
             numParam := s.numParam + 1 }

/-- The block `if (numParam < neededParam) { params[numParam++] = ch; ... }`. -/
def paramStage (s : CPrinter) (ch : Nat) : Flow :=
  if s.numParam < s.neededParam then
    let s := storeParam s ch
    if s.numParam < s.neededParam then Flow.ret true s else Flow.next s
  else Flow.next s

/-! ### The arms of the dispatch `switch (ESCCmd)`

Every arm with an effect is a function of its own, named after the command. -/

/-- The statement `style |= flag`. -/
def addStyle (s : CPrinter) (flag : Nat) : CPrinter := { s with style := s.style ||| flag }

/-- The statement `style &= ~flag`. -/
def dropStyle (s : CPrinter) (flag : Nat) : CPrinter := { s with style := clearStyle s.style flag }

/-- The statement `lineSpacing = v`. -/
def setLineSpacing (s : CPrinter) (v : Real64) : CPrinter := { s with lineSpacing := v }

/-- The statement `msb = v` (`ESC #`, `ESC =`, `ESC >`). -/
def setMSB (s : CPrinter) (v : Nat) : CPrinter := { s with msb := v }

/-- The statement `printUpperContr = v` (`ESC 6`, `ESC 7`). -/
def setUpperContr (s : CPrinter) (v : Bool) : CPrinter := { s with printUpperContr := v }

/-- The arms `case 0x0e` (`ESC SO`) and, in the control `switch`, SO: double width for
one line. -/
def selectDoubleWidthOneLine (s : CPrinter) : CPrinter :=
  if s.multipoint = false then
    updateFont { s with hmi := -1, style := s.style ||| STYLE_DOUBLEWIDTHONELINE }
  else s

/-- The arms `case 0x0f` (`ESC SI`) and, in the control `switch`, SI: condensed printing. -/
def selectCondensed (s : CPrinter) : CPrinter :=
  if s.multipoint = false ∧ s.cpi ≠ 15 then
    updateFont { s with hmi := -1, style := s.style ||| STYLE_CONDENSED }
  else s

/-- The arm `case 0x19` (`ESC EM`): `R` ejects the page. -/
def controlPaper (s : CPrinter) : CPrinter :=
  if s.params 0 = 0x52 then newPage s true false else s

/-- The arm `case 0x20` (`ESC SP`): intercharacter space. -/
def setIntercharSpace (s : CPrinter) : CPrinter :=
  if s.multipoint = false then
    updateFont { s with
      extraIntraSpace := (s.params 0 : Real64) / (if s.printQuality = QUALITY_DRAFT then 120 else 180),
      hmi := -1 }
  else s

/-- The arm `case 0x21` (`ESC !`, master select). -/
def masterSelect (s : CPrinter) : CPrinter :=
  let p := s.params 0
  let st := s.style &&& 0xFF80
  let st := if p &&& 0x02 ≠ 0 then st ||| STYLE_PROP else st
  let st := if p &&& 0x04 ≠ 0 then st ||| STYLE_CONDENSED else st
  let st := if p &&& 0x08 ≠ 0 then st ||| STYLE_BOLD else st
  let st := if p &&& 0x10 ≠ 0 then st ||| STYLE_DOUBLESTRIKE else st
  let st := if p &&& 0x20 ≠ 0 then st ||| STYLE_DOUBLEWIDTH else st
  let st := if p &&& 0x40 ≠ 0 then st ||| STYLE_ITALICS else st
  let st := if p &&& 0x80 ≠ 0 then st ||| STYLE_UNDERLINE else st
  updateFont { s with
    cpi := if p &&& 0x01 ≠ 0 then 12 else 10,
    style := st,
    score := if p &&& 0x80 ≠ 0 then SCORE_SINGLE else s.score,
    hmi := -1, multipoint := false }

/-- The arm `case 0x24` (`ESC $`): absolute horizontal position. -/
def setAbsHorizPos (s : CPrinter) : CPrinter :=
  let unitSize : Real64 := if s.definedUnit < 0 then 60 else s.definedUnit
  let newX := s.leftMargin + (PARAM16 s.params 0 : Real64) / unitSize
  if newX ≤ s.rightMargin then { s with curX := newX } else s

/-- The arm `case 0x2d` (`ESC -`): underline on or off. -/
def setUnderline (s : CPrinter) : CPrinter :=
  let p := s.params
  let s := if p 0 = 0 ∨ p 0 = 48 then { s with style := clearStyle s.style STYLE_UNDERLINE } else s
  let s := if p 0 = 1 ∨ p 0 = 49 then
    { s with style := s.style ||| STYLE_UNDERLINE, score := SCORE_SINGLE } else s
  updateFont s

/-- The arm `case 0x3f` (`ESC ?`): reassign a bit-image mode. -/
def reassignBitImage (s : CPrinter) : CPrinter :=
  let p := s.params
  let s := if p 0 = 75 then { s with densk := p 1 } else s
  let s := if p 0 = 76 then { s with densl := p 1 } else s
  let s := if p 0 = 89 then { s with densy := p 1 } else s
  if p 0 = 90 then { s with densz := p 1 } else s

/-- The arm `case 0x43` (`ESC C`) for `params[0] != 0`: page length in lines. -/
def setPageLengthLines (s : CPrinter) : CPrinter :=
  { s with pageHeight := (s.params 0 : Real64) * s.lineSpacing,
           bottomMargin := (s.params 0 : Real64) * s.lineSpacing }

/-- The arm `case 0x4a` (`ESC J`): advance vertically by n/180 inch. -/
def advanceVert (s : CPrinter) : CPrinter :=
  let s := { s with curY := s.curY + (s.params 0 : Real64) / 180 }
  if s.curY > s.bottomMargin then newPage s true false else s

/-- The arms `case 0x4d`, `case 0x50`, `case 0x67` (`ESC M`, `ESC P`, `ESC g`): fixed pitch. -/
def selectPitch (s : CPrinter) (cpi : Real64) : CPrinter :=
  updateFont { s with cpi := cpi, hmi := -1, multipoint := false }

/-- The arm `case 0x4e` (`ESC N`): bottom margin. -/
def setBottomMargin (s : CPrinter) : CPrinter :=
  { s with topMargin := 0, bottomMargin := (s.params 0 : Real64) * s.lineSpacing }

/-- The arm `case 0x4f` (`ESC O`): cancel bottom and top margin. -/
def cancelBottomMargin (s : CPrinter) : CPrinter :=
  { s with topMargin := 0, bottomMargin := s.pageHeight }

/-- The arm `case 0x51` (`ESC Q`): right margin. -/
def setRightMargin (s : CPrinter) : CPrinter :=
  { s with rightMargin := ((s.params 0 : Real64) - 1) / s.cpi }

/-- The arm `case 0x52` (`ESC R`): international character set. -/
def selectIntCharSet (s : CPrinter) : CPrinter :=
  if s.params 0 ≤ 13 ∨ s.params 0 = 64 then
    let p0 := if s.params 0 = 64 then 14 else s.params 0
    let t := s.tables.intCharSets p0
    { s with
      params := fun i => if i = 0 then p0 else s.params i,
      curMap := fun c =>
        if c = 0x23 then t 0 else if c = 0x24 then t 1 else if c = 0x40 then t 2
        else if c = 0x5b then t 3 else if c = 0x5c then t 4 else if c = 0x5d then t 5
        else if c = 0x5e then t 6 else if c = 0x60 then t 7 else if c = 0x7b then t 8
        else if c = 0x7c then t 9 else if c = 0x7d then t 10 else if c = 0x7e then t 11
        else s.curMap c }
  else s

/-- The arm `case 0x53` (`ESC S`): superscript or subscript. The second test reads
`params[1] == 49`, as the source does. -/
def selectSuperSub (s : CPrinter) : CPrinter :=
  let p := s.params
  let s := if p 0 = 0 ∨ p 0 = 48 then { s with style := s.style ||| STYLE_SUBSCRIPT } else s
  let s := if p 0 = 1 ∨ p 1 = 49 then { s with style := s.style ||| STYLE_SUPERSCRIPT } else s
  updateFont s

/-- The arm `case 0x54` (`ESC T`): cancel superscript and subscript. -/
def cancelSuperSub (s : CPrinter) : CPrinter :=
  updateFont { s with style := s.style &&& (0xFFFF - STYLE_SUPERSCRIPT - STYLE_SUBSCRIPT) }

/-- The arm `case 0x57` (`ESC W`): double width on or off. -/
def setDoubleWidth (s : CPrinter) : CPrinter :=
  let p := s.params
  if s.multipoint = false then
    let s := { s with hmi := -1 }
    let s := if p 0 = 0 ∨ p 0 = 48 then { s with style := clearStyle s.style STYLE_DOUBLEWIDTH } else s
    let s := if p 0 = 1 ∨ p 0 = 49 then { s with style := s.style ||| STYLE_DOUBLEWIDTH } else s
    updateFont s
  else s

/-- The arm `case 0x58` (`ESC X`): font by pitch and point. -/
def selectPitchPoint (s : CPrinter) : CPrinter :=
  let p := s.params
  let s := { s with multipoint := true }
  let s := if s.multicpi = 0 then { s with multicpi := s.cpi } else s
  let s :=
    if p 0 > 0 then
      if p 0 = 1 then { s with style := s.style ||| STYLE_PROP }
      else if p 0 ≥ 5 then { s with multicpi := 360 / (p 0 : Real64) }
      else s
    else s
  let s := if s.multiPointSize = 0 then { s with multiPointSize := 21 / 2 } else s
  let s := if PARAM16 p 1 > 0 then { s with multiPointSize := (PARAM16 p 1 : Real64) / 2 } else s
  updateFont s

/-- The arm `case 0x5c` (`ESC \`): relative horizontal position. -/
def setRelHorizPos (s : CPrinter) : CPrinter :=
  let toMove := toInt16 (PARAM16 s.params 0)
  let unitSize : Real64 :=
    if s.definedUnit < 0 then (if s.printQuality = QUALITY_DRAFT then 120 else 180)
    else s.definedUnit
  { s with curX := s.curX + (toMove : Real64) / unitSize }

/-- The arm `case 0x63` (`ESC c`): horizontal motion index. -/
def setHMI (s : CPrinter) : CPrinter :=
  { s with hmi := (PARAM16 s.params 0 : Real64) / 360, extraIntraSpace := 0 }

/-- The arm `case 0x846` (`FS F`): forward feed. -/
def forwardFeed (s : CPrinter) : CPrinter :=
  if s.lineSpacing < 0 then { s with lineSpacing := s.lineSpacing * -1 } else s

/-- The arm `case 0x6a` (`ESC j`): reverse paper feed. -/
def reversePaperFeed (s : CPrinter) : CPrinter :=
  let reverse := s.curY - (PARAM16 s.params 0 : Real64) / 216
  if reverse < s.leftMargin then { s with curY := s.leftMargin } else { s with curY := reverse }

/-- The arm `case 0x6b` (`ESC k`): typeface. -/
def selectTypeface (s : CPrinter) : CPrinter :=
  let p := s.params
  let s := if p 0 ≤ 11 ∨ p 0 = 30 ∨ p 0 = 31 then { s with LQtypeFace := p 0 } else s
  updateFont s

/-- The arm `case 0x6c` (`ESC l`): left margin. -/
def setLeftMargin (s : CPrinter) : CPrinter :=
  let s := { s with leftMargin := ((s.params 0 : Real64) - 1) / s.cpi }
  if s.curX < s.leftMargin then { s with curX := s.leftMargin } else s

/-- The arm `case 0x70` (`ESC p`): proportional mode on or off. -/
def setProportional (s : CPrinter) : CPrinter :=
  let p := s.params
  let s := if p 0 = 0 ∨ p 0 = 48 then { s with style := s.style &&& (0xffff - STYLE_PROP) } else s
  let s := if p 0 = 1 ∨ p 0 = 49 then
    { s with style := s.style ||| STYLE_PROP, printQuality := QUALITY_LQ } else s
  updateFont { s with multipoint := false, hmi := -1 }

/-- The arm `case 0x72` (`ESC r`): printing colour. -/
def selectColor (s : CPrinter) : CPrinter :=
  if s.params 0 = 0 ∨ s.params 0 > 6 then { s with color := COLOR_BLACK }
  else { s with color := s.params 0 <<< 5 }

/-- The arms `case 0x74` and `case 0x849` (`ESC t`, `FS I`): character table. -/
def selectCharTable (s : CPrinter) : CPrinter :=
  let p := s.params
  let s := if p 0 < 4 then { s with curCharTable := p 0 } else s
  let s := if p 0 ≥ 48 ∧ p 0 ≤ 51 then { s with curCharTable := p 0 - 48 } else s
  updateFont (selectCodepage s (s.charTables s.curCharTable))

/-- The arm `case 0x77` (`ESC w`): double height on or off. -/
def setDoubleHeight (s : CPrinter) : CPrinter :=
  let p := s.params
  if s.multipoint = false then
    let s := if p 0 = 0 ∨ p 0 = 48 then { s with style := clearStyle s.style STYLE_DOUBLEHEIGHT } else s
    let s := if p 0 = 1 ∨ p 0 = 49 then { s with style := s.style ||| STYLE_DOUBLEHEIGHT } else s
    updateFont s
  else s

/-- The arm `case 0x78` (`ESC x`): letter quality or draft. -/
def selectQuality (s : CPrinter) : CPrinter :=
  let p := s.params
  let s := if p 0 = 0 ∨ p 0 = 48 then
    { s with printQuality := QUALITY_DRAFT, style := s.style ||| STYLE_CONDENSED } else s
  let s := if p 0 = 1 ∨ p 0 = 49 then
    { s with printQuality := QUALITY_LQ, style := clearStyle s.style STYLE_CONDENSED } else s
  updateFont { s with hmi := -1 }

/-- The arm `case 0x100` (`ESC C NUL n`): page length in inches. -/
def setPageLengthInches (s : CPrinter) : CPrinter :=
  { s with pageHeight := (s.params 0 : Real64), bottomMargin := (s.params 0 : Real64), topMargin := 0 }

/-- The arms `case 0x101` and `case 0x242`: the 16 bit count of an unsupported `ESC (`
command or of the bar code command becomes the number of bytes to skip. It is assigned
to the 8 bit member `neededParam`, which keeps its low byte. -/
def skipCount (s : CPrinter) : CPrinter :=
  { s with neededParam := PARAM16 s.params 0 % 256, numParam := 0 }

/-- The arm `case 0x274` (`ESC ( t`): assign a character table. -/
def assignCharTable (s : CPrinter) : CPrinter :=
  let p := s.params
  if p 2 < 4 ∧ p 3 < 16 then
    let s := { s with charTables := fun i => if i = p 2 then s.tables.codepages (p 3)
                                             else s.charTables i }
    if p 2 = s.curCharTable then selectCodepage s (s.charTables s.curCharTable) else s
  else s

/-- The arm `case 0x22d` (`ESC ( -`): line/score. -/
def selectScore (s : CPrinter) : CPrinter :=
  let st := clearStyle s.style (STYLE_UNDERLINE ||| STYLE_STRIKETHROUGH ||| STYLE_OVERSCORE)
  let score := s.params 4
  let st :=
    if score ≠ 0 then
      let st := if s.params 3 = 1 then st ||| STYLE_UNDERLINE else st
      let st := if s.params 3 = 2 then st ||| STYLE_STRIKETHROUGH else st
      if s.params 3 = 3 then st ||| STYLE_OVERSCORE else st
    else st
  updateFont { s with style := st, score := score }

/-- The arm `case 0x243` (`ESC ( C`): page length in the defined unit. -/
def setPageLengthUnits (s : CPrinter) : CPrinter :=
  if s.params 0 ≠ 0 ∧ s.definedUnit > 0 then
    { s with pageHeight := (PARAM16 s.params 2 : Real64) * s.definedUnit,
             bottomMargin := (PARAM16 s.params 2 : Real64) * s.definedUnit,
             topMargin := 0 }
  else s

/-- The arm `case 0x255` (`ESC ( U`): set the unit. -/
def setUnit (s : CPrinter) : CPrinter :=
  { s with definedUnit := (s.params 2 : Real64) / 3600 }

/-- The arm `case 0x256` (`ESC ( V`): absolute vertical position. -/
def setAbsVertPos (s : CPrinter) : CPrinter :=
  let unitSize : Real64 := if s.definedUnit < 0 then 360 else s.definedUnit
  let newPos := s.topMargin + (PARAM16 s.params 2 : Real64) * unitSize
  if newPos > s.bottomMargin then newPage s true false else { s with curY := newPos }

/-- The arm `case 0x25e` (`ESC ( ^`): print the next bytes as characters. -/
def printAsChars (s : CPrinter) : CPrinter :=
  { s with numPrintAsChar := PARAM16 s.params 0 }

/-- The arm `case 0x263` (`ESC ( c`): page format. -/
def setPageFormat (s : CPrinter) : CPrinter :=
  if s.definedUnit > 0 then
    let newTop := (PARAM16 s.params 2 : Real64) * s.definedUnit
    let newBottom := (PARAM16 s.params 4 : Real64) * s.definedUnit
    if newTop ≥ newBottom then s
    else
      let s := if newTop < s.pageHeight then { s with topMargin := newTop } else s
      let s := if newBottom < s.pageHeight then { s with bottomMargin := newBottom } else s
      if s.topMargin > s.curY then { s with curY := s.topMargin } else s
  else s

/-- The arm `case 0x276` (`ESC ( v`): relative vertical position. -/
def setRelVertPos (s : CPrinter) : CPrinter :=
  let unitSize : Real64 := if s.definedUnit < 0 then 360 else s.definedUnit
  let newPos := s.curY + (toInt16 (PARAM16 s.params 2) : Real64) * unitSize
  if newPos > s.topMargin then
    if newPos > s.bottomMargin then newPage s true false else { s with curY := newPos }
  else s

/-- The arms of the dispatch `switch (ESCCmd)` as a table of case label and arm, in the
order of the source (a label shared by two `case` lines has two rows). The arm of `ESC C`
stands for `params[0] != 0` (see `dispatchStage`). -/
def commandTable : List (Nat × (CPrinter → CPrinter)) :=
  [(0x02, fun s => s),
   (0x0e, selectDoubleWidthOneLine),
   (0x0f, selectCondensed),
   (0x19, controlPaper),
   (0x20, setIntercharSpace),
   (0x21, masterSelect),
   (0x23, fun s => setMSB s 255),
   (0x24, setAbsHorizPos),
   (0x85a, fun s => setupBitImage s 40 (PARAM16 s.params 0)),
   (0x2a, fun s => setupBitImage s (s.params 0) (PARAM16 s.params 1)),
   (0x2b, fun s => setLineSpacing s ((s.params 0 : Real64) / 360)),
   (0x833, fun s => setLineSpacing s ((s.params 0 : Real64) / 360)),
   (0x2d, setUnderline),
   (0x2f, fun s => s),
   (0x30, fun s => setLineSpacing s (1 / 8)),
   (0x32, fun s => setLineSpacing s (1 / 6)),
   (0x33, fun s => setLineSpacing s ((s.params 0 : Real64) / 180)),
   (0x34, fun s => updateFont (addStyle s STYLE_ITALICS)),
   (0x35, fun s => updateFont (dropStyle s STYLE_ITALICS)),
   (0x36, fun s => setUpperContr s true),
   (0x37, fun s => setUpperContr s false),
   (0x3c, fun s => s),
   (0x3d, fun s => setMSB s 0),
   (0x3e, fun s => setMSB s 1),
   (0x3f, reassignBitImage),
   (0x40, resetPrinter),
   (0x41, fun s => setLineSpacing s ((s.params 0 : Real64) / 60)),
   (0x841, fun s => setLineSpacing s ((s.params 0 : Real64) / 60)),
   (0x43, setPageLengthLines),
   (0x45, fun s => updateFont (addStyle s STYLE_BOLD)),
   (0x46, fun s => updateFont (dropStyle s STYLE_BOLD)),
   (0x47, fun s => addStyle s STYLE_DOUBLESTRIKE),
   (0x48, fun s => dropStyle s STYLE_DOUBLESTRIKE),
   (0x4a, advanceVert),
   (0x4b, fun s => setupBitImage s s.densk (PARAM16 s.params 0)),
   (0x4c, fun s => setupBitImage s s.densl (PARAM16 s.params 0)),
   (0x4d, fun s => selectPitch s 12),
   (0x4e, setBottomMargin),
   (0x4f, cancelBottomMargin),
   (0x50, fun s => selectPitch s 10),
   (0x51, setRightMargin),
   (0x52, selectIntCharSet),
   (0x53, selectSuperSub),
   (0x54, cancelSuperSub),
   (0x55, fun s => s),
   (0x57, setDoubleWidth),
   (0x58, selectPitchPoint),
   (0x59, fun s => setupBitImage s s.densy (PARAM16 s.params 0)),
   (0x5a, fun s => setupBitImage s s.densz (PARAM16 s.params 0)),
   (0x5c, setRelHorizPos),
   (0x61, fun s => s),
   (0x63, setHMI),
   (0x67, fun s => selectPitch s 15),
   (0x846, forwardFeed),
   (0x6a, reversePaperFeed),
   (0x6b, selectTypeface),
   (0x6c, setLeftMargin),
   (0x70, setProportional),
   (0x72, selectColor),
   (0x73, fun s => s),
   (0x74, selectCharTable),
   (0x849, selectCharTable),
   (0x77, setDoubleHeight),
   (0x78, selectQuality),
   (0x100, setPageLengthInches),
   (0x101, skipCount),
   (0x274, assignCharTable),
   (0x22d, selectScore),
   (0x242, skipCount),
   (0x243, setPageLengthUnits),
   (0x255, setUnit),
   (0x256, setAbsVertPos),
   (0x25e, printAsChars),
   (0x263, setPageFormat),
   (0x276, setRelVertPos)]

/-- The body of the dispatch `switch (ESCCmd)` up to its `break`: the arm of the case
label `ESCCmd`; identifiers without an arm reach `default`, which only logs. -/
def commandEffect (s : CPrinter) : CPrinter :=
  match commandTable.find? (fun e => e.1 == s.ESCCmd) with
  | some e => e.2 s
  | none => s

/-- The block `if (ESCCmd != 0) { switch (ESCCmd) ... ESCCmd = 0; return true; }`. The arm
of `ESC C` with `params[0] == 0` returns early, waiting for the page length in inches
under the internal identifier `0x100`. -/
def dispatchStage (s : CPrinter) : Flow :=
  if s.ESCCmd ≠ 0 then
    if s.ESCCmd = 0x43 ∧ s.params 0 = 0 then
      Flow.ret true { s with neededParam := 1, numParam := 0, ESCCmd := 0x100 }
    else Flow.ret true { commandEffect s with ESCCmd := 0 }
  else Flow.next s

/-! ### The control codes -/

/-- The loop `for (i = 0; i < n; i++) if (tabs[i] > pos) moveTo = tabs[i];` of the HT and
VT arms, started with `moveTo = -1`. -/
def findTab (tabs : Nat → Real64) (n : Nat) (pos : Real64) : Real64 :=
  (List.range n).foldl (fun moveTo i => if tabs i > pos then tabs i else moveTo) (-1)

/-- The statement `if (style & STYLE_DOUBLEWIDTHONELINE) { style &= 0xFFFF - ...; updateFont(); }`. -/
def cancelOneLineWidth (s : CPrinter) : CPrinter :=
  if hasStyle s.style STYLE_DOUBLEWIDTHONELINE then
    updateFont { s with style := s.style &&& (0xFFFF - STYLE_DOUBLEWIDTHONELINE) }
  else s

/-- The arm `case 0x08` (BS) of the control `switch`. -/
def backspace (s : CPrinter) : CPrinter :=
  let newX := if s.hmi > 0 then s.curX - s.hmi else s.curX - 1 / s.actcpi
  if newX ≥ s.leftMargin then { s with curX := newX } else s

/-- The arm `case 0x09` (HT) of the control `switch`. -/
def horizTab (s : CPrinter) : CPrinter :=
  let moveTo := findTab s.horiztabs s.numHorizTabs s.curX
  if moveTo > 0 ∧ moveTo < s.rightMargin then { s with curX := moveTo } else s

/-- The arm `case 0x0a` (line feed) of the control `switch`; CR falls into it when
`autoFeed` is set. -/
def lineFeed (s : CPrinter) : CPrinter :=
  let s := cancelOneLineWidth s
  let s := { s with curX := s.leftMargin, curY := s.curY + s.lineSpacing }
  if s.curY > s.bottomMargin then newPage s true false else s

/-- The arm `case 0x0b` (VT) of the control `switch`. -/
def vertTab (s : CPrinter) : CPrinter :=
  let s :=
    if s.numVertTabs = 0 then { s with curX := s.leftMargin }
    else if s.numVertTabs = 255 then
      let s := { s with curX := s.leftMargin, curY := s.curY + s.lineSpacing }
      if s.curY > s.bottomMargin then newPage s true false else s
    else
      let moveTo := findTab s.verttabs s.numVertTabs s.curY
      if moveTo > s.bottomMargin ∨ moveTo < 0 then newPage s true false
      else { s with curY := moveTo }
  cancelOneLineWidth s

/-- The arm `case 0x0c` (FF) of the control `switch`. -/
def formFeedCode (s : CPrinter) : CPrinter := newPage (cancelOneLineWidth s) true true

/-- The arm `case 0x0d` (CR) of the control `switch`, with its fall through into the
line feed when `autoFeed` is set. -/
def carriageReturn (s : CPrinter) : CPrinter :=
  let s := { s with curX := s.leftMargin }
  if s.autoFeed = false then s else lineFeed s

/-- The arm `case 0x12` (DC2) of the control `switch`: cancel condensed printing. -/
def cancelCondensed (s : CPrinter) : CPrinter :=
  updateFont { s with hmi := -1, style := clearStyle s.style STYLE_CONDENSED }

/-- The arm `case 0x14` (DC4) of the control `switch`: cancel one line double width. -/
def cancelDoubleWidthOneLine (s : CPrinter) : CPrinter :=
  updateFont { s with hmi := -1, style := clearStyle s.style STYLE_DOUBLEWIDTHONELINE }

/-- The arm `case 0x1b` (ESC) of the control `switch`. -/
def seeESC (s : CPrinter) : CPrinter := { s with ESCSeen := true }

/-- The arm `case 0x1c` (FS) of the control `switch`. -/
def seeFS (s : CPrinter) : CPrinter := { s with FSSeen := true }

/-- The final `switch (ch)` of `processCommandChar`: the single byte control codes. -/
def controlStage (s : CPrinter) (ch : Nat) : Bool × CPrinter :=
  if ch = 0x00 then (true, s)
  else if ch = 0x07 then (true, s)
  else if ch = 0x08 then (true, backspace s)
  else if ch = 0x09 then (true, horizTab s)
  else if ch = 0x0b then (true, vertTab s)
  else if ch = 0x0c then (true, formFeedCode s)
  else if ch = 0x0d then (true, carriageReturn s)
  else if ch = 0x0a then (true, lineFeed s)
  else if ch = 0x0e then (true, selectDoubleWidthOneLine s)
  else if ch = 0x0f then (true, selectCondensed s)
  else if ch = 0x11 then (true, s)
  else if ch = 0x12 then (true, cancelCondensed s)
  else if ch = 0x13 then (true, s)
  else if ch = 0x14 then (true, cancelDoubleWidthOneLine s)
  else if ch = 0x18 then (true, s)
  else if ch = 0x1b then (true, seeESC s)
  else if ch = 0x1c then (true, seeFS s)
  else (false, s)

/-- The member `processCommandChar(ch)`: the result is the returned `bool` (true when
the byte was consumed as a command, false when it is to be printed) and the new state. -/
def processCommandChar (s : CPrinter) (ch : Nat) : Bool × CPrinter :=
  let f :=
    (((escStage s ch).andThen fun s => twoByteStage s ch).andThen vfuStage).andThen fun s =>
      ((paramStage (horizTabStage (vertTabStage s ch) ch) ch).andThen dispatchStage)
  match f with
  | Flow.ret r s => (r, s)
  | Flow.next s => controlStage s ch

/-! ## Raster operations -/

/-- The body of the two loops of `blitGlyph` for the glyph pixel `(x, y)`. -/
def blitPixel (color : Nat) (bitmap : FT_Bitmap) (destx desty : Nat) (add : Bool)
    (pg : Page) (x y : Nat) : Page :=
  let source := bitmap.buffer (x + y * bitmap.pitch)
  if source > 0 ∧ destx + x < pg.w ∧ desty + y < pg.h then
    let target := pg.pixels (x + destx) (y + desty)
    let source := source >>> 3
    if add then
      if (target &&& 0x1f) + source > 31 then
        pg.put (x + destx) (y + desty) (target ||| (color ||| 0x1f))
      else
        pg.put (x + destx) (y + desty) (((target + source) % 256) ||| color)
    else pg.put (x + destx) (y + desty) (source ||| color)
  else pg

/-- The member `blitGlyph(bitmap, destx, desty, add)`, on the page. -/
def blitGlyphPage (color : Nat) (bitmap : FT_Bitmap) (destx desty : Nat) (add : Bool)
    (pg : Page) : Page :=
  (List.range bitmap.rows).foldl
    (fun pg y => (List.range bitmap.width).foldl
      (fun pg x => blitPixel color bitmap destx desty add pg x y) pg) pg

/-- The member `blitGlyph(bitmap, destx, desty, add)`. -/
def blitGlyph (s : CPrinter) (bitmap : FT_Bitmap) (destx desty : Nat) (add : Bool) : CPrinter :=
  { s with page := blitGlyphPage s.color bitmap destx desty add s.page }

/-- The body of the loop of `drawLine` for the column `x`. -/
def drawLinePixel (dpi : Nat) (y : Nat) (broken : Bool) (pg : Page) (x : Nat) : Page :=
  let breakmod := dpi / 15
  let gapstart := (breakmod * 4) / 5
  if (broken = false ∨ x % breakmod ≤ gapstart) ∧ x < pg.w then
    let pg := if y > 0 ∧ y - 1 < pg.h then pg.put x (y - 1) 240 else pg
    let pg := if y < pg.h then pg.put x y (if broken = false then 255 else 240) else pg
    if y + 1 < pg.h then pg.put x (y + 1) 240 else pg
  else pg

/-- The member `drawLine(fromx, tox, y, broken)`: the columns `fromx` to `tox`, both
included. -/
def drawLine (s : CPrinter) (fromx tox y : Nat) (broken : Bool) : CPrinter :=
  { s with page := (List.range' fromx (tox + 1 - fromx)).foldl (drawLinePixel s.dpi y broken) s.page }

/-- The innermost statement of `printBitGraph` for the offsets `xx`, `yy`: the guarded
`*pixel |= (color|0x1F)` at the cursor of `s`. -/
def bitDotPixel (s : CPrinter) (pg : Page) (xx yy : Nat) : Page :=
  if PIXX s + xx < pg.w ∧ PIXY s + yy < pg.h then
    pg.put (PIXX s + xx) (PIXY s + yy)
      (pg.pixels (PIXX s + xx) (PIXY s + yy) ||| (s.color ||| 0x1F))
  else pg

/-- The two innermost loops of `printBitGraph`: one dot of `pixsizeX` by `pixsizeY`
pixels at the cursor. -/
def bitDot (s : CPrinter) (pixsizeX pixsizeY : Nat) : CPrinter :=
  let pg := (List.range pixsizeX).foldl
    (fun pg xx => (List.range pixsizeY).foldl (fun pg yy => bitDotPixel s pg xx yy) pg) s.page
  { s with page := pg }

/-- The loop `for (j = 128; j != 0; j >>= 1)` of `printBitGraph` over the bits of the
column byte `b`, most significant first; `curY` moves down one dot per bit. -/
def bitColumnByte (pixsizeX pixsizeY : Nat) (s : CPrinter) (b : Nat) : CPrinter :=
  [128, 64, 32, 16, 8, 4, 2, 1].foldl
    (fun s j =>
      let s := if b &&& j ≠ 0 then bitDot s pixsizeX pixsizeY else s
      { s with curY := s.curY + 1 / (s.bitGraph.vertDens : Real64) }) s

/-- The rasterisation of a complete column in `printBitGraph`, from `Real64 oldY = curY`
to the advance of `curX`. -/
def rasterColumn (s : CPrinter) : CPrinter :=
  let oldY := s.curY
  let pixsizeX :=
    if s.bitGraph.adjacent then (if s.dpi / s.bitGraph.horizDens > 0 then s.dpi / s.bitGraph.horizDens else 1)
    else 1
  let pixsizeY :=
    if s.bitGraph.adjacent then (if s.dpi / s.bitGraph.vertDens > 0 then s.dpi / s.bitGraph.vertDens else 1)
    else 1
  let s := (List.range s.bitGraph.bytesColumn).foldl
    (fun s i => bitColumnByte pixsizeX pixsizeY s (s.bitGraph.column i)) s
  { s with curY := oldY,
           bitGraph := { s.bitGraph with readBytesColumn := 0 },
           curX := s.curX + 1 / (s.bitGraph.horizDens : Real64) }

/-- The member `printBitGraph(ch)`. -/
def printBitGraph (s : CPrinter) (ch : Nat) : CPrinter :=
  let s := { s with bitGraph := { s.bitGraph with
    column := fun i => if i = s.bitGraph.readBytesColumn then ch else s.bitGraph.column i,
    readBytesColumn := s.bitGraph.readBytesColumn + 1,
    remBytes := s.bitGraph.remBytes - 1 } }
  if s.bitGraph.readBytesColumn < s.bitGraph.bytesColumn then s else rasterColumn s

/-! ## Printing a character -/

/-- The score lines of `printChar` ("Draw lines if desired"), drawn from `lineStart` to
the new `PIXX`. -/
def drawScore (s : CPrinter) (face : FT_Face) (lineStart : Nat) : CPrinter :=
  if s.score ≠ SCORE_NONE ∧
      hasStyle s.style (STYLE_UNDERLINE ||| STYLE_STRIKETHROUGH ||| STYLE_OVERSCORE) then
    let height : Real64 := ((s.FTlib.height face / 64 : Int) : Real64)
    let double := s.score = SCORE_DOUBLE ∨ s.score = SCORE_DOUBLEBROKEN
    let broken : Bool := s.score = SCORE_SINGLEBROKEN ∨ s.score = SCORE_DOUBLEBROKEN
    let lineY : Nat :=
      if hasStyle s.style STYLE_UNDERLINE then (PIXY s + truncU16 (height * (9 / 10))) % 65536
      else if hasStyle s.style STYLE_STRIKETHROUGH then (PIXY s + truncU16 (height * (45 / 100))) % 65536
      else if hasStyle s.style STYLE_OVERSCORE then
        (((PIXY s : Int) - (if double then 5 else 0)) % 65536).toNat
      else PIXY s % 65536
    let s := drawLine s lineStart (PIXX s) lineY broken
    if double then drawLine s lineStart (PIXX s) (lineY + 5) broken else s
  else s

/-- The end of `printChar`: the line wrap when the next character would go beyond the
right margin. -/
def wrapLine (s : CPrinter) (x_advance : Real64) : CPrinter :=
  if s.curX + x_advance > s.rightMargin then
    let s := { s with curX := s.leftMargin, curY := s.curY + s.lineSpacing }
    if s.curY > s.bottomMargin then newPage s true false else s
  else s

/-- The part of `printChar` after command processing: renders the character `ch` with
the current font, advances the cursor, draws the score lines and wraps the line. -/
def renderChar (s : CPrinter) (ch : Nat) : CPrinter :=
  match s.curFont with
  | none => s
  | some face =>
    let ch := if ch = 0x1 then 0x20 else ch
    let g := s.FTlib.glyph face (s.curMap ch)
    let penX : Nat := (((PIXX s : Int) + g.bitmap_left) % 65536).toNat
    let penY : Nat := (((PIXY s : Int) - g.bitmap_top + Int.tdiv (s.FTlib.ascender face) 64) % 65536).toNat
    let penY := if hasStyle s.style STYLE_SUBSCRIPT then (penY + g.bitmap.rows / 2) % 65536 else penY
    let s := blitGlyph s g.bitmap penX penY false
    let s := blitGlyph s g.bitmap ((penX + 1) % 65536) penY true
    let s :=
      if hasStyle s.style STYLE_DOUBLESTRIKE then
        blitGlyph (blitGlyph s g.bitmap penX ((penY + 1) % 65536) true)
          g.bitmap ((penX + 1) % 65536) ((penY + 1) % 65536) true
      else s
    let s :=
      if hasStyle s.style STYLE_BOLD then
        blitGlyph (blitGlyph (blitGlyph s g.bitmap ((penX + 1) % 65536) penY true)
          g.bitmap ((penX + 2) % 65536) penY true) g.bitmap ((penX + 3) % 65536) penY true
      else s
    let lineStart : Nat := PIXX s % 65536
    let x_advance : Real64 :=
      (if hasStyle s.style STYLE_PROP then (g.advance_x : Real64) / ((s.dpi * 64 : Nat) : Real64)
       else if s.hmi < 0 then 1 / s.actcpi else s.hmi) + s.extraIntraSpace
    let s := { s with curX := s.curX + x_advance }
    let s := drawScore s face lineStart
    wrapLine s x_advance

/-- The block "Apply MSB if desired" of `printChar`. -/
def applyMSB (msb ch : Nat) : Nat :=
  if msb ≠ 255 then
    let ch := if msb = 0 then ch &&& 0x7F else ch
    if msb = 1 then ch ||| 0x80 else ch
  else ch

/-- The member `printChar(ch)`, for a printer whose page surface exists (`page != NULL`). -/
def printChar (s : CPrinter) (ch : Nat) : CPrinter :=
  let s := { s with charRead := true }
  let ch := applyMSB s.msb ch
  if s.bitGraph.remBytes > 0 then printBitGraph s ch
  else if s.numPrintAsChar > 0 then
    renderChar { s with numPrintAsChar := s.numPrintAsChar - 1 } ch
  else
    let r := processCommandChar s ch
    if r.1 then r.2 else renderChar r.2 ch

/-- Feeding a byte sequence to `processCommandChar`, one call per byte. -/
def feedCommand (s : CPrinter) (bytes : List Nat) : CPrinter :=
  bytes.foldl (fun s ch => (processCommandChar s ch).2) s

/-- Feeding a byte sequence to `printChar`, one call per byte. -/
def feed (s : CPrinter) (bytes : List Nat) : CPrinter :=
  bytes.foldl printChar s

/-! ## Construction -/

/-- The constructor `CPrinter(dpi, width, height, output, multipageOutput)` for a FreeType
library that initialised. `raw` stands for the memory of the new object: it supplies the
FreeType oracle, the tables and the value of every member that neither the constructor nor
`resetPrinter` assigns. No parameter has been stored yet: `paramsOverrun` starts empty. -/
def construct (raw : CPrinter) (dpi width height : Nat) (multipageOutput : Bool) : CPrinter :=
  let dw : Real64 := (width : Real64) / 10
  let dh : Real64 := (height : Real64) / 10
  resetPrinter { raw with
    dpi := dpi, multipageOutput := multipageOutput,
    defaultPageWidth := dw, defaultPageHeight := dh,
    page := { w := toBitu (dw * dpi), h := toBitu (dh * dpi), pixels := fun _ _ => 0 },
    outputPages := [], paramsOverrun := [],
    color := COLOR_BLACK, curFont := none, charRead := false, autoFeed := false }

/-- A one pixel glyph of full coverage, the answer of the sample FreeType oracle. -/
def sampleGlyph : FT_GlyphSlot :=
  { bitmap := { rows := 1, width := 1, pitch := 1, buffer := fun _ => 255 },
    bitmap_left := 0, bitmap_top := 0, advance_x := 64 }

/-- Sample memory for `construct`: every font loads, code page 437 is the identity
table, all other members are zero. -/
def sampleRaw : CPrinter :=
  { FTlib := { New_Face := fun _ => true, glyph := fun _ _ => sampleGlyph,
               ascender := fun _ => 0, height := fun _ => 0 },
    tables := { charmap := [(437, fun c => c)], codepages := fun _ => 437,
                intCharSets := fun _ _ => 0 },
    dpi := 0, multipageOutput := false, defaultPageWidth := 0, defaultPageHeight := 0,
    page := { w := 0, h := 0, pixels := fun _ _ => 0 }, outputPages := [], curFont := none,
    color := 0, curX := 0, curY := 0, pageWidth := 0, pageHeight := 0, topMargin := 0,
    bottomMargin := 0, leftMargin := 0, rightMargin := 0, lineSpacing := 0, cpi := 0,
    actcpi := 0, hmi := 0, extraIntraSpace := 0, definedUnit := 0, multipoint := false,
    multiPointSize := 0, multicpi := 0, style := 0, score := 0, printQuality := 0,
    LQtypeFace := 0, printUpperContr := false, curCharTable := 0, charTables := fun _ => 0,
    curMap := fun _ => 0, horiztabs := fun _ => 0, numHorizTabs := 0, verttabs := fun _ => 0,
    numVertTabs := 0, ESCSeen := false, FSSeen := false, ESCCmd := 0, numParam := 0,
    neededParam := 0, params := fun _ => 0, paramsOverrun := [],
    bitGraph := { horizDens := 0, vertDens := 0, adjacent := false, bytesColumn := 0,
                  remBytes := 0, column := fun _ => 0, readBytesColumn := 0 },
    densk := 0, densl := 0, densy := 0, densz := 0, msb := 0, numPrintAsChar := 0,
    autoFeed := false, charRead := false }

/-- A freshly constructed printer on a small page: 20 dpi, 2.0 by 3.0 inch. -/
def samplePrinter : CPrinter := construct sampleRaw 20 20 30 false

/-! ## Vocabulary of the statements -/

/-- The parser of `processCommandChar` is idle: no introducer seen, no command in
progress, no parameter or skipped byte pending. -/
def ParserIdle (s : CPrinter) : Prop :=
  s.ESCSeen = false ∧ s.FSSeen = false ∧ s.ESCCmd = 0 ∧ s.neededParam ≤ s.numParam

/-- The state `Idle`: the parser is idle, no bit-image session is open and no byte is
left of a print-as-characters run (`ESC ( ^`), so the next byte goes to the parser. -/
def Idle (s : CPrinter) : Prop :=
  ParserIdle s ∧ s.bitGraph.remBytes = 0 ∧ s.numPrintAsChar = 0

/-- The parser is collecting the parameters of the command `cmd`: `n` are needed and the
bytes `qs` have been stored so far. -/
def Collecting (s : CPrinter) (cmd n : Nat) (qs : List Nat) : Prop :=
  s.ESCSeen = false ∧ s.FSSeen = false ∧ s.ESCCmd = cmd ∧ s.neededParam = n ∧
  s.numParam = qs.length ∧ ∀ i, i < qs.length → s.params i = qs.getD i 0

/-- The escape commands that the two declaring `switch`es of `processCommandChar` know,
each with the bytes that select it, its identifier in `ESCCmd` and its declared number of
parameter bytes: `ESC x`, `FS x` and `ESC ( x`. -/
inductive Declared : List Nat → Nat → Nat → Prop
  | esc (x n : Nat) : x < 256 → escParamCount x = some n → Declared [0x1b, x] x n
  | fs (x n : Nat) : x < 256 → escParamCount (x ||| 0x800) = some n →
      Declared [0x1c, x] (x ||| 0x800) n
  | esc2 (x n : Nat) : x < 256 → esc2ParamCount (0x200 + x) = some n →
      Declared [0x1b, 0x28, x] (0x200 + x) n

/-- The identifiers of the bit-image commands `ESC K`, `ESC L`, `ESC Y`, `ESC Z`, `ESC *`
and `FS Z`. -/
def bitImageCmds : List Nat := [0x4b, 0x4c, 0x59, 0x5a, 0x2a, 0x85a]

/-- The single byte control codes NUL, BEL, BS, HT, VT, FF, CR, LF, SO, SI, DC1, DC2, DC3,
DC4 and CAN. -/
def controlCodes : List Nat :=
  [0x00, 0x07, 0x08, 0x09, 0x0b, 0x0c, 0x0d, 0x0a, 0x0e, 0x0f, 0x11, 0x12, 0x13, 0x14, 0x18]

/-- What an arm of the dispatch `switch` other than `ESC @` keeps: the introducer flags,
the parameter counters (but for the two skipping arms) and the bit-image session (but
for the bit-image commands). -/
def CmdFrame (s t : CPrinter) : Prop :=
  t.ESCSeen = s.ESCSeen ∧ t.FSSeen = s.FSSeen ∧
  (s.ESCCmd ≠ 0x101 → s.ESCCmd ≠ 0x242 → t.numParam = s.numParam ∧ t.neededParam = s.neededParam) ∧
  (s.ESCCmd ∉ bitImageCmds → t.bitGraph = s.bitGraph)

/-- The state after the last parameter byte has been stored and the command dispatched. -/
def dispatched (s : CPrinter) : CPrinter :=
  if s.ESCCmd = 0x43 ∧ s.params 0 = 0 then
    { s with neededParam := 1, numParam := 0, ESCCmd := 0x100 }
  else { commandEffect s with ESCCmd := 0 }

/-- An identifier that none of the special blocks before the parameter block reacts to. -/
def PlainCmd (cmd : Nat) : Prop := cmd ≠ 0x28 ∧ cmd ≠ 0x62 ∧ cmd ≠ 0x42 ∧ cmd ≠ 0x44 ∧ cmd ≠ 0

/-- The state in which the first parameter byte of the command `cmd` is awaited. -/
def armed (s : CPrinter) (cmd n : Nat) : CPrinter :=
  { s with ESCCmd := cmd, ESCSeen := false, FSSeen := false, numParam := 0, neededParam := n }

/-- Everything in `processCommandChar` between the first block and the control `switch`. -/
def afterEsc (s : CPrinter) (ch : Nat) : Flow :=
  ((twoByteStage s ch).andThen vfuStage).andThen fun s =>
    (paramStage (horizTabStage (vertTabStage s ch) ch) ch).andThen dispatchStage

/-- The end of `processCommandChar`: a pending `return`, or else the control `switch`. -/
def finish (f : Flow) (ch : Nat) : Bool × CPrinter :=
  match f with
  | Flow.ret r s => (r, s)
  | Flow.next s => controlStage s ch

/-- The case labels of the first `switch` of `processCommandChar` that have an arm of their
own without declaring a parameter count: `ESC b`, `ESC B`, `ESC D`, the user-defined
character commands `ESC %`, `ESC &`, `ESC :` and the two byte introducer `ESC (`. -/
def escSpecial : List Nat := [0x62, 0x42, 0x44, 0x25, 0x26, 0x3a, 0x28]

/-- The identifier `cmd` is a case label of the first `switch` (the ESC/FS command table). -/
def InEscTable (cmd : Nat) : Prop := escParamCount cmd ≠ none ∨ cmd ∈ escSpecial

/-- The page `pg'` differs from `pg` inside the page bounds only: same size, and no
pixel cell with a column `a ≥ w` or a row `b ≥ h` has been written. -/
def Page.Clipped (pg pg' : Page) : Prop :=
  pg'.w = pg.w ∧ pg'.h = pg.h ∧ ∀ a b, ¬ (a < pg.w ∧ b < pg.h) → pg'.pixels a b = pg.pixels a b

/-- The unit of `ESC ( V` and `ESC ( v`: the defined unit, or the constant 360 that the
two arms take when no unit is defined. -/
def vertUnit (s : CPrinter) : Real64 := if s.definedUnit < 0 then 360 else s.definedUnit

/-- The outcome `t` of a vertical move from the state `s` to the position `pos`: past the
bottom margin `newPage(true, ...)` was invoked (the page handed to the encoder and
cleared, the cursor at the top margin), otherwise the cursor is at `pos` on the same page. -/
def MovedTo (s t : CPrinter) (pos : Real64) : Prop :=
  t.topMargin = s.topMargin ∧ t.bottomMargin = s.bottomMargin ∧
  (pos > s.bottomMargin →
    t.curY = s.topMargin ∧ t.outputPages = s.outputPages ++ [s.page] ∧ t.page = s.page.clear) ∧
  (¬ pos > s.bottomMargin → t.curY = pos ∧ t.outputPages = s.outputPages ∧ t.page = s.page)

/-- The members that the vertical moves read or write. -/
def vertView (s : CPrinter) : Real64 × Real64 × Real64 × Real64 × List Page × Page :=
  (s.topMargin, s.bottomMargin, s.curY, s.definedUnit, s.outputPages, s.page)

/-- The member `formFeed()`, the eject that the host requests (key or timeout): a blank
page is not output. The call `finishMultipage()` that ends it closes the output document
and assigns no member of the printer state kept here. -/
def formFeed (s : CPrinter) : CPrinter := newPage s (!isBlank s) true

/-- The tab stop members: the two arrays and their counts. -/
def tabView (s : CPrinter) : (Nat → Real64) × Nat × (Nat → Real64) × Nat :=
  (s.horiztabs, s.numHorizTabs, s.verttabs, s.numVertTabs)

/-- The four margins: top, bottom, left, right. -/
def marginView (s : CPrinter) : Real64 × Real64 × Real64 × Real64 :=
  (s.topMargin, s.bottomMargin, s.leftMargin, s.rightMargin)

/-- The state that a control flow carries, returned or not. -/
def Flow.state : Flow → CPrinter
  | Flow.ret _ s => s
  | Flow.next s => s

/-- The first `n` entries of a tab array are in ascending order: no entry is greater than
its successor. -/
def TabsOrdered (tabs : Nat → Real64) (n : Nat) : Prop :=
  ∀ i, i + 1 < n → tabs i ≤ tabs (i + 1)

/-- A property of the state that a control flow carries: `R` when the flow has returned,
`N` when it goes on to the next statement. -/
def Flow.Sat (R N : CPrinter → Prop) : Flow → Prop
  | Flow.ret _ s => R s
  | Flow.next s => N s

/-- The identifiers of the commands whose arm assigns a margin: `ESC l`, `ESC Q`, `ESC N`,
`ESC O`, `ESC C` (also in its second stage `0x100`), `ESC ( C`, `ESC ( c`, and `ESC @`,
which restores the defaults. -/
def marginCmds : List Nat := [0x6c, 0x51, 0x4e, 0x4f, 0x43, 0x100, 0x243, 0x263, 0x40]

/-- The command that the byte `ch` belongs to in the state `s`: the command it selects
when it follows an introducer, else the command in progress (0 when there is none). -/
def pendingCmd (s : CPrinter) (ch : Nat) : Nat :=
  if s.ESCSeen || s.FSSeen then (if s.FSSeen then ch ||| 0x800 else ch) else s.ESCCmd

/-- Along `processCommandChar s ch`: the margins are those of `s`, and a flow that goes on
carries the command that `ch` belongs to, or none. -/
def MarginsKept (s : CPrinter) (ch : Nat) (t : CPrinter) : Prop :=
  marginView t = marginView s ∧ (t.ESCCmd = pendingCmd s ch ∨ t.ESCCmd = 0)

/-- The blits of `printChar` for one glyph: the glyph and its copy one pixel to the right,
the two copies one pixel below when double-strike is set, the three copies to the right
when bold is set. -/
def blitChar (s : CPrinter) (bitmap : FT_Bitmap) (penX penY : Nat) : CPrinter :=
  let s := blitGlyph s bitmap penX penY false
  let s := blitGlyph s bitmap ((penX + 1) % 65536) penY true
  let s :=
    if hasStyle s.style STYLE_DOUBLESTRIKE then
      blitGlyph (blitGlyph s bitmap penX ((penY + 1) % 65536) true)
        bitmap ((penX + 1) % 65536) ((penY + 1) % 65536) true
    else s
  if hasStyle s.style STYLE_BOLD then
    blitGlyph (blitGlyph (blitGlyph s bitmap ((penX + 1) % 65536) penY true)
      bitmap ((penX + 2) % 65536) penY true) bitmap ((penX + 3) % 65536) penY true
  else s

/-- The advance of the cursor in `printChar` for the glyph `g`. -/
def xAdvance (s : CPrinter) (g : FT_GlyphSlot) : Real64 :=
  (if hasStyle s.style STYLE_PROP then (g.advance_x : Real64) / ((s.dpi * 64 : Nat) : Real64)
   else if s.hmi < 0 then 1 / s.actcpi else s.hmi) + s.extraIntraSpace

/-! ## The PostScript output of `outputPage` -/

/-- The subtraction of two `uint32_t` values. -/
def sub32 (a b : Nat) : Nat := (a + 4294967296 - b % 4294967296) % 4294967296

/-- The member `getPixel(num)`: the byte of pixel number `num`, counted row by row. -/
def getPixel (pg : Page) (num : Nat) : Nat := pg.pixels (num % pg.w) (num / pg.w) % 256

/-- The loop `while (sameCount < 128 && sameCount+pix < numpix && col == getPixel(pix+sameCount))
sameCount++;`. The first argument bounds the number of rounds; `sameCount` starts at 3 and
stops at 128, so 125 rounds are enough. -/
def sameRun (pg : Page) (numpix pix col : Nat) : Nat → Nat → Nat
  | 0, sameCount => sameCount
  | rounds + 1, sameCount =>
    if sameCount < 128 ∧ sameCount + pix < numpix ∧ col = getPixel pg (pix + sameCount) then
      sameRun pg numpix pix col rounds (sameCount + 1)
    else sameCount

/-- The loop "Find end of heterogenous area" over `diffCount`, with its condition as the
source writes it. `diffCount` starts at 1 and stops at 128, so 127 rounds are enough. -/
def diffRun (pg : Page) (numpix pix : Nat) : Nat → Nat → Nat
  | 0, diffCount => diffCount
  | rounds + 1, diffCount =>
    if diffCount < 128 ∧ diffCount + pix < numpix ∧
        (diffCount + pix < sub32 numpix 2 ∨
          getPixel pg (pix + diffCount) ≠ getPixel pg (pix + diffCount + 1) ∨
          getPixel pg (pix + diffCount) ≠ getPixel pg (pix + diffCount + 2)) then
      diffRun pg numpix pix rounds (diffCount + 1)
    else diffCount

/-- The loop `while (pix < numpix)` of the ps branch of `outputPage`: the arguments of the
`fprintASCII85` calls, in order. Every round moves `pix` forward, so `numpix` rounds are
enough; the first argument bounds the number of rounds. The sums of `pix` and a count are
`uint32_t` values in the source; they stay below 2^32 when the raster has fewer than 2^31
pixels, and are not reduced here. -/
def rleLoop (pg : Page) (numpix : Nat) : Nat → Nat → List Nat
  | 0, _ => []
  | rounds + 1, pix =>
    if pix < numpix then
      if pix < sub32 numpix 2 ∧ getPixel pg pix = getPixel pg (pix + 1) ∧
          getPixel pg pix = getPixel pg (pix + 2) then
        let col := getPixel pg pix
        let sameCount := sameRun pg numpix pix col 125 3
        (257 - sameCount) :: (255 - col) :: rleLoop pg numpix rounds (pix + sameCount)
      else
        let diffCount := diffRun pg numpix pix 127 1
        (diffCount - 1) :: ((List.range diffCount).map fun i => 255 - getPixel pg (pix + i)) ++
          rleLoop pg numpix rounds (pix + diffCount)
    else []

/-- The number of pixels `uint32_t numpix = page->h*page->w`. -/
def numPixels (pg : Page) : Nat := (pg.h * pg.w) % 4294967296

/-- The run-length stream that the ps branch of `outputPage` hands to `fprintASCII85` for
the page: the chunks of the loop, then the end-of-data marker 128. -/
def rleStream (pg : Page) : List Nat := rleLoop pg (numPixels pg) (numPixels pg) 0 ++ [128]

/-- What the ps branch writes to its file: a line of text (one `fprintf`), or the image
data of a page, given by the arguments of its `fprintASCII85` calls: the run-length stream
and the closing 256. -/
inductive PsItem where
  | line (text : String)
  | data (args : List Nat)

/-- Modelled from the spec: the members of `CPrinter` that the ps branch of `outputPage` and
`finishMultipage` use, declared in `printer.h` (absent). `outputHandle` is `none` for
`NULL`, else it holds what has been written to the open file; `files` are the files
closed so far, oldest first. -/
structure PsOutput where
  outputHandle : Option (List PsItem)
  multiPageCounter : Nat
  files : List (List PsItem)

/-- The header that the ps branch writes into a new file. -/
def psHeader (s : CPrinter) : List PsItem :=
  [PsItem.line "%!PS-Adobe-3.0",
   PsItem.line "%%Pages: (atend)",
   PsItem.line ("%%BoundingBox: 0 0 " ++ toString (truncU16 (s.defaultPageWidth * 74)) ++ " " ++
     toString (truncU16 (s.defaultPageHeight * 74))),
   PsItem.line "%%Creator: DOSBOX Virtual Printer",
   PsItem.line "%%DocumentData: Clean7Bit",
   PsItem.line "%%LanguageLevel: 2",
   PsItem.line "%%EndComments"]

/-- The section that the ps branch writes for the page of `s` under the page number
`counter`, from `%%Page:` to `showpage`. -/
def psPage (s : CPrinter) (counter : Nat) : List PsItem :=
  [PsItem.line ("%%Page: " ++ toString counter ++ " " ++ toString counter),
   PsItem.line (toString (truncU16 (s.defaultPageWidth * 74)) ++ " " ++
     toString (truncU16 (s.defaultPageHeight * 74)) ++ " scale"),
   PsItem.line (toString s.page.w ++ " " ++ toString s.page.h ++ " 8 [" ++ toString s.page.w ++
     " 0 0 -" ++ toString s.page.h ++ " 0 " ++ toString s.page.h ++ "]"),
   PsItem.line "currentfile",
   PsItem.line "/ASCII85Decode filter",
   PsItem.line "/RunLengthDecode filter",
   PsItem.line "image",
   PsItem.data (rleStream s.page ++ [256]),
   PsItem.line "showpage"]

/-- The branch `strcasecmp(output, "ps") == 0` of `outputPage`, for a file that opens. -/
def outputPagePs (s : CPrinter) (o : PsOutput) : PsOutput :=
  let opened : List PsItem × Nat :=
    match o.outputHandle with
    | some file => (file, o.multiPageCounter)
    | none => (psHeader s, 1)
  let file := opened.1 ++ psPage s opened.2
  if s.multipageOutput then
    { o with outputHandle := some file, multiPageCounter := opened.2 + 1 }
  else
    { outputHandle := none, multiPageCounter := opened.2,
      files := o.files ++ [file ++ [PsItem.line "%%Pages: 1", PsItem.line "%%EOF"]] }

/-- The member `finishMultipage` for `output == "ps"`. -/
def finishMultipage (o : PsOutput) : PsOutput :=
  match o.outputHandle with
  | some file =>
    { o with outputHandle := none,
             files := o.files ++ [file ++ [PsItem.line ("%%Pages: " ++ toString o.multiPageCounter),
                                           PsItem.line "%%EOF"]] }
  | none => o

/-- The text lines of a file, its image data left out. -/
def psLines (file : List PsItem) : List String :=
  file.filterMap fun item =>
    match item with
    | PsItem.line text => some text
    | PsItem.data _ => none

/-- Decoding of a run-length stream: a length byte `L < 128` copies the next `L + 1`
bytes, `L > 128` repeats the next byte `257 - L` times, 128 ends the data. The result is
`none` when the stream ends before the end-of-data marker or inside a chunk. The first
argument bounds the number of chunks. -/
def rleDecode : Nat → List Nat → Option (List Nat)
  | 0, _ => none
  | _ + 1, [] => none
  | chunks + 1, l :: rest =>
    if l = 128 then some []
    else if l < 128 then
      if rest.length < l + 1 then none
      else (rleDecode chunks (rest.drop (l + 1))).map fun out => rest.take (l + 1) ++ out
    else
      match rest with
      | [] => none
      | v :: rest => (rleDecode chunks rest).map fun out => List.replicate (257 - l) v ++ out

/-- A chunk of a run-length stream: `count` repetitions of one byte, or a literal run. -/
inductive Chunk where
  | rep (count value : Nat)
  | lit (bytes : List Nat)

/-- The bytes of a chunk in the stream: the length byte `257 - count` and the value, or
the length byte `count - 1` and the literal bytes. -/
def Chunk.encode : Chunk → List Nat
  | Chunk.rep count value => [257 - count, value]
  | Chunk.lit bytes => (bytes.length - 1) :: bytes

/-- The bytes that a chunk stands for. -/
def Chunk.expand : Chunk → List Nat
  | Chunk.rep count value => List.replicate count value
  | Chunk.lit bytes => bytes

/-- The bounds of a chunk: a repeat chunk covers 3 to 128 pixels, a literal chunk 1 to 128. -/
def Chunk.Valid : Chunk → Prop
  | Chunk.rep count _ => 3 ≤ count ∧ count ≤ 128
  | Chunk.lit bytes => 1 ≤ bytes.length ∧ bytes.length ≤ 128

/-- The length byte of a chunk. -/
def Chunk.lengthByte : Chunk → Nat
  | Chunk.rep count _ => 257 - count
  | Chunk.lit bytes => bytes.length - 1

/-- The chunks that the loop `while (pix < numpix)` emits, round by round as in `rleLoop`. -/
def rleChunks (pg : Page) (numpix : Nat) : Nat → Nat → List Chunk
  | 0, _ => []
  | rounds + 1, pix =>
    if pix < numpix then
      if pix < sub32 numpix 2 ∧ getPixel pg pix = getPixel pg (pix + 1) ∧
          getPixel pg pix = getPixel pg (pix + 2) then
        Chunk.rep (sameRun pg numpix pix (getPixel pg pix) 125 3) (255 - getPixel pg pix) ::
          rleChunks pg numpix rounds (pix + sameRun pg numpix pix (getPixel pg pix) 125 3)
      else
        Chunk.lit ((List.range (diffRun pg numpix pix 127 1)).map fun i => 255 - getPixel pg (pix + i)) ::
          rleChunks pg numpix rounds (pix + diffRun pg numpix pix 127 1)
    else []

/-- The inverted pixels `255 - getPixel(i)` for `i` from `pix`, `n` of them. -/
def invPixels (pg : Page) (pix n : Nat) : List Nat :=
  (List.range' pix n).map fun i => 255 - getPixel pg i

/-- The output members right after the constructor: no file is open. -/
def psStart : PsOutput := { outputHandle := none, multiPageCounter := 0, files := [] }

/-- A sample printer with multipage output on a page of 2 by 2 pixels. -/
def psPrinter : CPrinter := construct sampleRaw 10 2 2 true

/-- The chunks stand, one after the other, for the inverted pixels from number `pix` on. -/
def Covers (pg : Page) : Nat → List Chunk → Prop
  | _, [] => True
  | pix, c :: cs =>
    c.expand = invPixels pg pix c.expand.length ∧ Covers pg (pix + c.expand.length) cs

/-- The number of pixels that a list of chunks stands for. -/
def coveredPixels (chunks : List Chunk) : Nat := (chunks.map fun c => c.expand.length).sum

/-- The output after the pages of the states `pages` have gone through the ps branch of
`outputPage`, one after the other. -/
def psDocument (pages : List CPrinter) (o : PsOutput) : PsOutput :=
  pages.foldl (fun o s => outputPagePs s o) o

/-- A page of one pixel whose surroundings in memory hold the same byte as the pixel. -/
def onePixelPage : Page := { w := 1, h := 1, pixels := fun _ _ => 0 }

/-! ## The ASCII85 writer of the ps branch -/

/-- Modelled from the spec: the members `ASCII85Buffer`, `ASCII85BufferPos` and
`ASCII85CurCol` of `CPrinter`, declared in `printer.h` (absent), and with them the
characters written to the file `f` so far, as character codes. -/
structure Ascii85 where
  ASCII85Buffer : Nat → Nat
  ASCII85BufferPos : Nat
  ASCII85CurCol : Nat
  written : List Nat

/-- The statements `fprintf(f, "%c", c); if (++ASCII85CurCol >= 79) { ASCII85CurCol = 0;
fprintf(f, "\n"); }` of `fprintASCII85`. -/
def putColumn (a : Ascii85) (c : Nat) : Ascii85 :=
  let a := { a with written := a.written ++ [c], ASCII85CurCol := a.ASCII85CurCol + 1 }
  if a.ASCII85CurCol ≥ 79 then { a with ASCII85CurCol := 0, written := a.written ++ [10] } else a

/-- The loop `for (i=4; i>=0; i--) { buffer[i] = num % 85; buffer[i] += 33; num /= 85; }`:
the five characters `buffer[0]` to `buffer[4]`. -/
def base85 (num : Nat) : List Nat :=
  [num / 85 / 85 / 85 / 85 % 85 + 33, num / 85 / 85 / 85 % 85 + 33, num / 85 / 85 % 85 + 33,
   num / 85 % 85 + 33, num % 85 + 33]

/-- The statement `if (b < 256) ASCII85Buffer[ASCII85BufferPos++] = (uint8_t)b;`. -/
def storeByte (a : Ascii85) (b : Nat) : Ascii85 :=
  if b < 256 then
    { a with ASCII85Buffer := fun i => if i = a.ASCII85BufferPos then b else a.ASCII85Buffer i,
             ASCII85BufferPos := a.ASCII85BufferPos + 1 }
  else a

/-- The value `num` of the buffer: `Buffer[0] << 24 | Buffer[1] << 16 | Buffer[2] << 8 |
Buffer[3]`, a `uint32_t`. -/
def bufferValue (a : Ascii85) : Nat :=
  (a.ASCII85Buffer 0 <<< 24 ||| a.ASCII85Buffer 1 <<< 16 ||| a.ASCII85Buffer 2 <<< 8 |||
    a.ASCII85Buffer 3) % 4294967296

/-- The block `if (ASCII85BufferPos == 4 || b == 257) { ... }` of `fprintASCII85`: the
buffer is written as `z`, as five characters or, with `b == 257`, as the first
`ASCII85BufferPos+1` of them; a space goes before a `%` in column 0. -/
def writeGroup (a : Ascii85) (b : Nat) : Ascii85 :=
  if a.ASCII85BufferPos = 4 ∨ b = 257 then
    let a :=
      if bufferValue a = 0 ∧ b ≠ 257 then putColumn a 122
      else
        let a1 :=
          if a.ASCII85CurCol = 0 ∧ (base85 (bufferValue a)).head? = some 37 then
            { a with written := a.written ++ [32] }
          else a
        ((base85 (bufferValue a)).take (if b ≠ 257 then 5 else a.ASCII85BufferPos + 1)).foldl
          putColumn a1
    { a with ASCII85BufferPos := 0 }
  else a

/-- The branch `b != 256` of `fprintASCII85`: a byte is stored, and a full buffer, or with
`b == 257` a partial one, is written as a group. -/
def fprintASCII85Store (a : Ascii85) (b : Nat) : Ascii85 := writeGroup (storeByte a b) b

/-- The loop `for (i = ASCII85BufferPos; i < 4; i++) ASCII85Buffer[i] = 0;`. -/
def padBuffer (a : Ascii85) : Ascii85 :=
  { a with ASCII85Buffer := fun i => if a.ASCII85BufferPos ≤ i ∧ i < 4 then 0 else a.ASCII85Buffer i }

/-- The member `fprintASCII85(f, b)`: `b < 256` is a data byte, 256 closes the string (a
partial group is filled with zeros and written through the call with 257). -/
def fprintASCII85 (a : Ascii85) (b : Nat) : Ascii85 :=
  if b ≠ 256 then fprintASCII85Store a b
  else
    let a := if a.ASCII85BufferPos > 0 then fprintASCII85Store (padBuffer a) 257 else a
    { a with written := a.written ++ [126, 62, 10] }

/-- The calls of `fprintASCII85` for the bytes `bytes`, closed with the value 256. -/
def writeASCII85 (a : Ascii85) (bytes : List Nat) : Ascii85 :=
  fprintASCII85 (bytes.foldl fprintASCII85 a) 256

/-- The state `ASCII85BufferPos = ASCII85CurCol = 0` in which the ps branch starts the
data of a page, nothing written yet. -/
def ascii85Start : Ascii85 :=
  { ASCII85Buffer := fun _ => 0, ASCII85BufferPos := 0, ASCII85CurCol := 0, written := [] }

/-- The characters of the image data that the ps branch writes for a page: its run-length
stream, closed with 256. -/
def pageData (pg : Page) : List Nat := (writeASCII85 ascii85Start (rleStream pg)).written

/-! ### Decoding, as the standard has it -/

/-- White space of PostScript: NUL, tab, line feed, form feed, carriage return, space. -/
def isWhite (c : Nat) : Bool := c = 0 ∨ c = 9 ∨ c = 10 ∨ c = 12 ∨ c = 13 ∨ c = 32

/-- A character from `!` to `u`, a digit of base 85. -/
def isDigit85 (c : Nat) : Bool := 33 ≤ c ∧ c ≤ 117

/-- The value of a group of base 85 digits, most significant first. -/
def value85 (cs : List Nat) : Nat := cs.foldl (fun v c => v * 85 + (c - 33)) 0

/-- The four bytes of a 32 bit value, most significant first. -/
def bytes4 (v : Nat) : List Nat :=
  [v / 16777216 % 256, v / 65536 % 256, v / 256 % 256, v % 256]

/-- Decoding of the data characters, white space removed: `z` stands for four zero bytes,
five digits for the four bytes of their value, and a final partial group of `k + 1`
digits, filled up with `u`, for the first `k` bytes of its value. The result is `none`
for any other character, a value of 2^32 or more, or a final group of one digit. The
first argument bounds the number of groups. -/
def decodeGroups : Nat → List Nat → Option (List Nat)
  | 0, _ => none
  | fuel + 1, cs =>
    if cs = [] then some []
    else if cs.head? = some 122 then (decodeGroups fuel cs.tail).map fun r => [0, 0, 0, 0] ++ r
    else if 5 ≤ cs.length then
      if (cs.take 5).all isDigit85 ∧ value85 (cs.take 5) < 4294967296 then
        (decodeGroups fuel (cs.drop 5)).map fun r => bytes4 (value85 (cs.take 5)) ++ r
      else none
    else if 2 ≤ cs.length ∧ cs.all isDigit85 ∧
        value85 (cs ++ List.replicate (5 - cs.length) 117) < 4294967296 then
      some ((bytes4 (value85 (cs ++ List.replicate (5 - cs.length) 117))).take (cs.length - 1))
    else none

/-- A character sequence without its white space. -/
def stripWhite (chars : List Nat) : List Nat := chars.filter fun c => !isWhite c

/-- The data characters of a character sequence: those before the first `~` that are not
white space. -/
def dataChars (chars : List Nat) : List Nat := (stripWhite chars).takeWhile fun c => c ≠ 126

/-- Standard ASCII85 decoding of a character sequence: white space is ignored, the data
end at `~>`, and the characters before it are decoded group by group. -/
def ascii85Decode (chars : List Nat) : Option (List Nat) :=
  if ((stripWhite chars).drop (dataChars chars).length).take 2 = [126, 62] then
    decodeGroups ((dataChars chars).length + 1) (dataChars chars)
  else none

/-- The first characters of the lines of a text (a line ends at the line feed). -/
def lineStarts (chars : List Nat) : List Nat := (chars.splitOn 10).filterMap List.head?

/-- The group that stands for four bytes, white space apart: `z` for four zeros, else the
five digits of the value. -/
def group85 (b0 b1 b2 b3 : Nat) : List Nat :=
  if b0 * 16777216 + b1 * 65536 + b2 * 256 + b3 = 0 then [122]
  else base85 (b0 * 16777216 + b1 * 65536 + b2 * 256 + b3)

/-- The characters that stand for a byte sequence, white space apart: one group for every
four bytes and `k + 1` digits for `k` bytes left over. -/
def groups85 : List Nat → List Nat
  | b0 :: b1 :: b2 :: b3 :: rest => group85 b0 b1 b2 b3 ++ groups85 rest
  | [b0, b1, b2] => (base85 (b0 * 16777216 + b1 * 65536 + b2 * 256)).take 4
  | [b0, b1] => (base85 (b0 * 16777216 + b1 * 65536)).take 3
  | [b0] => (base85 (b0 * 16777216)).take 2
  | [] => []

/-- The bytes waiting in the buffer: its first `ASCII85BufferPos` entries. -/
def pending (a : Ascii85) : List Nat := (List.range a.ASCII85BufferPos).map a.ASCII85Buffer

/-- The state of the writer between two calls: fewer than four bytes wait in the buffer,
each below 256, and the column is below 79. -/
def Ascii85.Ready (a : Ascii85) : Prop :=
  a.ASCII85BufferPos < 4 ∧ a.ASCII85CurCol < 79 ∧ ∀ i, i < a.ASCII85BufferPos → a.ASCII85Buffer i < 256

/-- A bit-image command of 60 columns (`ESC K 60 0`) that fills a page of 60 by 6 pixels
with thirty runs of three pixels, black and white in turn, a black run of 83, a white
run of 87 and a black run of 100 pixels. -/
def zebraBytes : List Nat :=
  [0x1b, 0x4b, 60, 0,
   228, 228, 228, 36, 36, 36, 228, 228, 228, 36, 36, 36, 228, 228, 228, 36, 36, 36, 228, 228,
   236, 44, 44, 44, 236, 236, 236, 44, 44, 44, 236, 236, 236, 108, 108, 108, 236, 236, 236,
   108, 108, 108, 236, 236, 236, 108, 108, 108, 236, 236, 236, 108, 108, 76, 204, 204, 204,
   76, 76, 76]

/-! ## The parallel port in front of the printer -/

/-- The member `resetPrinterHard`. -/
def resetPrinterHard (s : CPrinter) : CPrinter := resetPrinter { s with charRead := false }

/-- The member `setAutofeed(feed)`. -/
def setAutofeed (s : CPrinter) (feed : Bool) : CPrinter := { s with autoFeed := feed }

/-- The member `ack()`: the returned `bool` and the new state. -/
def ack (s : CPrinter) : Bool × CPrinter :=
  if s.charRead then (true, { s with charRead := false }) else (false, s)

/-- The file scope variables of `printer.cpp` behind the port functions: `dataregister`,
`controlreg` and `defaultPrinter` (`none` for `NULL`). `raw`, `confdpi`, `confwidth`,
`confheight` and `confmultipageOutput` give the printer that `new CPrinter(...)` creates.
`printed` is a record kept for the statements, not a variable of the source: the
arguments of the calls of `printChar` so far, in order. The timer events are left out. -/
structure PrinterPort where
  dataregister : Nat
  controlreg : Nat
  defaultPrinter : Option CPrinter
  raw : CPrinter
  confdpi : Nat
  confwidth : Nat
  confheight : Nat
  confmultipageOutput : Bool
  printed : List Nat

/-- The function `PRINTER_writedata`: `dataregister = val`, a `uint8_t`. -/
def PRINTER_writedata (p : PrinterPort) (val : Nat) : PrinterPort :=
  { p with dataregister := val % 256 }

/-- The function `PRINTER_writecontrol`: the printer is reset when the init bit is
switched on, and the data register is printed on the falling edge of the strobe bit. -/
def PRINTER_writecontrol (p : PrinterPort) (val : Nat) : PrinterPort :=
  let p :=
    if val &&& 0x04 ≠ 0 ∧ p.defaultPrinter.isSome ∧ ¬ (p.controlreg &&& 0x04 ≠ 0) then
      { p with defaultPrinter := p.defaultPrinter.map resetPrinterHard }
    else p
  let p :=
    if ¬ (val &&& 0x1 ≠ 0) ∧ p.controlreg &&& 0x1 ≠ 0 then
      let s :=
        match p.defaultPrinter with
        | some s => s
        | none => construct p.raw p.confdpi p.confwidth p.confheight p.confmultipageOutput
      { p with defaultPrinter := some (printChar s p.dataregister),
               printed := p.printed ++ [p.dataregister] }
    else p
  let p := { p with controlreg := val % 256 }
  { p with defaultPrinter := p.defaultPrinter.map fun s => setAutofeed s (val &&& 0x02 > 0) }

/-- The function `PRINTER_readstatus`: the status byte and the new state (`ack()` clears
`charRead`; `isBusy()` is always false). -/
def PRINTER_readstatus (p : PrinterPort) : Nat × PrinterPort :=
  match p.defaultPrinter with
  | none => (0xDF, p)
  | some s =>
    let status := 0x1f ||| 0x80
    ((if (ack s).1 then status else status ||| 0x40), { p with defaultPrinter := some (ack s).2 })

/-- The member `CPrinterRedir::Putchar(val)`: `Write_CON(0xD4)`, `Write_PR(val)`,
`Write_CON(0xD5)`, `Write_CON(0xD4)`, `Read_SR()`, which are the functions
`PRINTER_writecontrol`, `PRINTER_writedata` and `PRINTER_readstatus`. -/
def Putchar (p : PrinterPort) (val : Nat) : PrinterPort :=
  let p := PRINTER_writecontrol p 0xD4
  let p := PRINTER_writedata p val
  let p := PRINTER_writecontrol p 0xD5
  let p := PRINTER_writecontrol p 0xD4
  (PRINTER_readstatus p).2

/-- A port behind which the sample printer exists, with the data register `d` and the
control register `c`, nothing printed yet. -/
def samplePort (d c : Nat) : PrinterPort :=
  { dataregister := d, controlreg := c, defaultPrinter := some samplePrinter, raw := sampleRaw,
    confdpi := 20, confwidth := 20, confheight := 30, confmultipageOutput := false,
    printed := [] }

/-! ## The port decoding of `parport.cpp` -/

/-- A parallel port object, seen from `PARALLEL_Read`: the values that its methods
`Read_PR`, `Read_SR` and `Read_CON` return. -/
structure CParallel where
  Read_PR : Nat
  Read_SR : Nat
  Read_CON : Nat

/-- The method of a port object that a write reaches, with the index of the port in
`parallelports` and the value written. -/
inductive PortWrite where
  | Write_PR (i val : Nat)
  | Write_IOSEL (i val : Nat)
  | Write_CON (i val : Nat)
  deriving DecidableEq

/-- The array `parallel_baseaddr` of `parport.h`. -/
def parallel_baseaddr : List Nat := [0x378, 0x278, 0x3bc]

/-- The loop of `PARALLEL_Read` from the index `i` on, `n` rounds: the first installed
port whose base address is `port & 0xfffc` answers, by `switch (port & 0x7)`. -/
def readLoop (parallelports : Nat → Option CParallel) (port : Nat) : Nat → Nat → Nat
  | 0, _ => 0xff
  | n + 1, i =>
    match parallelports i with
    | none => readLoop parallelports port n (i + 1)
    | some p =>
      if parallel_baseaddr.getD i 0 = port &&& 0xfffc then
        if port &&& 0x7 = 0 then p.Read_PR
        else if port &&& 0x7 = 1 then p.Read_SR
        else if port &&& 0x7 = 2 then p.Read_CON
        else 0xff
      else readLoop parallelports port n (i + 1)

/-- The function `PARALLEL_Read(port, iolen)`. -/
def PARALLEL_Read (parallelports : Nat → Option CParallel) (port : Nat) : Nat :=
  readLoop parallelports port 3 0

/-- The loop of `PARALLEL_Write` from the index `i` on, `n` rounds: the method that the
write reaches, by `switch (port & 0x3)`, or `none`. -/
def writeLoop (parallelports : Nat → Option CParallel) (port val : Nat) : Nat → Nat → Option PortWrite
  | 0, _ => none
  | n + 1, i =>
    match parallelports i with
    | none => writeLoop parallelports port val n (i + 1)
    | some _ =>
      if parallel_baseaddr.getD i 0 = port &&& 0xfffc then
        if port &&& 0x3 = 0 then some (PortWrite.Write_PR i val)
        else if port &&& 0x3 = 1 then some (PortWrite.Write_IOSEL i val)
        else if port &&& 0x3 = 2 then some (PortWrite.Write_CON i val)
        else writeLoop parallelports port val n (i + 1)
      else writeLoop parallelports port val n (i + 1)

/-- The function `PARALLEL_Write(port, val, iolen)`. -/
def PARALLEL_Write (parallelports : Nat → Option CParallel) (port val : Nat) : Option PortWrite :=
  writeLoop parallelports port val 3 0

/-- Three installed ports whose registers read as 1, 2, 3, then 4, 5, 6 and 7, 8, 9. -/
def samplePorts (i : Nat) : Option CParallel :=
  if i < 3 then some { Read_PR := 3 * i + 1, Read_SR := 3 * i + 2, Read_CON := 3 * i + 3 }
  else none

/-! ## The pixels that the run-length encoder reads -/

/-- The indices passed to `getPixel` by the loop over `sameCount` (see `sameRun`), in
order: the condition reads `pix+sameCount` once `sameCount < 128 && sameCount+pix < numpix`
holds. -/
def sameRunReads (pg : Page) (numpix pix col : Nat) : Nat → Nat → List Nat
  | 0, _ => []
  | rounds + 1, sameCount =>
    if sameCount < 128 ∧ sameCount + pix < numpix then
      (pix + sameCount) ::
        (if col = getPixel pg (pix + sameCount) then
          sameRunReads pg numpix pix col rounds (sameCount + 1)
        else [])
    else []

/-- The indices passed to `getPixel` by the loop over `diffCount` (see `diffRun`), in
order: once `diffCount+pix < numpix-2` fails, the condition compares the pixel
`pix+diffCount` with its successor and, these being equal, with the one after. -/
def diffRunReads (pg : Page) (numpix pix : Nat) : Nat → Nat → List Nat
  | 0, _ => []
  | rounds + 1, diffCount =>
    if diffCount < 128 ∧ diffCount + pix < numpix then
      if diffCount + pix < sub32 numpix 2 then diffRunReads pg numpix pix rounds (diffCount + 1)
      else
        [pix + diffCount, pix + diffCount + 1] ++
          (if getPixel pg (pix + diffCount) ≠ getPixel pg (pix + diffCount + 1) then
            diffRunReads pg numpix pix rounds (diffCount + 1)
          else
            [pix + diffCount, pix + diffCount + 2] ++
              (if getPixel pg (pix + diffCount) ≠ getPixel pg (pix + diffCount + 2) then
                diffRunReads pg numpix pix rounds (diffCount + 1)
              else []))
    else []

/-- The indices read by the `else` branch of the loop `while (pix < numpix)`: those of the
loop over `diffCount`, then the `diffCount` pixels that are written. -/
def literalReads (pg : Page) (numpix pix : Nat) : List Nat :=
  diffRunReads pg numpix pix 127 1 ++ (List.range (diffRun pg numpix pix 127 1)).map fun i => pix + i

/-- The indices passed to `getPixel` by the loop `while (pix < numpix)` of the ps branch
(see `rleLoop`), in the order of the calls; `&&` and `||` evaluate their right side only
when the left side does not decide. -/
def rleReads (pg : Page) (numpix : Nat) : Nat → Nat → List Nat
  | 0, _ => []
  | rounds + 1, pix =>
    if pix < numpix then
      if pix < sub32 numpix 2 then
        [pix, pix + 1] ++
          (if getPixel pg pix = getPixel pg (pix + 1) then
            [pix, pix + 2] ++
              (if getPixel pg pix = getPixel pg (pix + 2) then
                [pix] ++ sameRunReads pg numpix pix (getPixel pg pix) 125 3 ++
                  rleReads pg numpix rounds (pix + sameRun pg numpix pix (getPixel pg pix) 125 3)
              else
                literalReads pg numpix pix ++
                  rleReads pg numpix rounds (pix + diffRun pg numpix pix 127 1))
          else
            literalReads pg numpix pix ++
              rleReads pg numpix rounds (pix + diffRun pg numpix pix 127 1))
      else
        literalReads pg numpix pix ++ rleReads pg numpix rounds (pix + diffRun pg numpix pix 127 1)
    else []

/-- The indices that the encoder passes to `getPixel` for the page. -/
def pageReads (pg : Page) : List Nat := rleReads pg (numPixels pg) (numPixels pg) 0

/-- The cursor, the page and what has been handed to the encoder, with the font. -/
def inkView (s : CPrinter) : Real64 × Real64 × Page × List Page × Option FT_Face :=
  (s.curX, s.curY, s.page, s.outputPages, s.curFont)

/-- A control flow that has not returned false: it returned true, or it goes on with a
state of which `N` holds. -/
def Flow.Consumed (N : CPrinter → Prop) : Flow → Prop
  | Flow.ret r _ => r = true
  | Flow.next s => N s

/-! ## Sample states of the later statements -/

/-- A printer with black ink whose page of two by two pixels holds the byte 254 (black,
intensity 30) everywhere. -/
def inkedPrinter : CPrinter :=
  { samplePrinter with page := { w := 2, h := 2, pixels := fun _ _ => 254 } }

/-- A glyph of two by two pixels of coverage 40, which adds 5 to the intensity. -/
def fiveGlyph : FT_Bitmap := { rows := 2, width := 2, pitch := 2, buffer := fun _ => 40 }

/-! ## Frame lemmas: what the helper members leave alone -/

@[simp] theorem outputPage_frame (s : CPrinter) :
    (outputPage s).ESCSeen = s.ESCSeen ∧ (outputPage s).FSSeen = s.FSSeen ∧
     (outputPage s).ESCCmd = s.ESCCmd ∧ (outputPage s).numParam = s.numParam ∧
     (outputPage s).neededParam = s.neededParam ∧ (outputPage s).bitGraph = s.bitGraph ∧
     (outputPage s).numPrintAsChar = s.numPrintAsChar ∧ (outputPage s).msb = s.msb :=
  ⟨rfl, rfl, rfl, rfl, rfl, rfl, rfl, rfl⟩

@[simp] theorem newPage_frame (s : CPrinter) (save resetx : Bool) :
    (newPage s save resetx).ESCSeen = s.ESCSeen ∧ (newPage s save resetx).FSSeen = s.FSSeen ∧
     (newPage s save resetx).ESCCmd = s.ESCCmd ∧ (newPage s save resetx).numParam = s.numParam ∧
     (newPage s save resetx).neededParam = s.neededParam ∧
     (newPage s save resetx).bitGraph = s.bitGraph ∧
     (newPage s save resetx).numPrintAsChar = s.numPrintAsChar ∧
     (newPage s save resetx).msb = s.msb := by
  cases save <;> cases resetx <;> exact ⟨rfl, rfl, rfl, rfl, rfl, rfl, rfl, rfl⟩

@[simp] theorem selectCodepage_frame (s : CPrinter) (cp : Nat) :
    (selectCodepage s cp).ESCSeen = s.ESCSeen ∧ (selectCodepage s cp).FSSeen = s.FSSeen ∧
     (selectCodepage s cp).ESCCmd = s.ESCCmd ∧ (selectCodepage s cp).numParam = s.numParam ∧
     (selectCodepage s cp).neededParam = s.neededParam ∧
     (selectCodepage s cp).bitGraph = s.bitGraph ∧
     (selectCodepage s cp).numPrintAsChar = s.numPrintAsChar ∧ (selectCodepage s cp).msb = s.msb := by
  unfold selectCodepage
  repeat' split
  all_goals exact ⟨rfl, rfl, rfl, rfl, rfl, rfl, rfl, rfl⟩

@[simp] theorem updateFont_frame (s : CPrinter) :
    (updateFont s).ESCSeen = s.ESCSeen ∧ (updateFont s).FSSeen = s.FSSeen ∧
     (updateFont s).ESCCmd = s.ESCCmd ∧ (updateFont s).numParam = s.numParam ∧
     (updateFont s).neededParam = s.neededParam ∧ (updateFont s).bitGraph = s.bitGraph ∧
     (updateFont s).numPrintAsChar = s.numPrintAsChar ∧ (updateFont s).msb = s.msb :=
  ⟨rfl, rfl, rfl, rfl, rfl, rfl, rfl, rfl⟩

@[simp] theorem masterSelect_frame (s : CPrinter) :
    (masterSelect s).ESCSeen = s.ESCSeen ∧ (masterSelect s).FSSeen = s.FSSeen ∧
     (masterSelect s).ESCCmd = s.ESCCmd ∧ (masterSelect s).numParam = s.numParam ∧
     (masterSelect s).neededParam = s.neededParam ∧ (masterSelect s).bitGraph = s.bitGraph ∧
     (masterSelect s).numPrintAsChar = s.numPrintAsChar ∧ (masterSelect s).msb = s.msb :=
  ⟨rfl, rfl, rfl, rfl, rfl, rfl, rfl, rfl⟩

@[simp] theorem selectIntCharSet_frame (s : CPrinter) :
    (selectIntCharSet s).ESCSeen = s.ESCSeen ∧ (selectIntCharSet s).FSSeen = s.FSSeen ∧
     (selectIntCharSet s).ESCCmd = s.ESCCmd ∧ (selectIntCharSet s).numParam = s.numParam ∧
     (selectIntCharSet s).neededParam = s.neededParam ∧
     (selectIntCharSet s).bitGraph = s.bitGraph ∧
     (selectIntCharSet s).numPrintAsChar = s.numPrintAsChar ∧ (selectIntCharSet s).msb = s.msb := by
  unfold selectIntCharSet
  by_cases h : s.params 0 ≤ 13 ∨ s.params 0 = 64
  · rw [if_pos h]
    exact ⟨rfl, rfl, rfl, rfl, rfl, rfl, rfl, rfl⟩
  · rw [if_neg h]
    exact ⟨rfl, rfl, rfl, rfl, rfl, rfl, rfl, rfl⟩

@[simp] theorem selectPitchPoint_frame (s : CPrinter) :
    (selectPitchPoint s).ESCSeen = s.ESCSeen ∧ (selectPitchPoint s).FSSeen = s.FSSeen ∧
     (selectPitchPoint s).ESCCmd = s.ESCCmd ∧ (selectPitchPoint s).numParam = s.numParam ∧
     (selectPitchPoint s).neededParam = s.neededParam ∧
     (selectPitchPoint s).bitGraph = s.bitGraph ∧
     (selectPitchPoint s).numPrintAsChar = s.numPrintAsChar ∧ (selectPitchPoint s).msb = s.msb := by
  unfold selectPitchPoint
  dsimp only
  split_ifs <;> exact ⟨rfl, rfl, rfl, rfl, rfl, rfl, rfl, rfl⟩

@[simp] theorem setPageFormat_frame (s : CPrinter) :
    (setPageFormat s).ESCSeen = s.ESCSeen ∧ (setPageFormat s).FSSeen = s.FSSeen ∧
     (setPageFormat s).ESCCmd = s.ESCCmd ∧ (setPageFormat s).numParam = s.numParam ∧
     (setPageFormat s).neededParam = s.neededParam ∧ (setPageFormat s).bitGraph = s.bitGraph ∧
     (setPageFormat s).numPrintAsChar = s.numPrintAsChar ∧ (setPageFormat s).msb = s.msb := by
  unfold setPageFormat
  simp only []
  split_ifs <;> simp

@[simp] theorem selectScore_frame (s : CPrinter) :
    (selectScore s).ESCSeen = s.ESCSeen ∧ (selectScore s).FSSeen = s.FSSeen ∧
     (selectScore s).ESCCmd = s.ESCCmd ∧ (selectScore s).numParam = s.numParam ∧
     (selectScore s).neededParam = s.neededParam ∧ (selectScore s).bitGraph = s.bitGraph ∧
     (selectScore s).numPrintAsChar = s.numPrintAsChar ∧ (selectScore s).msb = s.msb :=
  ⟨rfl, rfl, rfl, rfl, rfl, rfl, rfl, rfl⟩

@[simp] theorem cancelOneLineWidth_frame (s : CPrinter) :
    (cancelOneLineWidth s).ESCSeen = s.ESCSeen ∧ (cancelOneLineWidth s).FSSeen = s.FSSeen ∧
     (cancelOneLineWidth s).ESCCmd = s.ESCCmd ∧ (cancelOneLineWidth s).numParam = s.numParam ∧
     (cancelOneLineWidth s).neededParam = s.neededParam ∧
     (cancelOneLineWidth s).bitGraph = s.bitGraph ∧
     (cancelOneLineWidth s).numPrintAsChar = s.numPrintAsChar ∧ (cancelOneLineWidth s).msb = s.msb := by
  unfold cancelOneLineWidth
  split_ifs <;> simp

@[simp] theorem lineFeed_frame (s : CPrinter) :
    (lineFeed s).ESCSeen = s.ESCSeen ∧ (lineFeed s).FSSeen = s.FSSeen ∧
     (lineFeed s).ESCCmd = s.ESCCmd ∧ (lineFeed s).numParam = s.numParam ∧
     (lineFeed s).neededParam = s.neededParam ∧ (lineFeed s).bitGraph = s.bitGraph ∧
     (lineFeed s).numPrintAsChar = s.numPrintAsChar ∧ (lineFeed s).msb = s.msb := by
  unfold lineFeed
  simp only []
  split_ifs <;> simp

@[simp] theorem vertTab_frame (s : CPrinter) :
    (vertTab s).ESCSeen = s.ESCSeen ∧ (vertTab s).FSSeen = s.FSSeen ∧
     (vertTab s).ESCCmd = s.ESCCmd ∧ (vertTab s).numParam = s.numParam ∧
     (vertTab s).neededParam = s.neededParam ∧ (vertTab s).bitGraph = s.bitGraph ∧
     (vertTab s).numPrintAsChar = s.numPrintAsChar ∧ (vertTab s).msb = s.msb := by
  unfold vertTab
  simp only []
  split_ifs <;> simp

@[simp] theorem backspace_frame (s : CPrinter) :
    (backspace s).ESCSeen = s.ESCSeen ∧ (backspace s).FSSeen = s.FSSeen ∧
     (backspace s).ESCCmd = s.ESCCmd ∧ (backspace s).numParam = s.numParam ∧
     (backspace s).neededParam = s.neededParam ∧ (backspace s).bitGraph = s.bitGraph ∧
     (backspace s).numPrintAsChar = s.numPrintAsChar ∧ (backspace s).msb = s.msb := by
  unfold backspace
  dsimp only
  split_ifs <;> exact ⟨rfl, rfl, rfl, rfl, rfl, rfl, rfl, rfl⟩

@[simp] theorem horizTab_frame (s : CPrinter) :
    (horizTab s).ESCSeen = s.ESCSeen ∧ (horizTab s).FSSeen = s.FSSeen ∧
     (horizTab s).ESCCmd = s.ESCCmd ∧ (horizTab s).numParam = s.numParam ∧
     (horizTab s).neededParam = s.neededParam ∧ (horizTab s).bitGraph = s.bitGraph ∧
     (horizTab s).numPrintAsChar = s.numPrintAsChar ∧ (horizTab s).msb = s.msb := by
  unfold horizTab
  dsimp only
  split_ifs <;> exact ⟨rfl, rfl, rfl, rfl, rfl, rfl, rfl, rfl⟩

@[simp] theorem formFeedCode_frame (s : CPrinter) :
    (formFeedCode s).ESCSeen = s.ESCSeen ∧ (formFeedCode s).FSSeen = s.FSSeen ∧
     (formFeedCode s).ESCCmd = s.ESCCmd ∧ (formFeedCode s).numParam = s.numParam ∧
     (formFeedCode s).neededParam = s.neededParam ∧ (formFeedCode s).bitGraph = s.bitGraph ∧
     (formFeedCode s).numPrintAsChar = s.numPrintAsChar ∧ (formFeedCode s).msb = s.msb := by
  unfold formFeedCode
  simp

@[simp] theorem carriageReturn_frame (s : CPrinter) :
    (carriageReturn s).ESCSeen = s.ESCSeen ∧ (carriageReturn s).FSSeen = s.FSSeen ∧
     (carriageReturn s).ESCCmd = s.ESCCmd ∧ (carriageReturn s).numParam = s.numParam ∧
     (carriageReturn s).neededParam = s.neededParam ∧ (carriageReturn s).bitGraph = s.bitGraph ∧
     (carriageReturn s).numPrintAsChar = s.numPrintAsChar ∧ (carriageReturn s).msb = s.msb := by
  unfold carriageReturn
  dsimp only
  split_ifs <;> simp

@[simp] theorem cancelCondensed_frame (s : CPrinter) :
    (cancelCondensed s).ESCSeen = s.ESCSeen ∧ (cancelCondensed s).FSSeen = s.FSSeen ∧
     (cancelCondensed s).ESCCmd = s.ESCCmd ∧ (cancelCondensed s).numParam = s.numParam ∧
     (cancelCondensed s).neededParam = s.neededParam ∧ (cancelCondensed s).bitGraph = s.bitGraph ∧
     (cancelCondensed s).numPrintAsChar = s.numPrintAsChar ∧ (cancelCondensed s).msb = s.msb :=
  ⟨rfl, rfl, rfl, rfl, rfl, rfl, rfl, rfl⟩

@[simp] theorem cancelDoubleWidthOneLine_frame (s : CPrinter) :
    (cancelDoubleWidthOneLine s).ESCSeen = s.ESCSeen ∧
     (cancelDoubleWidthOneLine s).FSSeen = s.FSSeen ∧
     (cancelDoubleWidthOneLine s).ESCCmd = s.ESCCmd ∧
     (cancelDoubleWidthOneLine s).numParam = s.numParam ∧
     (cancelDoubleWidthOneLine s).neededParam = s.neededParam ∧
     (cancelDoubleWidthOneLine s).bitGraph = s.bitGraph ∧
     (cancelDoubleWidthOneLine s).numPrintAsChar = s.numPrintAsChar ∧
     (cancelDoubleWidthOneLine s).msb = s.msb :=
  ⟨rfl, rfl, rfl, rfl, rfl, rfl, rfl, rfl⟩

@[simp] theorem selectDoubleWidthOneLine_frame (s : CPrinter) :
    (selectDoubleWidthOneLine s).ESCSeen = s.ESCSeen ∧
     (selectDoubleWidthOneLine s).FSSeen = s.FSSeen ∧
     (selectDoubleWidthOneLine s).ESCCmd = s.ESCCmd ∧
     (selectDoubleWidthOneLine s).numParam = s.numParam ∧
     (selectDoubleWidthOneLine s).neededParam = s.neededParam ∧
     (selectDoubleWidthOneLine s).bitGraph = s.bitGraph ∧
     (selectDoubleWidthOneLine s).numPrintAsChar = s.numPrintAsChar ∧
     (selectDoubleWidthOneLine s).msb = s.msb := by
  unfold selectDoubleWidthOneLine
  split_ifs <;> exact ⟨rfl, rfl, rfl, rfl, rfl, rfl, rfl, rfl⟩

@[simp] theorem selectCondensed_frame (s : CPrinter) :
    (selectCondensed s).ESCSeen = s.ESCSeen ∧ (selectCondensed s).FSSeen = s.FSSeen ∧
     (selectCondensed s).ESCCmd = s.ESCCmd ∧ (selectCondensed s).numParam = s.numParam ∧
     (selectCondensed s).neededParam = s.neededParam ∧ (selectCondensed s).bitGraph = s.bitGraph ∧
     (selectCondensed s).numPrintAsChar = s.numPrintAsChar ∧ (selectCondensed s).msb = s.msb := by
  unfold selectCondensed
  split_ifs <;> exact ⟨rfl, rfl, rfl, rfl, rfl, rfl, rfl, rfl⟩

/-! ## The dispatch leaves the parser flags alone -/

@[simp] theorem setupBitImage_frame (s : CPrinter) (d n : Nat) :
    (setupBitImage s d n).ESCSeen = s.ESCSeen ∧ (setupBitImage s d n).FSSeen = s.FSSeen ∧
    (setupBitImage s d n).ESCCmd = s.ESCCmd ∧ (setupBitImage s d n).numParam = s.numParam ∧
    (setupBitImage s d n).neededParam = s.neededParam ∧
    (setupBitImage s d n).numPrintAsChar = s.numPrintAsChar ∧ (setupBitImage s d n).msb = s.msb :=
  ⟨rfl, rfl, rfl, rfl, rfl, rfl, rfl⟩

set_option maxHeartbeats 1000000 in
theorem commandTable_frame : commandTable.Forall
    (fun e => e.1 ≠ 0x40 → ∀ s : CPrinter, s.ESCCmd = e.1 → CmdFrame s (e.2 s)) := by
  simp only [commandTable, List.Forall]
  repeat' apply And.intro
  all_goals
    intro h s hs
    simp only [CmdFrame, selectDoubleWidthOneLine, selectCondensed, controlPaper, setIntercharSpace,
      setMSB, setAbsHorizPos, setLineSpacing, setUnderline, addStyle, dropStyle, setUpperContr,
      reassignBitImage, setPageLengthLines, advanceVert, selectPitch, setBottomMargin,
      cancelBottomMargin, setRightMargin, selectSuperSub, cancelSuperSub, setDoubleWidth,
      setRelHorizPos, setHMI, forwardFeed, reversePaperFeed, selectTypeface, setLeftMargin,
      setProportional, selectColor, selectCharTable, setDoubleHeight, selectQuality,
      setPageLengthInches, skipCount, assignCharTable, setPageLengthUnits, setUnit, setAbsVertPos,
      printAsChars, setRelVertPos]
    first
      | (exfalso; exact h rfl)
      | (simp [bitImageCmds, hs]; done)
      | (split_ifs <;> simp [bitImageCmds, hs])

theorem commandEffect_frame (s : CPrinter) (h40 : s.ESCCmd ≠ 0x40) :
    CmdFrame s (commandEffect s) := by
  unfold commandEffect
  split
  · rename_i e he
    have hm := List.mem_of_find?_eq_some he
    have hp := List.find?_some he
    simp only [beq_iff_eq] at hp
    exact (List.forall_iff_forall_mem.1 commandTable_frame) e hm (by rw [hp]; exact h40) s hp.symm
  · exact ⟨rfl, rfl, fun _ _ => ⟨rfl, rfl⟩, fun _ => rfl⟩

/-! ## The parameter store -/

theorem storeParam_inside (s : CPrinter) (ch : Nat) (h : s.numParam < PARAMS_SIZE) :
    storeParam s ch =
      { s with params := fun i => if i = s.numParam then ch else s.params i,
               numParam := s.numParam + 1 } := by
  unfold storeParam
  rw [if_pos h]

@[simp] theorem storeParam_frame (s : CPrinter) (ch : Nat) :
    (storeParam s ch).ESCSeen = s.ESCSeen ∧ (storeParam s ch).FSSeen = s.FSSeen ∧
    (storeParam s ch).ESCCmd = s.ESCCmd ∧ (storeParam s ch).numParam = s.numParam + 1 ∧
    (storeParam s ch).neededParam = s.neededParam ∧ (storeParam s ch).bitGraph = s.bitGraph ∧
    (storeParam s ch).numPrintAsChar = s.numPrintAsChar ∧ (storeParam s ch).msb = s.msb := by
  unfold storeParam
  split_ifs <;> exact ⟨rfl, rfl, rfl, rfl, rfl, rfl, rfl, rfl⟩

theorem paramStage_store (s : CPrinter) (ch : Nat) (h : s.numParam < s.neededParam) :
    paramStage s ch =
      if s.numParam + 1 < s.neededParam then Flow.ret true (storeParam s ch)
      else Flow.next (storeParam s ch) := by
  unfold paramStage
  rw [if_pos h]
  simp only [(storeParam_frame s ch).2.2.2.1, (storeParam_frame s ch).2.2.2.2.1]

set_option maxHeartbeats 1000000 in
theorem commandTable_printAsChars : commandTable.Forall
    (fun e => e.1 ≠ 0x40 → e.1 ≠ 0x25e →
      ∀ s : CPrinter, (e.2 s).numPrintAsChar = s.numPrintAsChar) := by
  simp only [commandTable, List.Forall]
  repeat' apply And.intro
  all_goals
    intro h h2 s
    first
      | (exfalso; exact h rfl)
      | (exfalso; exact h2 rfl)
      | rfl
      | (simp only [selectDoubleWidthOneLine, selectCondensed, controlPaper, setIntercharSpace,
          setMSB, setAbsHorizPos, setLineSpacing, setUnderline, addStyle, dropStyle,
          setUpperContr, reassignBitImage, setPageLengthLines, advanceVert, selectPitch,
          setBottomMargin, cancelBottomMargin, setRightMargin, selectSuperSub, cancelSuperSub,
          setDoubleWidth, setRelHorizPos, setHMI, forwardFeed, reversePaperFeed, selectTypeface,
          setLeftMargin, setProportional, selectColor, selectCharTable, setDoubleHeight,
          selectQuality, setPageLengthInches, skipCount, assignCharTable, setPageLengthUnits,
          setUnit, setAbsVertPos, setRelVertPos]
         first
           | rfl
           | (simp; done)
           | (split_ifs <;> simp))
      | simp

/-- No arm of the dispatch but those of `ESC @` and `ESC ( ^` assigns `numPrintAsChar`. -/
theorem commandEffect_printAsChars (s : CPrinter) (h40 : s.ESCCmd ≠ 0x40)
    (h5e : s.ESCCmd ≠ 0x25e) : (commandEffect s).numPrintAsChar = s.numPrintAsChar := by
  unfold commandEffect
  split
  · rename_i e he
    have hm := List.mem_of_find?_eq_some he
    have hp := List.find?_some he
    simp only [beq_iff_eq] at hp
    exact (List.forall_iff_forall_mem.1 commandTable_printAsChars) e hm (by rw [hp]; exact h40)
      (by rw [hp]; exact h5e) s
  · rfl

/-! ## Single steps of `processCommandChar` -/

theorem processCommandChar_idle (s : CPrinter) (hs : ParserIdle s) (ch : Nat) :
    processCommandChar s ch = controlStage s ch := by
  obtain ⟨h1, h2, h3, h4⟩ := hs
  simp [processCommandChar, escStage, twoByteStage, vfuStage, vertTabStage, horizTabStage,
    paramStage, dispatchStage, Flow.andThen, h1, h2, h3, Nat.not_lt.2 h4]

theorem processCommandChar_store (s : CPrinter) (ch : Nat) (h1 : s.ESCSeen = false)
    (h2 : s.FSSeen = false) (hc : PlainCmd s.ESCCmd) (hn : s.numParam + 1 < s.neededParam) :
    processCommandChar s ch = (true, storeParam s ch) := by
  obtain ⟨c1, c2, c3, c4, c5⟩ := hc
  have hn2 : s.numParam < s.neededParam := by omega
  have hp := paramStage_store s ch hn2
  rw [if_pos hn] at hp
  simp [processCommandChar, escStage, twoByteStage, vfuStage, vertTabStage, horizTabStage,
    hp, Flow.andThen, h1, h2, c1, c2, c3, c4]

theorem processCommandChar_last (s : CPrinter) (ch : Nat) (h1 : s.ESCSeen = false)
    (h2 : s.FSSeen = false) (hc : PlainCmd s.ESCCmd) (hn : s.numParam + 1 = s.neededParam) :
    processCommandChar s ch = (true, dispatched (storeParam s ch)) := by
  obtain ⟨c1, c2, c3, c4, c5⟩ := hc
  have hn2 : s.numParam < s.neededParam := by omega
  have hn3 : ¬ (s.numParam + 1 < s.neededParam) := by omega
  have hp := paramStage_store s ch hn2
  rw [if_neg hn3] at hp
  have hd : dispatchStage (storeParam s ch) = Flow.ret true (dispatched (storeParam s ch)) := by
    unfold dispatchStage dispatched
    rw [if_pos (by rw [(storeParam_frame s ch).2.2.1]; exact c5)]
    split_ifs <;> rfl
  simp only [processCommandChar, escStage, twoByteStage, vfuStage, vertTabStage, horizTabStage,
    hp, hd, Flow.andThen, h1, h2, c1, c2, c3, c4,
    Bool.or_self, Bool.false_eq_true, if_false, if_true, ne_eq, not_false_eq_true]

/-! ## Feeding byte sequences -/

theorem feedCommand_cons (s : CPrinter) (b : Nat) (bs : List Nat) :
    feedCommand s (b :: bs) = feedCommand (processCommandChar s b).2 bs := rfl

theorem feedCommand_append (s : CPrinter) (as bs : List Nat) :
    feedCommand s (as ++ bs) = feedCommand (feedCommand s as) bs := by
  simp [feedCommand, List.foldl_append]

theorem collecting_storeParam (t : CPrinter) (cmd n : Nat) (qs : List Nat) (b : Nat)
    (h : Collecting t cmd n qs) (hq : qs.length < PARAMS_SIZE) :
    (storeParam t b).ESCSeen = false ∧ (storeParam t b).FSSeen = false ∧
    (storeParam t b).ESCCmd = cmd ∧ (storeParam t b).neededParam = n ∧
    (storeParam t b).numParam = (qs ++ [b]).length ∧
    (∀ i, i < (qs ++ [b]).length → (storeParam t b).params i = (qs ++ [b]).getD i 0) ∧
    (storeParam t b).bitGraph = t.bitGraph := by
  obtain ⟨h1, h2, h3, h4, h5, h6⟩ := h
  rw [storeParam_inside t b (by rw [h5]; exact hq)]
  refine ⟨h1, h2, h3, h4, by simp [h5], ?_, rfl⟩
  intro i hi
  simp only [List.length_append, List.length_singleton] at hi
  simp only [h5]
  by_cases hq : i = qs.length
  · subst hq
    simp [List.getD_eq_getElem?_getD]
  · have hlt : i < qs.length := by omega
    rw [if_neg hq, h6 i hlt]
    simp [List.getD_eq_getElem?_getD, List.getElem?_append_left hlt]

theorem collecting_feed (cmd n : Nat) (hc : PlainCmd cmd) (hn : n ≤ PARAMS_SIZE) :
    ∀ (ps : List Nat) (t : CPrinter) (qs : List Nat), Collecting t cmd n qs →
      qs.length + ps.length < n →
      Collecting (feedCommand t ps) cmd n (qs ++ ps) ∧
        (feedCommand t ps).bitGraph = t.bitGraph ∧
        (feedCommand t ps).numPrintAsChar = t.numPrintAsChar := by
  intro ps
  induction ps with
  | nil =>
    intro t qs h _
    simpa [feedCommand] using h
  | cons b ps ih =>
    intro t qs h hlen
    simp only [List.length_cons] at hlen
    have h' := h
    obtain ⟨h1, h2, h3, h4, h5, h6⟩ := h
    have hstep : processCommandChar t b = (true, storeParam t b) :=
      processCommandChar_store t b h1 h2 (by rw [h3]; exact hc) (by omega)
    obtain ⟨g1, g2, g3, g4, g5, g6, g7⟩ := collecting_storeParam t cmd n qs b h' (by omega)
    have := ih (storeParam t b) (qs ++ [b]) ⟨g1, g2, g3, g4, g5, g6⟩
      (by simp only [List.length_append, List.length_singleton]; omega)
    rw [feedCommand_cons, hstep]
    simpa [g7, (storeParam_frame t b).2.2.2.2.2.2.1] using this

/-! ## Arms of the dispatch that touch the parser or open a session -/

theorem commandEffect_reset (s : CPrinter) (h : s.ESCCmd = 0x40) :
    commandEffect s = resetPrinter s := by
  simp [commandEffect, commandTable, h]

theorem commandEffect_skip (s : CPrinter) (h : s.ESCCmd = 0x101 ∨ s.ESCCmd = 0x242) :
    commandEffect s = skipCount s := by
  rcases h with h | h <;> simp [commandEffect, commandTable, h]

theorem commandEffect_bitImage (s : CPrinter) (h : s.ESCCmd ∈ bitImageCmds) :
    commandEffect s =
      setupBitImage s
        (if s.ESCCmd = 0x4b then s.densk else if s.ESCCmd = 0x4c then s.densl
         else if s.ESCCmd = 0x59 then s.densy else if s.ESCCmd = 0x5a then s.densz
         else if s.ESCCmd = 0x2a then s.params 0 else 40)
        (if s.ESCCmd = 0x2a then PARAM16 s.params 1 else PARAM16 s.params 0) := by
  simp only [bitImageCmds, List.mem_cons, List.mem_singleton, List.not_mem_nil, or_false] at h
  rcases h with h | h | h | h | h | h <;> simp [commandEffect, commandTable, h]

theorem escParamCount_plain (c n : Nat) (h : escParamCount c = some n) :
    PlainCmd c ∧ c ≠ 0x101 ∧ c ≠ 0x242 ∧ (c = 0x43 → n = 1) ∧ (c = 0x40 → n = 0) ∧
      (c ∈ bitImageCmds → (c = 0x2a ∧ n = 3) ∨ (c ≠ 0x2a ∧ n = 2)) := by
  refine ⟨⟨?_, ?_, ?_, ?_, ?_⟩, ?_, ?_, ?_, ?_, ?_⟩
  all_goals
    first
      | (intro hc
         subst hc
         simp [escParamCount, escNoParam, escOneParam, escTwoParam, escThreeParam, escSevenParam] at h
         done)
      | (intro hc
         subst hc
         simp [escParamCount, escNoParam, escOneParam, escTwoParam, escThreeParam, escSevenParam] at h
         omega)
      | (intro hc
         simp only [bitImageCmds, List.mem_cons, List.mem_singleton, List.not_mem_nil, or_false] at hc
         rcases hc with hc | hc | hc | hc | hc | hc <;> subst hc <;>
           simp [escParamCount, escNoParam, escOneParam, escTwoParam, escThreeParam, escSevenParam] at h <;>
           omega)

theorem esc2ParamCount_plain (x n : Nat) (hx : x < 256)
    (h : esc2ParamCount (0x200 + x) = some n) :
    PlainCmd (0x200 + x) ∧ 0x200 + x ≠ 0x101 ∧ 0x200 + x ≠ 0x43 ∧ 0x200 + x ≠ 0x40 ∧
      0x200 + x ∉ bitImageCmds ∧ 0 < n ∧ (0x200 + x = 0x242 → n = 2) := by
  refine ⟨⟨by omega, by omega, by omega, by omega, by omega⟩, by omega, by omega, by omega, ?_, ?_, ?_⟩
  · simp only [bitImageCmds, List.mem_cons, List.mem_singleton, List.not_mem_nil, or_false]
    omega
  · unfold esc2ParamCount at h
    split_ifs at h <;> simp only [Option.some.injEq] at h <;> omega
  · intro hc
    rw [hc] at h
    simp [esc2ParamCount] at h
    omega

/-! ## From the introducer to the dispatch -/

theorem armed_collecting (s : CPrinter) (cmd n : Nat) : Collecting (armed s cmd n) cmd n [] :=
  ⟨rfl, rfl, rfl, rfl, rfl, fun i hi => absurd hi (Nat.not_lt_zero i)⟩

theorem processCommandChar_eq (s : CPrinter) (ch : Nat) :
    processCommandChar s ch = finish ((escStage s ch).andThen fun s => afterEsc s ch) ch := by
  unfold processCommandChar afterEsc finish
  cases escStage s ch <;> rfl

theorem afterEsc_plain (s : CPrinter) (ch : Nat) (hc : PlainCmd s.ESCCmd) :
    afterEsc s ch = (paramStage s ch).andThen dispatchStage := by
  obtain ⟨c1, c2, c3, c4, -⟩ := hc
  simp [afterEsc, twoByteStage, vfuStage, vertTabStage, horizTabStage, Flow.andThen, c1, c2, c3, c4]

theorem paramStage_done (s : CPrinter) (ch : Nat) (h : s.neededParam ≤ s.numParam) :
    paramStage s ch = Flow.next s := by
  simp [paramStage, Nat.not_lt.2 h]

theorem dispatchStage_eq (s : CPrinter) (h : s.ESCCmd ≠ 0) :
    dispatchStage s = Flow.ret true (dispatched s) := by
  unfold dispatchStage dispatched
  rw [if_pos h]
  split_ifs <;> rfl

theorem escStage_esc (s : CPrinter) (x n : Nat) (h1 : s.ESCSeen = true) (h2 : s.FSSeen = false)
    (hc : escParamCount x = some n) :
    escStage s x = if 0 < n then Flow.ret true (armed s x n) else Flow.next (armed s x n) := by
  simp [escStage, h1, h2, hc, armed]

theorem escStage_fs (s : CPrinter) (x n : Nat) (h2 : s.FSSeen = true)
    (hc : escParamCount (x ||| 0x800) = some n) :
    escStage s x = if 0 < n then Flow.ret true (armed s (x ||| 0x800) n)
      else Flow.next (armed s (x ||| 0x800) n) := by
  simp [escStage, h2, hc, armed]

theorem processCommandChar_armed (s : CPrinter) (x cmd n : Nat) (hc : PlainCmd cmd)
    (he : escStage s x = if 0 < n then Flow.ret true (armed s cmd n) else Flow.next (armed s cmd n)) :
    processCommandChar s x =
      (true, if 0 < n then armed s cmd n else dispatched (armed s cmd n)) := by
  rw [processCommandChar_eq, he]
  by_cases hn : 0 < n
  · simp [hn, Flow.andThen, finish]
  · have hn0 : n = 0 := by omega
    subst hn0
    simp only [Nat.lt_irrefl, if_false, Flow.andThen]
    rw [afterEsc_plain _ _ (by exact hc), paramStage_done _ _ (by exact Nat.le_refl 0)]
    simp only [Flow.andThen]
    rw [dispatchStage_eq _ (by exact hc.2.2.2.2)]
    rfl

theorem feed_intro (s : CPrinter) (hs : ParserIdle s) (intro : List Nat) (cmd n : Nat)
    (hd : Declared intro cmd n) :
    feedCommand s intro = if 0 < n then armed s cmd n else dispatched (armed s cmd n) := by
  have hs' := hs
  obtain ⟨h1, h2, h3, h4⟩ := hs
  cases hd with
  | esc _ _ hx hc =>
    obtain ⟨hp, -⟩ := escParamCount_plain cmd n hc
    rw [feedCommand_cons, processCommandChar_idle s hs', feedCommand_cons]
    have he := escStage_esc (seeESC s) cmd n rfl h2 hc
    have := congrArg Prod.snd (processCommandChar_armed (seeESC s) cmd cmd n hp he)
    simpa [feedCommand, controlStage] using this
  | fs x n hx hc =>
    obtain ⟨hp, -⟩ := escParamCount_plain (x ||| 0x800) n hc
    rw [feedCommand_cons, processCommandChar_idle s hs', feedCommand_cons]
    have he := escStage_fs (seeFS s) x n rfl hc
    have := congrArg Prod.snd (processCommandChar_armed (seeFS s) x (x ||| 0x800) n hp he)
    have e : armed (seeFS s) (x ||| 0x800) n = armed s (x ||| 0x800) n := by
      simp [armed, seeFS, h1]
    simpa [feedCommand, controlStage, e] using this
  | esc2 x n hx hc =>
    obtain ⟨-, -, -, -, -, hn, -⟩ := esc2ParamCount_plain x n hx hc
    rw [feedCommand_cons, processCommandChar_idle s hs', feedCommand_cons, feedCommand_cons]
    simp [feedCommand, controlStage, seeESC, processCommandChar, escStage, twoByteStage,
      Flow.andThen, hc, hn, armed, escParamCount, escNoParam, escOneParam, escTwoParam,
      escThreeParam, escSevenParam, h2]

theorem resetPrinter_idle (s : CPrinter) :
    (resetPrinter s).ESCSeen = false ∧ (resetPrinter s).FSSeen = false ∧
    (resetPrinter s).ESCCmd = 0 ∧ (resetPrinter s).numParam = 0 ∧
    (resetPrinter s).neededParam = 0 ∧ (resetPrinter s).bitGraph.remBytes = 0 ∧
    (resetPrinter s).numPrintAsChar = 0 ∧ (resetPrinter s).msb = 255 := by
  unfold resetPrinter
  simp

/-- No declared command has more than seven parameter bytes. -/
theorem declared_le (intro : List Nat) (cmd n : Nat) (hd : Declared intro cmd n) : n ≤ 7 := by
  cases hd with
  | esc _ _ hx hc =>
    unfold escParamCount at hc
    split_ifs at hc <;> simp only [Option.some.injEq] at hc <;> omega
  | fs x n hx hc =>
    unfold escParamCount at hc
    split_ifs at hc <;> simp only [Option.some.injEq] at hc <;> omega
  | esc2 x n hx hc =>
    unfold esc2ParamCount at hc
    split_ifs at hc <;> simp only [Option.some.injEq] at hc <;> omega

theorem final_dispatch (s : CPrinter) (hs : ParserIdle s) (intro : List Nat) (cmd n : Nat)
    (hd : Declared intro cmd n) (hp : PlainCmd cmd) (ps : List Nat) (hlen : ps.length = n) :
    ∃ w, Collecting w cmd n ps ∧ w.numParam = n ∧ w.bitGraph = s.bitGraph ∧
      feedCommand s (intro ++ ps) = dispatched w ∧ w.numPrintAsChar = s.numPrintAsChar := by
  have hn7 : n ≤ PARAMS_SIZE := Nat.le_trans (declared_le intro cmd n hd) (by decide)
  have hsz : PARAMS_SIZE = 20 := rfl
  rw [feedCommand_append, feed_intro s hs intro cmd n hd]
  rcases List.eq_nil_or_concat ps with hnil | ⟨init, last, hcat⟩
  · subst hnil
    simp only [List.length_nil] at hlen
    subst hlen
    exact ⟨armed s cmd 0, armed_collecting s cmd 0, rfl, rfl, by simp [feedCommand], rfl⟩
  · rw [List.concat_eq_append] at hcat
    subst hcat
    have hlen2 : init.length + 1 = n := by simpa using hlen
    have hn : 0 < n := by omega
    rw [if_pos hn, feedCommand_append]
    obtain ⟨hcol, hbg, hpc⟩ := collecting_feed cmd n hp hn7 init (armed s cmd n) []
      (armed_collecting s cmd n) (by simp only [List.length_nil]; omega)
    have hcol' : Collecting (feedCommand (armed s cmd n) init) cmd n init := hcol
    clear hcol
    have hcol := hcol'
    obtain ⟨h1, h2, h3, h4, h5, h6⟩ := hcol
    have hstep := processCommandChar_last (feedCommand (armed s cmd n) init) last h1 h2
      (by rw [h3]; exact hp) (by omega)
    obtain ⟨g1, g2, g3, g4, g5, g6, g7⟩ :=
      collecting_storeParam (feedCommand (armed s cmd n) init) cmd n init last hcol' (by omega)
    refine ⟨storeParam (feedCommand (armed s cmd n) init) last, ⟨g1, g2, g3, g4, g5, g6⟩,
      ?_, ?_, ?_, ?_⟩
    · rw [g5]
      exact hlen
    · rw [g7, hbg]
      rfl
    · rw [feedCommand_cons, hstep]
      rfl
    · rw [(storeParam_frame _ last).2.2.2.2.2.2.1, hpc]
      rfl

theorem declared_facts (intro : List Nat) (cmd n : Nat) (hd : Declared intro cmd n) :
    PlainCmd cmd ∧ cmd ≠ 0x101 ∧ (cmd = 0x43 → n = 1) ∧ (cmd = 0x40 → n = 0) ∧
      (cmd = 0x242 → n = 2) ∧
      (cmd ∈ bitImageCmds → (cmd = 0x2a ∧ n = 3) ∨ (cmd ≠ 0x2a ∧ n = 2)) := by
  cases hd with
  | esc _ _ hx hc =>
    obtain ⟨a, b, c, d, e, f⟩ := escParamCount_plain cmd n hc
    exact ⟨a, b, d, e, fun h => absurd h c, f⟩
  | fs x n hx hc =>
    obtain ⟨a, b, c, d, e, f⟩ := escParamCount_plain (x ||| 0x800) n hc
    exact ⟨a, b, d, e, fun h => absurd h c, f⟩
  | esc2 x n hx hc =>
    obtain ⟨a, b, c, d, e, f, g⟩ := esc2ParamCount_plain x n hx hc
    exact ⟨a, b, fun h => absurd h c, fun h => absurd h d, g, fun h => absurd h e⟩

/-! ## A declared command as a fold of parameter stores -/

theorem collecting_feed_eq (cmd n : Nat) (hc : PlainCmd cmd) (hn : n ≤ PARAMS_SIZE) :
    ∀ (ps : List Nat) (t : CPrinter) (qs : List Nat), Collecting t cmd n qs →
      qs.length + ps.length < n → feedCommand t ps = ps.foldl storeParam t := by
  intro ps
  induction ps with
  | nil =>
    intro t qs _ _
    rfl
  | cons b ps ih =>
    intro t qs h hlen
    simp only [List.length_cons] at hlen
    have h' := h
    obtain ⟨h1, h2, h3, h4, h5, h6⟩ := h
    have hstep : processCommandChar t b = (true, storeParam t b) :=
      processCommandChar_store t b h1 h2 (by rw [h3]; exact hc) (by omega)
    obtain ⟨g1, g2, g3, g4, g5, g6, g7⟩ := collecting_storeParam t cmd n qs b h' (by omega)
    have := ih (storeParam t b) (qs ++ [b]) ⟨g1, g2, g3, g4, g5, g6⟩
      (by simp only [List.length_append, List.length_singleton]; omega)
    rw [feedCommand_cons, hstep, List.foldl_cons]
    exact this

theorem feed_declared_eq (s : CPrinter) (hs : ParserIdle s) (intro : List Nat) (cmd n : Nat)
    (hd : Declared intro cmd n) (ps : List Nat) (hlen : ps.length = n) :
    feedCommand s (intro ++ ps) = dispatched (ps.foldl storeParam (armed s cmd n)) := by
  obtain ⟨hp, -⟩ := declared_facts intro cmd n hd
  have hn7 : n ≤ PARAMS_SIZE := Nat.le_trans (declared_le intro cmd n hd) (by decide)
  rw [feedCommand_append, feed_intro s hs intro cmd n hd]
  rcases List.eq_nil_or_concat ps with hnil | ⟨init, last, hcat⟩
  · subst hnil
    simp only [List.length_nil] at hlen
    subst hlen
    simp [feedCommand]
  · rw [List.concat_eq_append] at hcat
    subst hcat
    have hlen2 : init.length + 1 = n := by simpa using hlen
    have hn : 0 < n := by omega
    rw [if_pos hn, feedCommand_append]
    have heq := collecting_feed_eq cmd n hp hn7 init (armed s cmd n) []
      (armed_collecting s cmd n) (by simp only [List.length_nil]; omega)
    obtain ⟨hcol, -⟩ := collecting_feed cmd n hp hn7 init (armed s cmd n) []
      (armed_collecting s cmd n) (by simp only [List.length_nil]; omega)
    have hcol' : Collecting (feedCommand (armed s cmd n) init) cmd n init := hcol
    obtain ⟨h1, h2, h3, h4, h5, h6⟩ := hcol'
    have hstep := processCommandChar_last (feedCommand (armed s cmd n) init) last h1 h2
      (by rw [h3]; exact hp) (by omega)
    rw [feedCommand_cons, hstep, heq, List.foldl_append]
    rfl

theorem commandEffect_printAs (s : CPrinter) (h : s.ESCCmd = 0x25e) :
    commandEffect s = printAsChars s := by
  simp [commandEffect, commandTable, h]

theorem declared_printAs (intro : List Nat) (cmd n : Nat) (hd : Declared intro cmd n)
    (h : cmd = 0x25e) : n = 2 := by
  cases hd with
  | esc _ _ hx hc =>
    subst h
    simp [escParamCount, escNoParam, escOneParam, escTwoParam, escThreeParam, escSevenParam] at hc
  | fs x n hx hc =>
    rw [h] at hc
    simp [escParamCount, escNoParam, escOneParam, escTwoParam, escThreeParam, escSevenParam] at hc
  | esc2 x n hx hc =>
    rw [h] at hc
    simp [esc2ParamCount] at hc
    omega

/-- C1 (amended). For every declared escape command (`ESC x`, `FS x`, `ESC ( x`) and every
idle state: after the selecting bytes and fewer parameter bytes than declared the parser
is still collecting, with `numParam` the number of bytes fed, and neither a bit-image
session nor a print-as-characters run is open; after exactly the declared number
`ESCSeen = FSSeen = false` and the parser is back in `Idle`, except that `ESC C` with
parameter 0 goes on to wait for one byte under `ESCCmd = 0x100`, that `ESC ( B` leaves the
low byte of its 16 bit count in the 8 bit counter `neededParam` as the number of bytes
still to skip, that `ESC ( ^` leaves its 16 bit count in `numPrintAsChar` as the number of
bytes to print as characters, and that a bit-image command opens a session of
`numCols * bytesColumn` bytes, counted modulo 65536 in the 16 bit member `remBytes`. -/
theorem declared_command_collects_then_completes (s : CPrinter) (hs : Idle s)
    (intro : List Nat) (cmd n : Nat) (hd : Declared intro cmd n) (ps : List Nat) :
    (ps.length < n →
      Collecting (feedCommand s (intro ++ ps)) cmd n ps ∧
      (feedCommand s (intro ++ ps)).numParam = ps.length ∧
      (feedCommand s (intro ++ ps)).bitGraph.remBytes = 0 ∧
      (feedCommand s (intro ++ ps)).numPrintAsChar = 0) ∧
    (ps.length = n →
      (feedCommand s (intro ++ ps)).ESCSeen = false ∧
      (feedCommand s (intro ++ ps)).FSSeen = false ∧
      (cmd = 0x43 ∧ ps = [0] →
        (feedCommand s (intro ++ ps)).ESCCmd = 0x100 ∧
        (feedCommand s (intro ++ ps)).neededParam = 1 ∧
        (feedCommand s (intro ++ ps)).numParam = 0) ∧
      (¬ (cmd = 0x43 ∧ ps = [0]) → (feedCommand s (intro ++ ps)).ESCCmd = 0) ∧
      (cmd = 0x242 →
        (feedCommand s (intro ++ ps)).neededParam = PARAM16 (fun i => ps.getD i 0) 0 % 256 ∧
        (feedCommand s (intro ++ ps)).numParam = 0) ∧
      (cmd = 0x25e →
        (feedCommand s (intro ++ ps)).numPrintAsChar = PARAM16 (fun i => ps.getD i 0) 0) ∧
      (cmd ∈ bitImageCmds →
        (feedCommand s (intro ++ ps)).bitGraph.remBytes =
          ((if cmd = 0x2a then PARAM16 (fun i => ps.getD i 0) 1
            else PARAM16 (fun i => ps.getD i 0) 0) *
            (feedCommand s (intro ++ ps)).bitGraph.bytesColumn) % 65536) ∧
      (¬ (cmd = 0x43 ∧ ps = [0]) → cmd ≠ 0x242 → cmd ≠ 0x25e → cmd ∉ bitImageCmds →
        Idle (feedCommand s (intro ++ ps)))) := by
  obtain ⟨hpi, hrem, hpac⟩ := hs
  obtain ⟨hp, h101, h43, h40, h242, hbit⟩ := declared_facts intro cmd n hd
  have hn7 : n ≤ PARAMS_SIZE := Nat.le_trans (declared_le intro cmd n hd) (by decide)
  constructor
  · intro hlt
    have hn : 0 < n := by omega
    rw [feedCommand_append, feed_intro s hpi intro cmd n hd, if_pos hn]
    obtain ⟨hcol, hbg, hpc⟩ := collecting_feed cmd n hp hn7 ps (armed s cmd n) []
      (armed_collecting s cmd n) (by simpa using hlt)
    have hcol' : Collecting (feedCommand (armed s cmd n) ps) cmd n ps := hcol
    refine ⟨hcol', hcol'.2.2.2.2.1, ?_, ?_⟩
    · rw [hbg]
      exact hrem
    · rw [hpc]
      exact hpac
  · intro hlen
    obtain ⟨w, ⟨w1, w2, w3, w4, w5, w6⟩, wn, wbg, hfin, wpc⟩ :=
      final_dispatch s hpi intro cmd n hd hp ps hlen
    rw [hfin]
    have hw0 : 0 < n → w.params 0 = ps.getD 0 0 := fun h => w6 0 (by omega)
    by_cases hC : cmd = 0x43 ∧ ps = [0]
    · obtain ⟨hc, hps⟩ := hC
      have hd1 : w.ESCCmd = 0x43 ∧ w.params 0 = 0 := by
        refine ⟨by rw [w3, hc], ?_⟩
        rw [hw0 (by rw [h43 hc]; exact Nat.one_pos), hps]
        rfl
      have hbi : cmd ∉ bitImageCmds := by rw [hc]; decide
      have hdw : dispatched w = { w with neededParam := 1, numParam := 0, ESCCmd := 0x100 } := by
        unfold dispatched
        rw [if_pos hd1]
      rw [hdw]
      refine ⟨w1, w2, fun _ => ⟨rfl, rfl, rfl⟩, fun h => absurd ⟨hc, hps⟩ h, fun h => ?_,
        fun h => ?_, fun h => absurd h hbi, fun h => absurd ⟨hc, hps⟩ h⟩
      · rw [hc] at h
        exact absurd h (by decide)
      · rw [hc] at h
        exact absurd h (by decide)
    · have hd1 : ¬ (w.ESCCmd = 0x43 ∧ w.params 0 = 0) := by
        rintro ⟨a, b⟩
        rw [w3] at a
        have hn1 := h43 a
        apply hC
        refine ⟨a, ?_⟩
        rw [hw0 (by omega)] at b
        match ps, hlen, b with
        | [p], _, b =>
          simp only [List.getD_cons_zero] at b
          rw [b]
        | [], hl, _ => simp at hl; omega
        | _ :: _ :: _, hl, _ => simp at hl; omega
      have hdw : dispatched w = { commandEffect w with ESCCmd := 0 } := by
        unfold dispatched
        rw [if_neg hd1]
      rw [hdw]
      by_cases hR : cmd = 0x40
      · have hce := commandEffect_reset w (by rw [w3, hR])
        obtain ⟨r1, r2, r3, r4, r5, r6, r7, -⟩ := resetPrinter_idle w
        have hbi : cmd ∉ bitImageCmds := by rw [hR]; decide
        rw [hce]
        refine ⟨r1, r2, fun h => absurd h hC, fun _ => rfl, fun h => ?_, fun h => ?_,
          fun h => absurd h hbi, fun _ _ _ _ => ⟨⟨r1, r2, rfl, ?_⟩, r6, r7⟩⟩
        · rw [hR] at h
          exact absurd h (by decide)
        · rw [hR] at h
          exact absurd h (by decide)
        · show (resetPrinter w).neededParam ≤ (resetPrinter w).numParam
          rw [r4, r5]
      · obtain ⟨f1, f2, f3, f4⟩ := commandEffect_frame w (by rw [w3]; exact hR)
        rw [w3] at f3 f4
        refine ⟨by rw [← w1]; exact f1, by rw [← w2]; exact f2, fun h => absurd h hC, fun _ => rfl,
          fun h => ?_, fun h => ?_, fun h => ?_,
          fun _ h2 h5 hb => ⟨⟨by rw [← w1]; exact f1, by rw [← w2]; exact f2, rfl, ?_⟩, ?_, ?_⟩⟩
        · have hce := commandEffect_skip w (Or.inr (by rw [w3, h]))
          have hn2 := h242 h
          show (commandEffect w).neededParam = _ ∧ (commandEffect w).numParam = 0
          rw [hce]
          refine ⟨?_, rfl⟩
          show PARAM16 w.params 0 % 256 = _
          simp only [PARAM16]
          rw [w6 0 (by omega), w6 1 (by omega)]
        · have hce := commandEffect_printAs w (by rw [w3, h])
          have hn2 := declared_printAs intro cmd n hd h
          show (commandEffect w).numPrintAsChar = _
          rw [hce]
          show PARAM16 w.params 0 = _
          simp only [PARAM16]
          rw [w6 0 (by omega), w6 1 (by omega)]
        · have hce := commandEffect_bitImage w (by rw [w3]; exact h)
          show (commandEffect w).bitGraph.remBytes =
            (_ * (commandEffect w).bitGraph.bytesColumn) % 65536
          rw [hce, w3]
          rcases hbit h with ⟨hc, hn3⟩ | ⟨hc, hn2⟩
          · simp only [if_pos hc, setupBitImage, PARAM16]
            rw [w6 1 (by omega), w6 2 (by omega)]
          · simp only [if_neg hc, setupBitImage, PARAM16]
            rw [w6 0 (by omega), w6 1 (by omega)]
        · obtain ⟨g1, g2⟩ := f3 h101 h2
          show (commandEffect w).neededParam ≤ (commandEffect w).numParam
          rw [g1, g2, w4, wn]
        · show (commandEffect w).bitGraph.remBytes = 0
          rw [f4 hb, wbg]
          exact hrem
        · show (commandEffect w).numPrintAsChar = 0
          rw [commandEffect_printAsChars w (by rw [w3]; exact hR) (by rw [w3]; exact h5), wpc]
          exact hpac

/-- C1 (as stated, refuted). `ESC C` is declared with one parameter byte and `ESC K` with
two, and the freshly constructed printer is idle; yet after `ESC C 0` the parser waits
under `ESCCmd = 0x100` with a byte pending, and after `ESC K 1 0` a bit-image session of
one byte is open: neither state is `Idle`. Likewise `ESC ( B 5 0` leaves five bytes to
skip and `ESC ( ^ 2 0` leaves two bytes to print as characters. -/
theorem declared_command_not_always_idle :
    Declared [0x1b, 0x43] 0x43 1 ∧ Declared [0x1b, 0x4b] 0x4b 2 ∧ Idle samplePrinter ∧
    (feedCommand samplePrinter ([0x1b, 0x43] ++ [0x00])).ESCCmd = 0x100 ∧
    (feedCommand samplePrinter ([0x1b, 0x43] ++ [0x00])).numParam = 0 ∧
    (feedCommand samplePrinter ([0x1b, 0x43] ++ [0x00])).neededParam = 1 ∧
    ¬ Idle (feedCommand samplePrinter ([0x1b, 0x43] ++ [0x00])) ∧
    (feedCommand samplePrinter ([0x1b, 0x4b] ++ [0x01, 0x00])).bitGraph.remBytes = 1 ∧
    ¬ Idle (feedCommand samplePrinter ([0x1b, 0x4b] ++ [0x01, 0x00])) ∧
    Declared [0x1b, 0x28, 0x42] 0x242 2 ∧ Declared [0x1b, 0x28, 0x5e] 0x25e 2 ∧
    (feedCommand samplePrinter ([0x1b, 0x28, 0x42] ++ [0x05, 0x00])).neededParam = 5 ∧
    (feedCommand samplePrinter ([0x1b, 0x28, 0x42] ++ [0x05, 0x00])).numParam = 0 ∧
    ¬ Idle (feedCommand samplePrinter ([0x1b, 0x28, 0x42] ++ [0x05, 0x00])) ∧
    (feedCommand samplePrinter ([0x1b, 0x28, 0x5e] ++ [0x02, 0x00])).numPrintAsChar = 2 ∧
    ¬ Idle (feedCommand samplePrinter ([0x1b, 0x28, 0x5e] ++ [0x02, 0x00])) := by
  have h1 : (feedCommand samplePrinter ([0x1b, 0x43] ++ [0x00])).ESCCmd = 0x100 := by decide
  have h2 : (feedCommand samplePrinter ([0x1b, 0x4b] ++ [0x01, 0x00])).bitGraph.remBytes = 1 := by
    decide
  have h3 : (feedCommand samplePrinter ([0x1b, 0x28, 0x42] ++ [0x05, 0x00])).neededParam = 5 := by
    decide
  have h4 : (feedCommand samplePrinter ([0x1b, 0x28, 0x42] ++ [0x05, 0x00])).numParam = 0 := by
    decide
  have h5 : (feedCommand samplePrinter ([0x1b, 0x28, 0x5e] ++ [0x02, 0x00])).numPrintAsChar = 2 := by
    decide
  refine ⟨Declared.esc 0x43 1 (by decide) (by decide), Declared.esc 0x4b 2 (by decide) (by decide),
    ⟨⟨by decide, by decide, by decide, by decide⟩, by decide, by decide⟩, h1, by decide,
    by decide, ?_, h2, ?_, Declared.esc2 0x42 2 (by decide) (by decide),
    Declared.esc2 0x5e 2 (by decide) (by decide), h3, h4, ?_, h5, ?_⟩
  · intro h
    have h6 := h.1.2.2.1
    rw [h1] at h6
    exact absurd h6 (by decide)
  · intro h
    have h6 := h.2.1
    rw [h2] at h6
    exact absurd h6 (by decide)
  · intro h
    have h6 := h.1.2.2.2
    rw [h3, h4] at h6
    exact absurd h6 (by decide)
  · intro h
    have h6 := h.2.2
    rw [h5] at h6
    exact absurd h6 (by decide)

/-- Witness of C1 (amended): `ESC !` (master select, one parameter) on the sample printer;
with no parameter fed the parser collects, after one parameter byte it is idle again. -/
theorem declared_command_collects_then_completes_witness :
    Idle samplePrinter ∧ Declared [0x1b, 0x21] 0x21 1 ∧
    Collecting (feedCommand samplePrinter ([0x1b, 0x21] ++ [])) 0x21 1 [] ∧
    Idle (feedCommand samplePrinter ([0x1b, 0x21] ++ [0x01])) :=
  have hs : Idle samplePrinter :=
    ⟨⟨by decide, by decide, by decide, by decide⟩, by decide, by decide⟩
  have hd : Declared [0x1b, 0x21] 0x21 1 := Declared.esc 0x21 1 (by decide) (by decide)
  ⟨hs, hd,
    ((declared_command_collects_then_completes samplePrinter hs [0x1b, 0x21] 0x21 1 hd []).1
      (by decide)).1,
    (declared_command_collects_then_completes samplePrinter hs [0x1b, 0x21] 0x21 1 hd [0x01]).2
      (by decide) |>.2.2.2.2.2.2.2 (by decide) (by decide) (by decide) (by decide)⟩

/-! ## C2: the single byte control codes -/

/-- C2. In every state whose parser is idle, each of the control codes NUL, BEL, BS, HT,
VT, FF, CR, LF, SO, SI, DC1, DC2, DC3, DC4 and CAN makes `processCommandChar` return true
(the byte is not printed) and leaves the parser idle: `ESCSeen` and `FSSeen` false,
`ESCCmd = 0`, no parameter pending. -/
theorem control_code_stays_idle (s : CPrinter) (hs : ParserIdle s) (ch : Nat)
    (hc : ch ∈ controlCodes) :
    (processCommandChar s ch).1 = true ∧ ParserIdle (processCommandChar s ch).2 := by
  rw [processCommandChar_idle s hs]
  obtain ⟨h1, h2, h3, h4⟩ := hs
  simp only [controlCodes, List.mem_cons, List.mem_singleton, List.not_mem_nil, or_false] at hc
  rcases hc with rfl | rfl | rfl | rfl | rfl | rfl | rfl | rfl | rfl | rfl | rfl | rfl | rfl | rfl | rfl <;>
    simp [controlStage, ParserIdle, h1, h2, h3, h4]

/-- Witness of C2: a form feed on the freshly constructed sample printer. -/
theorem control_code_stays_idle_witness :
    ParserIdle samplePrinter ∧ 0x0c ∈ controlCodes ∧
    (processCommandChar samplePrinter 0x0c).1 = true ∧
    ParserIdle (processCommandChar samplePrinter 0x0c).2 :=
  have hs : ParserIdle samplePrinter := ⟨by decide, by decide, by decide, by decide⟩
  ⟨hs, by decide, control_code_stays_idle samplePrinter hs 0x0c (by decide)⟩

/-! ## C3: `ESC @` restores the defaults -/

theorem selectCodepage_eq (s : CPrinter) (cp : Nat) :
    selectCodepage s cp = { s with curMap := (selectCodepage s cp).curMap } := by
  unfold selectCodepage
  split
  · rfl
  · split <;> rfl

theorem selectCodepage_437 (s : CPrinter) (m : Nat → Nat)
    (hm : findCharmap s.tables 437 = some m) : (selectCodepage s 437).curMap = m := by
  unfold selectCodepage
  rw [hm]

theorem resetPrinter_defaults (s : CPrinter) :
    (resetPrinter s).cpi = 10 ∧ (resetPrinter s).style = 0 ∧ (resetPrinter s).topMargin = 0 ∧
    (resetPrinter s).leftMargin = 0 ∧ (resetPrinter s).rightMargin = s.defaultPageWidth ∧
    (resetPrinter s).bottomMargin = s.defaultPageHeight ∧
    (∀ i, i < 32 → (resetPrinter s).horiztabs i = (i : Real64) * 8 * (1 / 10)) ∧
    (resetPrinter s).numHorizTabs = 32 ∧ (resetPrinter s).numVertTabs = 255 ∧
    (resetPrinter s).curCharTable = 1 ∧
    (resetPrinter s).charTables (resetPrinter s).curCharTable = 437 ∧
    (∀ m, findCharmap s.tables 437 = some m → (resetPrinter s).curMap = m) := by
  unfold resetPrinter
  simp only []
  rw [selectCodepage_eq]
  refine ⟨?_, ?_, ?_, ?_, ?_, ?_, ?_, ?_, ?_, ?_, ?_, ?_⟩
  all_goals first
    | rfl
    | trivial
    | (intro i hi
       show (if i < 32 then _ else _) = _
       rw [if_pos hi]
       rfl)
    | (intro m hm
       exact selectCodepage_437 _ m hm)

theorem feedCommand_reset (s : CPrinter) (hs : ParserIdle s) :
    feedCommand s [0x1b, 0x40] = { resetPrinter (armed s 0x40 0) with ESCCmd := 0 } := by
  have h := feed_declared_eq s hs [0x1b, 0x40] 0x40 0
    (Declared.esc 0x40 0 (by decide) (by decide)) [] rfl
  have hne : ¬ ((armed s 0x40 0).ESCCmd = 0x43 ∧ (armed s 0x40 0).params 0 = 0) := by
    rintro ⟨a, -⟩
    have a' : (0x40 : Nat) = 0x43 := a
    exact absurd a' (by decide)
  rw [show [0x1b, 0x40] = [0x1b, 0x40] ++ ([] : List Nat) from rfl, h]
  show dispatched (armed s 0x40 0) = _
  unfold dispatched
  rw [if_neg hne, commandEffect_reset _ rfl]

/-- C3 (amended). When the command parser is idle (no introducer, command, parameter or
skip count pending), the sequence `ESC @` handed to `processCommandChar` leaves `cpi = 10`,
`style = 0`, `topMargin = leftMargin = 0`, `rightMargin` and `bottomMargin` at the default
page width and height, the 32 horizontal tab stops at `i*8/10` inch, `numVertTabs = 255`
and the active character table 1 mapped to code page 437 (with the translation table of
437 loaded); these fields equal those of a printer freshly constructed with the same paper
size and tables. -/
theorem reset_restores_defaults (s : CPrinter) (hs : ParserIdle s) :
    (feedCommand s [0x1b, 0x40]).cpi = 10 ∧ (feedCommand s [0x1b, 0x40]).style = 0 ∧
    (feedCommand s [0x1b, 0x40]).topMargin = 0 ∧ (feedCommand s [0x1b, 0x40]).leftMargin = 0 ∧
    (feedCommand s [0x1b, 0x40]).rightMargin = s.defaultPageWidth ∧
    (feedCommand s [0x1b, 0x40]).bottomMargin = s.defaultPageHeight ∧
    (∀ i, i < 32 → (feedCommand s [0x1b, 0x40]).horiztabs i = (i : Real64) * 8 / 10) ∧
    (feedCommand s [0x1b, 0x40]).numHorizTabs = 32 ∧
    (feedCommand s [0x1b, 0x40]).numVertTabs = 255 ∧
    (feedCommand s [0x1b, 0x40]).charTables (feedCommand s [0x1b, 0x40]).curCharTable = 437 ∧
    (∀ m, findCharmap s.tables 437 = some m → (feedCommand s [0x1b, 0x40]).curMap = m) ∧
    (∀ (raw : CPrinter) (dpi width height : Nat) (multipage : Bool),
      s.defaultPageWidth = (width : Real64) / 10 → s.defaultPageHeight = (height : Real64) / 10 →
      raw.tables = s.tables →
      (feedCommand s [0x1b, 0x40]).cpi = (construct raw dpi width height multipage).cpi ∧
      (feedCommand s [0x1b, 0x40]).style = (construct raw dpi width height multipage).style ∧
      (feedCommand s [0x1b, 0x40]).topMargin =
        (construct raw dpi width height multipage).topMargin ∧
      (feedCommand s [0x1b, 0x40]).leftMargin =
        (construct raw dpi width height multipage).leftMargin ∧
      (feedCommand s [0x1b, 0x40]).rightMargin =
        (construct raw dpi width height multipage).rightMargin ∧
      (feedCommand s [0x1b, 0x40]).bottomMargin =
        (construct raw dpi width height multipage).bottomMargin ∧
      (∀ i, i < 32 → (feedCommand s [0x1b, 0x40]).horiztabs i =
        (construct raw dpi width height multipage).horiztabs i) ∧
      (feedCommand s [0x1b, 0x40]).numHorizTabs =
        (construct raw dpi width height multipage).numHorizTabs ∧
      (feedCommand s [0x1b, 0x40]).numVertTabs =
        (construct raw dpi width height multipage).numVertTabs ∧
      (feedCommand s [0x1b, 0x40]).curCharTable =
        (construct raw dpi width height multipage).curCharTable ∧
      (feedCommand s [0x1b, 0x40]).charTables (feedCommand s [0x1b, 0x40]).curCharTable =
        (construct raw dpi width height multipage).charTables
          (construct raw dpi width height multipage).curCharTable ∧
      (∀ m, findCharmap s.tables 437 = some m →
        (feedCommand s [0x1b, 0x40]).curMap =
          (construct raw dpi width height multipage).curMap)) := by
  rw [feedCommand_reset s hs]
  obtain ⟨a1, a2, a3, a4, a5, a6, a7, a8, a9, a10, a11, a12⟩ :=
    resetPrinter_defaults (armed s 0x40 0)
  have a7' : ∀ i, i < 32 →
      (resetPrinter (armed s 0x40 0)).horiztabs i = (i : Real64) * 8 / 10 := by
    intro i hi
    rw [a7 i hi]
    ring
  refine ⟨a1, a2, a3, a4, a5, a6, a7', a8, a9, a11, a12, ?_⟩
  intro raw dpi width height multipage hw hh ht
  unfold construct
  simp only []
  obtain ⟨b1, b2, b3, b4, b5, b6, b7, b8, b9, b10, b11, b12⟩ :=
    resetPrinter_defaults { raw with
      dpi := dpi, multipageOutput := multipage,
      defaultPageWidth := (width : Real64) / 10, defaultPageHeight := (height : Real64) / 10,
      page := { w := toBitu ((width : Real64) / 10 * dpi), h := toBitu ((height : Real64) / 10 * dpi),
                pixels := fun _ _ => 0 },
      outputPages := [], paramsOverrun := [],
      color := COLOR_BLACK, curFont := none, charRead := false, autoFeed := false }
  refine ⟨a1.trans b1.symm, a2.trans b2.symm, a3.trans b3.symm, a4.trans b4.symm, ?_, ?_, ?_,
    a8.trans b8.symm, a9.trans b9.symm, a10.trans b10.symm, a11.trans b11.symm, ?_⟩
  · exact (a5.trans hw).trans b5.symm
  · exact (a6.trans hh).trans b6.symm
  · intro i hi
    exact (a7 i hi).trans (b7 i hi).symm
  · intro m hm
    exact (a12 m hm).trans (b12 m (by rw [← hm]; exact congrArg (fun t => findCharmap t 437) ht)).symm

/-- C3 (as stated, refuted). The state after `ESC M` (12 cpi) and `ESC K 2 0` (a bit-image
session of two bytes) is reachable from the freshly constructed printer; the sequence
`ESC @` fed there is consumed as the two payload bytes, and `cpi` stays 12. The same holds
of the state after `ESC M` and `ESC $`, where the parser waits for the two parameter bytes
of `ESC $`: `processCommandChar` stores `ESC @` as these parameters, and `cpi` stays 12.
After `ESC M` and `ESC ( ^ 2 0` the two bytes are printed as characters. -/
theorem reset_ignored_inside_bit_image :
    samplePrinter.cpi = 10 ∧
    (feed samplePrinter [0x1b, 0x4d, 0x1b, 0x4b, 0x02, 0x00]).bitGraph.remBytes = 2 ∧
    (feed (feed samplePrinter [0x1b, 0x4d, 0x1b, 0x4b, 0x02, 0x00]) [0x1b, 0x40]).cpi = 12 ∧
    (feed (feed samplePrinter [0x1b, 0x4d, 0x1b, 0x4b, 0x02, 0x00]) [0x1b, 0x40]).cpi ≠ 10 ∧
    (feedCommand samplePrinter [0x1b, 0x4d, 0x1b, 0x24]).neededParam = 2 ∧
    (feedCommand samplePrinter [0x1b, 0x4d, 0x1b, 0x24]).numParam = 0 ∧
    ¬ ParserIdle (feedCommand samplePrinter [0x1b, 0x4d, 0x1b, 0x24]) ∧
    (feedCommand (feedCommand samplePrinter [0x1b, 0x4d, 0x1b, 0x24]) [0x1b, 0x40]).cpi = 12 ∧
    (feedCommand (feedCommand samplePrinter [0x1b, 0x4d, 0x1b, 0x24]) [0x1b, 0x40]).cpi ≠ 10 ∧
    (feed samplePrinter [0x1b, 0x4d, 0x1b, 0x28, 0x5e, 0x02, 0x00]).numPrintAsChar = 2 ∧
    (feed (feed samplePrinter [0x1b, 0x4d, 0x1b, 0x28, 0x5e, 0x02, 0x00])
      [0x1b, 0x40]).numPrintAsChar = 0 ∧
    (feed (feed samplePrinter [0x1b, 0x4d, 0x1b, 0x28, 0x5e, 0x02, 0x00]) [0x1b, 0x40]).cpi = 12 ∧
    (feed (feed samplePrinter [0x1b, 0x4d, 0x1b, 0x28, 0x5e, 0x02, 0x00]) [0x1b, 0x40]).cpi ≠ 10 := by
  have h : (feed (feed samplePrinter [0x1b, 0x4d, 0x1b, 0x4b, 0x02, 0x00]) [0x1b, 0x40]).cpi = 12 := by
    rfl
  have h2 : (feedCommand (feedCommand samplePrinter [0x1b, 0x4d, 0x1b, 0x24])
      [0x1b, 0x40]).cpi = 12 := by
    decide!
  have h3 : (feedCommand samplePrinter [0x1b, 0x4d, 0x1b, 0x24]).ESCCmd = 0x24 := by decide
  have h5 : (feed (feed samplePrinter [0x1b, 0x4d, 0x1b, 0x28, 0x5e, 0x02, 0x00])
      [0x1b, 0x40]).cpi = 12 := by
    decide!
  refine ⟨rfl, by decide, h, ?_, by decide, by decide, ?_, h2, ?_, by decide, by decide!, h5, ?_⟩
  · rw [h]
    norm_num
  · intro hi
    have h4 := hi.2.2.1
    rw [h3] at h4
    exact absurd h4 (by decide)
  · rw [h2]
    norm_num
  · rw [h5]
    norm_num

/-- Witness of C3 (amended): the parser of the sample printer after `ESC M` (12 cpi) is
idle, and `ESC @` brings `cpi` back to 10. -/
theorem reset_restores_defaults_witness :
    ParserIdle (feedCommand samplePrinter [0x1b, 0x4d]) ∧
    (feedCommand samplePrinter [0x1b, 0x4d]).cpi = 12 ∧
    (feedCommand (feedCommand samplePrinter [0x1b, 0x4d]) [0x1b, 0x40]).cpi = 10 :=
  have hs : ParserIdle (feedCommand samplePrinter [0x1b, 0x4d]) :=
    ⟨by decide, by decide, by decide, by decide⟩
  ⟨hs, rfl, (reset_restores_defaults (feedCommand samplePrinter [0x1b, 0x4d]) hs).1⟩

/-! ## C4: the payload of a bit-image command -/

theorem foldl_state_proj {α β : Type} (proj : CPrinter → β) (f : CPrinter → α → CPrinter)
    (h : ∀ s e, proj (f s e) = proj s) : ∀ (l : List α) (s : CPrinter), proj (l.foldl f s) = proj s := by
  intro l
  induction l with
  | nil => exact fun s => rfl
  | cons e l ih => exact fun s => (ih (f s e)).trans (h s e)

theorem bitDot_fields (s : CPrinter) (px py : Nat) :
    (bitDot s px py).dpi = s.dpi ∧ (bitDot s px py).color = s.color ∧
    (bitDot s px py).curX = s.curX ∧ (bitDot s px py).curY = s.curY ∧
    (bitDot s px py).bitGraph = s.bitGraph :=
  ⟨rfl, rfl, rfl, rfl, rfl⟩

theorem low5_eq_mod (a : Nat) : a &&& 0x1f = a % 32 := by
  have := Nat.and_pow_two_sub_one_eq_mod a 5
  simpa using this

theorem or_mod_two_pow (a b n : Nat) : (a ||| b) % 2 ^ n = a % 2 ^ n ||| b % 2 ^ n := by
  apply Nat.eq_of_testBit_eq
  intro i
  simp only [Nat.testBit_mod_two_pow, Nat.testBit_or]
  cases decide (i < n) <;> simp

theorem shiftRight_or (a b n : Nat) : (a ||| b) >>> n = a >>> n ||| b >>> n := by
  apply Nat.eq_of_testBit_eq
  intro i
  simp only [Nat.testBit_shiftRight, Nat.testBit_or]

theorem or_31_of_lt (a : Nat) (h : a < 32) : a ||| 31 = 31 := by
  interval_cases a <;> rfl

/-- The loop body of `blitGlyph` with `add = true`: for a glyph byte `s > 0` that falls
inside the page, an existing pixel byte `t` and an ink colour `c` whose low five bits are
0, the written pixel `v` has `v & 31 = min 31 ((t & 31) + (s >> 3))` and
`v >> 5 = (t >> 5) | (c >> 5)`. -/
theorem blitPixel_additive (color : Nat) (bitmap : FT_Bitmap) (destx desty : Nat)
    (pg : Page) (x y : Nat)
    (hc : color &&& 0x1f = 0)
    (ht : pg.pixels (x + destx) (y + desty) < 256)
    (hs : 0 < bitmap.buffer (x + y * bitmap.pitch))
    (hin : destx + x < pg.w ∧ desty + y < pg.h) :
    (blitPixel color bitmap destx desty true pg x y).pixels (x + destx) (y + desty) &&& 0x1f =
      min 31 ((pg.pixels (x + destx) (y + desty) &&& 0x1f) +
        (bitmap.buffer (x + y * bitmap.pitch) >>> 3)) ∧
    (blitPixel color bitmap destx desty true pg x y).pixels (x + destx) (y + desty) >>> 5 =
      (pg.pixels (x + destx) (y + desty) >>> 5) ||| (color >>> 5) := by
  have hc' : color % 32 = 0 := by rw [← low5_eq_mod]; exact hc
  have hguard : bitmap.buffer (x + y * bitmap.pitch) > 0 ∧ destx + x < pg.w ∧ desty + y < pg.h :=
    ⟨hs, hin⟩
  generalize hsrc : bitmap.buffer (x + y * bitmap.pitch) >>> 3 = src
  generalize htv : pg.pixels (x + destx) (y + desty) = t at ht
  simp only [blitPixel, if_pos hguard, if_true, hsrc, htv, low5_eq_mod, Nat.shiftRight_eq_div_pow]
  by_cases hsat : t % 32 + src > 31
  · rw [if_pos hsat]
    simp only [Page.put, and_self, if_true]
    constructor
    · rw [show (32 : Nat) = 2 ^ 5 from rfl, or_mod_two_pow, or_mod_two_pow]
      simp only [Nat.reducePow, hc', Nat.zero_or]
      rw [show (31 % 32 : Nat) = 31 from rfl, or_31_of_lt _ (Nat.mod_lt _ (by decide))]
      omega
    · rw [← Nat.shiftRight_eq_div_pow, ← Nat.shiftRight_eq_div_pow, ← Nat.shiftRight_eq_div_pow,
        shiftRight_or, shiftRight_or]
      simp
  · rw [if_neg hsat]
    simp only [Page.put, and_self, if_true]
    have h256 : (t + src) % 256 = t + src := Nat.mod_eq_of_lt (by omega)
    rw [h256]
    constructor
    · rw [show (32 : Nat) = 2 ^ 5 from rfl, or_mod_two_pow]
      simp only [Nat.reducePow, hc', Nat.or_zero]
      omega
    · rw [← Nat.shiftRight_eq_div_pow, ← Nat.shiftRight_eq_div_pow, ← Nat.shiftRight_eq_div_pow,
        shiftRight_or]
      simp only [Nat.shiftRight_eq_div_pow, Nat.reducePow]
      congr 1
      omega

/-! ### The two loops of `blitGlyph`

Every glyph pixel `(x, y)` has a page pixel of its own, `(x + destx, y + desty)`, so the
byte that the two loops leave there is the one that the loop body for `(x, y)` computes
from the page as it was before the call. -/

theorem blitPixel_size (color : Nat) (bitmap : FT_Bitmap) (destx desty : Nat) (add : Bool)
    (pg : Page) (x y : Nat) :
    (blitPixel color bitmap destx desty add pg x y).w = pg.w ∧
    (blitPixel color bitmap destx desty add pg x y).h = pg.h := by
  unfold blitPixel
  simp only []
  split_ifs <;> exact ⟨rfl, rfl⟩

/-- The loop body for `(x, y)` writes no page pixel but `(x + destx, y + desty)`. -/
theorem blitPixel_other (color : Nat) (bitmap : FT_Bitmap) (destx desty : Nat) (add : Bool)
    (pg : Page) (x y a b : Nat) (hab : ¬ (a = x + destx ∧ b = y + desty)) :
    (blitPixel color bitmap destx desty add pg x y).pixels a b = pg.pixels a b := by
  unfold blitPixel
  simp only []
  split_ifs <;> simp only [Page.put, if_neg hab]

/-- What the loop body writes depends on the page only through its size and the pixel it
writes. -/
theorem blitPixel_congr (color : Nat) (bitmap : FT_Bitmap) (destx desty : Nat) (add : Bool)
    (pg pg' : Page) (x y : Nat) (hw : pg'.w = pg.w) (hh : pg'.h = pg.h)
    (hp : pg'.pixels (x + destx) (y + desty) = pg.pixels (x + destx) (y + desty)) :
    (blitPixel color bitmap destx desty add pg' x y).pixels (x + destx) (y + desty) =
      (blitPixel color bitmap destx desty add pg x y).pixels (x + destx) (y + desty) := by
  unfold blitPixel
  simp only [hw, hh, hp]
  split_ifs <;> simp only [Page.put, and_self, if_true, hp]

/-- The inner loop of `blitGlyph` over the first `W` glyph pixels of the row `y`. -/
theorem blitRow_pixels (color : Nat) (bitmap : FT_Bitmap) (destx desty : Nat) (add : Bool)
    (y : Nat) : ∀ (W : Nat) (pg : Page),
    ((List.range W).foldl (fun pg x => blitPixel color bitmap destx desty add pg x y) pg).w = pg.w ∧
    ((List.range W).foldl (fun pg x => blitPixel color bitmap destx desty add pg x y) pg).h = pg.h ∧
    (∀ x, x < W →
      ((List.range W).foldl (fun pg x => blitPixel color bitmap destx desty add pg x y)
          pg).pixels (x + destx) (y + desty) =
        (blitPixel color bitmap destx desty add pg x y).pixels (x + destx) (y + desty)) ∧
    (∀ a b, ¬ (∃ x, x < W ∧ a = x + destx ∧ b = y + desty) →
      ((List.range W).foldl (fun pg x => blitPixel color bitmap destx desty add pg x y)
          pg).pixels a b = pg.pixels a b) := by
  intro W
  induction W with
  | zero =>
    intro pg
    exact ⟨rfl, rfl, fun x hx => absurd hx (Nat.not_lt_zero x), fun _ _ _ => rfl⟩
  | succ W ih =>
    intro pg
    obtain ⟨i1, i2, i3, i4⟩ := ih pg
    rw [List.range_succ, List.foldl_append]
    simp only [List.foldl_cons, List.foldl_nil]
    obtain ⟨d1, d2⟩ := blitPixel_size color bitmap destx desty add
      ((List.range W).foldl (fun pg x => blitPixel color bitmap destx desty add pg x y) pg) W y
    refine ⟨d1.trans i1, d2.trans i2, ?_, ?_⟩
    · intro x hx
      by_cases hxW : x = W
      · subst hxW
        apply blitPixel_congr _ _ _ _ _ _ _ _ _ i1 i2
        apply i4
        rintro ⟨x', hx', ha, -⟩
        omega
      · rw [blitPixel_other _ _ _ _ _ _ _ _ _ _ (by omega)]
        exact i3 x (by omega)
    · intro a b hab
      rw [blitPixel_other _ _ _ _ _ _ _ _ _ _
        (fun h => hab ⟨W, Nat.lt_succ_self W, h.1, h.2⟩)]
      exact i4 a b (fun ⟨x, hx, h⟩ => hab ⟨x, Nat.lt_succ_of_lt hx, h⟩)

/-- The two loops of `blitGlyph` over the first `R` rows of the glyph. -/
theorem blitRows_pixels (color : Nat) (bitmap : FT_Bitmap) (destx desty : Nat) (add : Bool) :
    ∀ (R : Nat) (pg : Page),
    ((List.range R).foldl
      (fun pg y => (List.range bitmap.width).foldl
        (fun pg x => blitPixel color bitmap destx desty add pg x y) pg) pg).w = pg.w ∧
    ((List.range R).foldl
      (fun pg y => (List.range bitmap.width).foldl
        (fun pg x => blitPixel color bitmap destx desty add pg x y) pg) pg).h = pg.h ∧
    (∀ x y, x < bitmap.width → y < R →
      ((List.range R).foldl
        (fun pg y => (List.range bitmap.width).foldl
          (fun pg x => blitPixel color bitmap destx desty add pg x y) pg)
          pg).pixels (x + destx) (y + desty) =
        (blitPixel color bitmap destx desty add pg x y).pixels (x + destx) (y + desty)) ∧
    (∀ a b, ¬ (∃ x y, x < bitmap.width ∧ y < R ∧ a = x + destx ∧ b = y + desty) →
      ((List.range R).foldl
        (fun pg y => (List.range bitmap.width).foldl
          (fun pg x => blitPixel color bitmap destx desty add pg x y) pg)
          pg).pixels a b = pg.pixels a b) := by
  intro R
  induction R with
  | zero =>
    intro pg
    exact ⟨rfl, rfl, fun x y _ hy => absurd hy (Nat.not_lt_zero y), fun _ _ _ => rfl⟩
  | succ R ih =>
    intro pg
    obtain ⟨i1, i2, i3, i4⟩ := ih pg
    rw [List.range_succ, List.foldl_append]
    simp only [List.foldl_cons, List.foldl_nil]
    obtain ⟨r1, r2, r3, r4⟩ := blitRow_pixels color bitmap destx desty add R bitmap.width
      ((List.range R).foldl
        (fun pg y => (List.range bitmap.width).foldl
          (fun pg x => blitPixel color bitmap destx desty add pg x y) pg) pg)
    refine ⟨r1.trans i1, r2.trans i2, ?_, ?_⟩
    · intro x y hx hy
      by_cases hyR : y = R
      · subst hyR
        rw [r3 x hx]
        apply blitPixel_congr _ _ _ _ _ _ _ _ _ i1 i2
        apply i4
        rintro ⟨x', y', -, hy', -, hb⟩
        omega
      · rw [r4 _ _ (by rintro ⟨x', -, -, hb⟩; omega)]
        exact i3 x y hx (by omega)
    · intro a b hab
      rw [r4 a b (fun ⟨x, hx, h⟩ => hab ⟨x, R, hx, Nat.lt_succ_self R, h.1, h.2⟩)]
      exact i4 a b (fun ⟨x, y, hx, hy, h⟩ => hab ⟨x, y, hx, Nat.lt_succ_of_lt hy, h⟩)

/-- The page pixel of the glyph pixel `(x, y)` after `blitGlyph`: the byte that the loop
body for `(x, y)` computes from the page before the call. -/
theorem blitGlyph_pixel (s : CPrinter) (bitmap : FT_Bitmap) (destx desty : Nat) (add : Bool)
    (x y : Nat) (hx : x < bitmap.width) (hy : y < bitmap.rows) :
    (blitGlyph s bitmap destx desty add).page.pixels (x + destx) (y + desty) =
      (blitPixel s.color bitmap destx desty add s.page x y).pixels (x + destx) (y + desty) :=
  (blitRows_pixels s.color bitmap destx desty add bitmap.rows s.page).2.2.1 x y hx hy

/-- C5. In `blitGlyph` with `add = true`, for every glyph pixel `(x, y)` of the bitmap
whose byte `s` is not zero and falls inside the page, an existing page pixel `t` (a byte)
and an ink colour `c` whose low five bits are 0: the pixel `v` that `blitGlyph` leaves at
`(x + destx, y + desty)` has intensity `v & 31 = min 31 ((t & 31) + (s >> 3))` and colour
bits `v >> 5 = (t >> 5) | (c >> 5)`: the intensity saturates at 31 and never wraps or
carries into the colour bits. -/
theorem additive_blit_saturates (s : CPrinter) (bitmap : FT_Bitmap) (destx desty : Nat)
    (x y : Nat) (hx : x < bitmap.width) (hy : y < bitmap.rows)
    (hc : s.color &&& 0x1f = 0)
    (ht : s.page.pixels (x + destx) (y + desty) < 256)
    (hs : 0 < bitmap.buffer (x + y * bitmap.pitch))
    (hin : destx + x < s.page.w ∧ desty + y < s.page.h) :
    (blitGlyph s bitmap destx desty true).page.pixels (x + destx) (y + desty) &&& 0x1f =
      min 31 ((s.page.pixels (x + destx) (y + desty) &&& 0x1f) +
        (bitmap.buffer (x + y * bitmap.pitch) >>> 3)) ∧
    (blitGlyph s bitmap destx desty true).page.pixels (x + destx) (y + desty) >>> 5 =
      (s.page.pixels (x + destx) (y + desty) >>> 5) ||| (s.color >>> 5) := by
  rw [blitGlyph_pixel s bitmap destx desty true x y hx hy]
  exact blitPixel_additive s.color bitmap destx desty s.page x y hc ht hs hin

/-- Witness of C5: black ink pixels of intensity 30 receive the glyph byte 40 (increment
5); `blitGlyph` leaves the pixel of the glyph pixel `(1, 1)` at intensity 31 with the
colour bits of black, and a second `blitGlyph` of the same glyph keeps it there. -/
theorem additive_blit_saturates_witness :
    (inkedPrinter.color &&& 0x1f = 0) ∧
    (blitGlyph inkedPrinter fiveGlyph 0 0 true).page.pixels (1 + 0) (1 + 0) &&& 0x1f =
      min 31 ((inkedPrinter.page.pixels (1 + 0) (1 + 0) &&& 0x1f) +
        (fiveGlyph.buffer (1 + 1 * fiveGlyph.pitch) >>> 3)) ∧
    min 31 ((254 &&& 0x1f) + (40 >>> 3)) = 31 ∧
    (blitGlyph inkedPrinter fiveGlyph 0 0 true).page.pixels 1 1 = 255 ∧
    (blitGlyph (blitGlyph inkedPrinter fiveGlyph 0 0 true) fiveGlyph 0 0 true).page.pixels 1 1 =
      255 :=
  ⟨by decide,
   (additive_blit_saturates inkedPrinter fiveGlyph 0 0 1 1 (by decide) (by decide) (by decide)
      (by decide) (by decide) (by decide)).1,
   by decide, by decide, by decide⟩

/-! ## C6: blank page detection -/

theorem Page.Clipped.refl (pg : Page) : Page.Clipped pg pg := ⟨rfl, rfl, fun _ _ _ => rfl⟩

theorem Page.Clipped.trans {p q r : Page} (h1 : Page.Clipped p q) (h2 : Page.Clipped q r) :
    Page.Clipped p r := by
  obtain ⟨a1, a2, a3⟩ := h1
  obtain ⟨b1, b2, b3⟩ := h2
  refine ⟨b1.trans a1, b2.trans a2, fun a b hab => ?_⟩
  rw [b3 a b (by rw [a1, a2]; exact hab), a3 a b hab]

theorem Page.put_clipped (pg : Page) (x y v : Nat) (h : x < pg.w ∧ y < pg.h) :
    Page.Clipped pg (pg.put x y v) := by
  refine ⟨rfl, rfl, fun a b hab => ?_⟩
  have hne : ¬ (a = x ∧ b = y) := by
    rintro ⟨rfl, rfl⟩
    exact hab h
  simp only [Page.put, if_neg hne]

theorem foldl_clipped {α : Type} (f : Page → α → Page)
    (h : ∀ pg e, Page.Clipped pg (f pg e)) :
    ∀ (l : List α) (pg : Page), Page.Clipped pg (l.foldl f pg) := by
  intro l
  induction l with
  | nil => exact fun pg => Page.Clipped.refl pg
  | cons e l ih => exact fun pg => (h pg e).trans (ih (f pg e))

theorem foldl_state_clipped {α : Type} (f : CPrinter → α → CPrinter)
    (h : ∀ s e, Page.Clipped s.page (f s e).page) :
    ∀ (l : List α) (s : CPrinter), Page.Clipped s.page (l.foldl f s).page := by
  intro l
  induction l with
  | nil => exact fun s => Page.Clipped.refl s.page
  | cons e l ih => exact fun s => (h s e).trans (ih (f s e))

theorem blitPixel_clipped (color : Nat) (bitmap : FT_Bitmap) (destx desty : Nat) (add : Bool)
    (pg : Page) (x y : Nat) :
    Page.Clipped pg (blitPixel color bitmap destx desty add pg x y) := by
  unfold blitPixel
  simp only []
  by_cases hg : bitmap.buffer (x + y * bitmap.pitch) > 0 ∧ destx + x < pg.w ∧ desty + y < pg.h
  · have hin : x + destx < pg.w ∧ y + desty < pg.h := by omega
    rw [if_pos hg]
    split_ifs <;> exact Page.put_clipped pg _ _ _ hin
  · rw [if_neg hg]
    exact Page.Clipped.refl pg

theorem drawLinePixel_clipped (dpi y : Nat) (broken : Bool) (pg : Page) (x : Nat) :
    Page.Clipped pg (drawLinePixel dpi y broken pg x) := by
  unfold drawLinePixel
  simp only []
  by_cases hg : (broken = false ∨ x % (dpi / 15) ≤ dpi / 15 * 4 / 5) ∧ x < pg.w
  · rw [if_pos hg]
    have s1 : Page.Clipped pg (if y > 0 ∧ y - 1 < pg.h then pg.put x (y - 1) 240 else pg) := by
      split_ifs with h1
      · exact Page.put_clipped pg _ _ _ ⟨hg.2, h1.2⟩
      · exact Page.Clipped.refl pg
    generalize (if y > 0 ∧ y - 1 < pg.h then pg.put x (y - 1) 240 else pg) = p1 at s1 ⊢
    have s2 : Page.Clipped p1 (if y < p1.h then p1.put x y (if broken = false then 255 else 240)
        else p1) := by
      split_ifs with h2 <;>
        first
          | exact Page.Clipped.refl p1
          | exact Page.put_clipped p1 _ _ _ ⟨by rw [s1.1]; exact hg.2, h2⟩
    generalize (if y < p1.h then p1.put x y (if broken = false then 255 else 240) else p1) = p2
      at s2 ⊢
    have s3 : Page.Clipped p2 (if y + 1 < p2.h then p2.put x (y + 1) 240 else p2) := by
      split_ifs with h3
      · exact Page.put_clipped p2 _ _ _ ⟨by rw [s2.1, s1.1]; exact hg.2, h3⟩
      · exact Page.Clipped.refl p2
    exact (s1.trans s2).trans s3
  · rw [if_neg hg]
    exact Page.Clipped.refl pg

theorem bitDotPixel_clipped (s : CPrinter) (pg : Page) (xx yy : Nat) :
    Page.Clipped pg (bitDotPixel s pg xx yy) := by
  unfold bitDotPixel
  split_ifs with h
  · exact Page.put_clipped pg _ _ _ h
  · exact Page.Clipped.refl pg

theorem bitDot_clipped (s : CPrinter) (px py : Nat) :
    Page.Clipped s.page (bitDot s px py).page := by
  unfold bitDot
  exact foldl_clipped _ (fun pg xx => foldl_clipped _ (fun pg yy => bitDotPixel_clipped s pg xx yy) _ pg)
    _ s.page

theorem bitColumnByte_clipped (px py : Nat) (s : CPrinter) (b : Nat) :
    Page.Clipped s.page (bitColumnByte px py s b).page := by
  unfold bitColumnByte
  apply foldl_state_clipped
  intro s j
  simp only []
  split_ifs
  · exact bitDot_clipped s px py
  · exact Page.Clipped.refl s.page

theorem rasterColumn_clipped (s : CPrinter) : Page.Clipped s.page (rasterColumn s).page := by
  unfold rasterColumn
  simp only []
  exact foldl_state_clipped _ (fun s i => bitColumnByte_clipped _ _ s _) _ s

/-- C7. For every destination, bitmap, line and byte, `blitGlyph`, `drawLine` and
`printBitGraph` keep the page size and leave every pixel cell with a column `x ≥ w` or a
row `y ≥ h` as it was: each of their stores (an unchecked `Page.put`) targets a column
below the page width and a row below the page height. -/
theorem raster_writes_stay_inside (s : CPrinter) (bitmap : FT_Bitmap) (destx desty : Nat)
    (add : Bool) (fromx tox y : Nat) (broken : Bool) (ch : Nat) :
    Page.Clipped s.page (blitGlyph s bitmap destx desty add).page ∧
    Page.Clipped s.page (drawLine s fromx tox y broken).page ∧
    Page.Clipped s.page (printBitGraph s ch).page := by
  refine ⟨?_, ?_, ?_⟩
  · unfold blitGlyph blitGlyphPage
    exact foldl_clipped _
      (fun pg y => foldl_clipped _ (fun pg x => blitPixel_clipped s.color bitmap destx desty add pg x y)
        _ pg) _ s.page
  · unfold drawLine
    exact foldl_clipped _ (fun pg x => drawLinePixel_clipped s.dpi y broken pg x) _ s.page
  · unfold printBitGraph
    simp only []
    split_ifs
    · exact Page.Clipped.refl s.page
    · exact rasterColumn_clipped _

/-! ## C8: skipping the payload of an unsupported `ESC (` command -/

/-- C8 (code at the failing input). `ESC ( G` is not in the table of two byte commands; it
is followed by the count 1 and the one payload byte `A`. The payload byte is not
discarded: `processCommandChar` returns false for it, `printChar` renders it (the page,
blank before, is no longer blank and the cursor has advanced), and with the count 2 and
the payload `A ESC` the second payload byte is taken as an escape introducer. -/
theorem skipped_payload_last_byte_is_interpreted :
    esc2ParamCount (0x200 + 0x47) = none ∧
    (feed samplePrinter [0x1b, 0x28, 0x47, 0x01, 0x00]).neededParam = 1 ∧
    (feed samplePrinter [0x1b, 0x28, 0x47, 0x01, 0x00]).numParam = 0 ∧
    (processCommandChar (feed samplePrinter [0x1b, 0x28, 0x47, 0x01, 0x00]) 0x41).1 = false ∧
    isBlank (feed samplePrinter [0x1b, 0x28, 0x47, 0x01, 0x00]) = true ∧
    isBlank (feed samplePrinter [0x1b, 0x28, 0x47, 0x01, 0x00, 0x41]) = false ∧
    (feed samplePrinter [0x1b, 0x28, 0x47, 0x01, 0x00]).curX = 0 ∧
    (feed samplePrinter [0x1b, 0x28, 0x47, 0x01, 0x00, 0x41]).curX = 1 / 10 ∧
    (feed samplePrinter [0x1b, 0x28, 0x47, 0x02, 0x00, 0x41, 0x1b]).ESCSeen = true := by
  refine ⟨by decide, by decide, by decide, by decide, by decide!, by decide!,
    by rfl, by decide!, by decide⟩

/-! ## C9: identifiers outside the command table -/

theorem escStage_unknown (s : CPrinter) (x : Nat) (h : s.ESCSeen = true ∨ s.FSSeen = true)
    (hu : ¬ InEscTable (if s.FSSeen then x ||| 0x800 else x)) :
    escStage s x = Flow.ret true
      { s with ESCCmd := 0, ESCSeen := false, FSSeen := false, numParam := 0, neededParam := 0 } := by
  have hnone : escParamCount (if s.FSSeen then x ||| 0x800 else x) = none := by
    by_contra hc
    exact hu (Or.inl hc)
  have hsp : (if s.FSSeen then x ||| 0x800 else x) ∉ escSpecial := fun hc => hu (Or.inr hc)
  simp only [escSpecial, List.mem_cons, List.mem_singleton, List.not_mem_nil, or_false,
    not_or] at hsp
  obtain ⟨a1, a2, a3, a4, a5, a6, a7⟩ := hsp
  have hb : (s.ESCSeen || s.FSSeen) = true := by
    rcases h with h | h <;> simp [h]
  unfold escStage
  rw [if_pos hb]
  simp only [hnone]
  simp only [a1, a2, a3, a4, a5, a6, a7, or_self, if_false]

/-- C9. For every command byte `x` whose identifier (`x` after ESC, `x | 0x800` after FS) is
not a case label of the command table, the sequence `ESC x` or `FS x` fed to an idle parser
is a no-op without parameters: `processCommandChar` returns true for `x`, the parser is
idle afterwards with `neededParam = 0`, the next byte is interpreted by the control
`switch` and not stored as a parameter, and the state is the one before the sequence but
for the cleared parameter counters; in particular style, pitch, cursor, margins, tab
stops and character tables are unchanged. -/
theorem unknown_command_is_noop (s : CPrinter) (hs : ParserIdle s) (viaFS : Bool) (x : Nat)
    (hu : ¬ InEscTable (if viaFS then x ||| 0x800 else x)) :
    (processCommandChar (processCommandChar s (if viaFS then 0x1c else 0x1b)).2 x).1 = true ∧
    ParserIdle (processCommandChar (processCommandChar s (if viaFS then 0x1c else 0x1b)).2 x).2 ∧
    (processCommandChar (processCommandChar s (if viaFS then 0x1c else 0x1b)).2 x).2.neededParam = 0 ∧
    (∀ b, processCommandChar
        (processCommandChar (processCommandChar s (if viaFS then 0x1c else 0x1b)).2 x).2 b =
      controlStage (processCommandChar (processCommandChar s (if viaFS then 0x1c else 0x1b)).2 x).2 b) ∧
    (processCommandChar (processCommandChar s (if viaFS then 0x1c else 0x1b)).2 x).2 =
      { s with numParam := 0, neededParam := 0 } ∧
    (∀ t, t = (processCommandChar (processCommandChar s (if viaFS then 0x1c else 0x1b)).2 x).2 →
      t.style = s.style ∧ t.cpi = s.cpi ∧ t.actcpi = s.actcpi ∧ t.hmi = s.hmi ∧
      t.multipoint = s.multipoint ∧ t.multicpi = s.multicpi ∧
      t.multiPointSize = s.multiPointSize ∧ t.curX = s.curX ∧ t.curY = s.curY ∧
      t.topMargin = s.topMargin ∧ t.bottomMargin = s.bottomMargin ∧
      t.leftMargin = s.leftMargin ∧ t.rightMargin = s.rightMargin ∧
      t.horiztabs = s.horiztabs ∧ t.numHorizTabs = s.numHorizTabs ∧
      t.verttabs = s.verttabs ∧ t.numVertTabs = s.numVertTabs ∧
      t.charTables = s.charTables ∧ t.curCharTable = s.curCharTable ∧ t.curMap = s.curMap) := by
  have hs' := hs
  obtain ⟨h1, h2, h3, h4⟩ := hs
  have key : (processCommandChar (processCommandChar s (if viaFS then 0x1c else 0x1b)).2 x) =
      (true, { s with numParam := 0, neededParam := 0 }) := by
    rw [processCommandChar_idle s hs']
    cases viaFS with
    | false =>
      have e1 : (controlStage s (if false = true then 0x1c else 0x1b)).2 = seeESC s := by
        simp [controlStage]
      rw [e1, processCommandChar_eq,
        escStage_unknown (seeESC s) x (Or.inl rfl) (by simpa [seeESC, h2] using hu)]
      cases s
      simp_all [Flow.andThen, finish, seeESC]
    | true =>
      have e1 : (controlStage s (if true = true then 0x1c else 0x1b)).2 = seeFS s := by
        simp [controlStage]
      rw [e1, processCommandChar_eq,
        escStage_unknown (seeFS s) x (Or.inr rfl) (by simpa [seeFS] using hu)]
      cases s
      simp_all [Flow.andThen, finish, seeFS]
  rw [key]
  refine ⟨rfl, ⟨h1, h2, h3, Nat.le_refl 0⟩, rfl, fun b => ?_, rfl, ?_⟩
  · exact processCommandChar_idle { s with numParam := 0, neededParam := 0 }
      ⟨h1, h2, h3, Nat.le_refl 0⟩ b
  · intro t ht
    subst ht
    exact ⟨rfl, rfl, rfl, rfl, rfl, rfl, rfl, rfl, rfl, rfl, rfl, rfl, rfl, rfl, rfl, rfl, rfl,
      rfl, rfl, rfl⟩

/-- Witness of C9: `ESC y` (0x79 has no case label) on the sample printer. -/
theorem unknown_command_is_noop_witness :
    ParserIdle samplePrinter ∧ ¬ InEscTable (if false then 0x79 ||| 0x800 else 0x79) ∧
    (processCommandChar (processCommandChar samplePrinter 0x1b).2 0x79).1 = true ∧
    (processCommandChar (processCommandChar samplePrinter 0x1b).2 0x79).2 =
      { samplePrinter with numParam := 0, neededParam := 0 } :=
  have hs : ParserIdle samplePrinter := ⟨by decide, by decide, by decide, by decide⟩
  have hu : ¬ InEscTable (if false then 0x79 ||| 0x800 else 0x79) := by
    intro h
    rcases h with h | h
    · exact h (by decide)
    · exact absurd h (by decide)
  ⟨hs, hu, (unknown_command_is_noop samplePrinter hs false 0x79 hu).1,
    (unknown_command_is_noop samplePrinter hs false 0x79 hu).2.2.2.2.1⟩

/-! ## C10: setting tab stops -/

/-- C10 (code at the failing input). After `ESC D 0x20 0x41 0x00` on the freshly
constructed printer only the first stop has been stored: `numHorizTabs` is 1, not 2, the
second entry still holds the default stop, the byte `0x41` was not taken as a tab stop but
returned for printing (`processCommandChar` gives false) and printed (the cursor moved).
`ESC B 0x02 0x04 0x00` likewise leaves `numVertTabs = 1`. -/
theorem tab_collection_stops_after_first_byte :
    (feed samplePrinter [0x1b, 0x44, 0x20, 0x41, 0x00]).numHorizTabs = 1 ∧
    (feed samplePrinter [0x1b, 0x44, 0x20, 0x41, 0x00]).horiztabs 0 = 0x20 / 10 ∧
    (feed samplePrinter [0x1b, 0x44, 0x20, 0x41, 0x00]).horiztabs 1 ≠ 0x41 / 10 ∧
    (feed samplePrinter [0x1b, 0x44, 0x20]).ESCCmd = 0 ∧
    (processCommandChar (feed samplePrinter [0x1b, 0x44, 0x20]) 0x41).1 = false ∧
    (feed samplePrinter [0x1b, 0x44, 0x20, 0x41, 0x00]).curX = 1 / 10 ∧
    (feed samplePrinter [0x1b, 0x42, 0x02, 0x04, 0x00]).numVertTabs = 1 := by
  refine ⟨by decide!, by decide!, by decide!, by decide, by decide,
    by decide!, by decide!⟩

/-! ## Shared facts about the dispatch and the page change -/

/-- The dispatch of a command other than `ESC C`: the arm of the table, then `ESCCmd = 0`. -/
theorem dispatched_arm (w : CPrinter) (c : Nat) (f : CPrinter → CPrinter) (hc : w.ESCCmd = c)
    (h43 : c ≠ 0x43) (hf : commandTable.find? (fun e => e.1 == c) = some (c, f)) :
    dispatched w = { f w with ESCCmd := 0 } := by
  unfold dispatched commandEffect
  rw [if_neg (by rw [hc]; exact fun h => h43 h.1), hc, hf]

theorem cancelOneLineWidth_cases (s : CPrinter) : cancelOneLineWidth s = s ∨
    cancelOneLineWidth s =
      updateFont { s with style := s.style &&& (0xFFFF - STYLE_DOUBLEWIDTHONELINE) } := by
  unfold cancelOneLineWidth
  split_ifs
  · exact Or.inr rfl
  · exact Or.inl rfl

theorem newPage_save_fields (s : CPrinter) (resetx : Bool) :
    (newPage s true resetx).curY = s.topMargin ∧
    (newPage s true resetx).page = s.page.clear ∧
    (newPage s true resetx).outputPages = s.outputPages ++ [s.page] := by
  cases resetx <;> exact ⟨rfl, rfl, rfl⟩

theorem newPage_discard_fields (s : CPrinter) (resetx : Bool) :
    (newPage s false resetx).curY = s.topMargin ∧
    (newPage s false resetx).page = s.page.clear ∧
    (newPage s false resetx).outputPages = s.outputPages := by
  cases resetx <;> exact ⟨rfl, rfl, rfl⟩

/-- The parameter store, also behind the end of `params`, leaves the tab stops, the
margins, the members of the vertical moves and the cursor, page and output as the model
has them. -/
theorem storeParam_views (s : CPrinter) (ch : Nat) :
    tabView (storeParam s ch) = tabView s ∧ marginView (storeParam s ch) = marginView s ∧
    vertView (storeParam s ch) = vertView s ∧ inkView (storeParam s ch) = inkView s := by
  unfold storeParam
  split_ifs <;> exact ⟨rfl, rfl, rfl, rfl⟩

/-! ## Tab stops and margins: what leaves them alone -/

@[simp] theorem outputPage_layout (s : CPrinter) :
    tabView (outputPage s) = tabView s ∧ marginView (outputPage s) = marginView s :=
  ⟨rfl, rfl⟩

@[simp] theorem newPage_layout (s : CPrinter) (save resetx : Bool) :
    tabView (newPage s save resetx) = tabView s ∧
    marginView (newPage s save resetx) = marginView s := by
  cases save <;> cases resetx <;> exact ⟨rfl, rfl⟩

@[simp] theorem selectCodepage_layout (s : CPrinter) (cp : Nat) :
    tabView (selectCodepage s cp) = tabView s ∧
    marginView (selectCodepage s cp) = marginView s := by
  unfold selectCodepage
  repeat' split
  all_goals exact ⟨rfl, rfl⟩

@[simp] theorem updateFont_layout (s : CPrinter) :
    tabView (updateFont s) = tabView s ∧ marginView (updateFont s) = marginView s :=
  ⟨rfl, rfl⟩

@[simp] theorem setupBitImage_layout (s : CPrinter) (d n : Nat) :
    tabView (setupBitImage s d n) = tabView s ∧ marginView (setupBitImage s d n) = marginView s :=
  ⟨rfl, rfl⟩

@[simp] theorem cancelOneLineWidth_layoutView (s : CPrinter) :
    tabView (cancelOneLineWidth s) = tabView s ∧
    marginView (cancelOneLineWidth s) = marginView s := by
  rcases cancelOneLineWidth_cases s with h | h <;> rw [h] <;> exact ⟨rfl, rfl⟩

theorem selectDoubleWidthOneLine_layout (s : CPrinter) :
    tabView (selectDoubleWidthOneLine s) = tabView s ∧ marginView (selectDoubleWidthOneLine s) = marginView s := by
  unfold selectDoubleWidthOneLine
  split_ifs <;> exact ⟨rfl, rfl⟩

theorem selectCondensed_layout (s : CPrinter) :
    tabView (selectCondensed s) = tabView s ∧ marginView (selectCondensed s) = marginView s := by
  unfold selectCondensed
  split_ifs <;> exact ⟨rfl, rfl⟩

theorem controlPaper_layout (s : CPrinter) :
    tabView (controlPaper s) = tabView s ∧ marginView (controlPaper s) = marginView s := by
  unfold controlPaper
  split_ifs <;> exact ⟨rfl, rfl⟩

theorem setIntercharSpace_layout (s : CPrinter) :
    tabView (setIntercharSpace s) = tabView s ∧ marginView (setIntercharSpace s) = marginView s := by
  unfold setIntercharSpace
  split_ifs <;> exact ⟨rfl, rfl⟩

theorem masterSelect_layout (s : CPrinter) :
    tabView (masterSelect s) = tabView s ∧ marginView (masterSelect s) = marginView s :=
  ⟨rfl, rfl⟩

theorem setAbsHorizPos_layout (s : CPrinter) :
    tabView (setAbsHorizPos s) = tabView s ∧ marginView (setAbsHorizPos s) = marginView s := by
  unfold setAbsHorizPos
  dsimp only
  split_ifs <;> exact ⟨rfl, rfl⟩

theorem setUnderline_layout (s : CPrinter) :
    tabView (setUnderline s) = tabView s ∧ marginView (setUnderline s) = marginView s := by
  unfold setUnderline
  dsimp only
  split_ifs <;> exact ⟨rfl, rfl⟩

theorem reassignBitImage_layout (s : CPrinter) :
    tabView (reassignBitImage s) = tabView s ∧ marginView (reassignBitImage s) = marginView s := by
  unfold reassignBitImage
  dsimp only
  split_ifs <;> exact ⟨rfl, rfl⟩

theorem setPageLengthLines_tabs (s : CPrinter) : tabView (setPageLengthLines s) = tabView s :=
  rfl

theorem advanceVert_layout (s : CPrinter) :
    tabView (advanceVert s) = tabView s ∧ marginView (advanceVert s) = marginView s := by
  unfold advanceVert
  dsimp only
  split_ifs <;> exact ⟨rfl, rfl⟩

theorem setBottomMargin_tabs (s : CPrinter) : tabView (setBottomMargin s) = tabView s :=
  rfl

theorem cancelBottomMargin_tabs (s : CPrinter) : tabView (cancelBottomMargin s) = tabView s :=
  rfl

theorem setRightMargin_tabs (s : CPrinter) : tabView (setRightMargin s) = tabView s :=
  rfl

theorem selectIntCharSet_layout (s : CPrinter) :
    tabView (selectIntCharSet s) = tabView s ∧ marginView (selectIntCharSet s) = marginView s := by
  unfold selectIntCharSet
  by_cases h : s.params 0 ≤ 13 ∨ s.params 0 = 64
  · rw [if_pos h]
    exact ⟨rfl, rfl⟩
  · rw [if_neg h]
    exact ⟨rfl, rfl⟩

theorem selectSuperSub_layout (s : CPrinter) :
    tabView (selectSuperSub s) = tabView s ∧ marginView (selectSuperSub s) = marginView s := by
  unfold selectSuperSub
  dsimp only
  split_ifs <;> exact ⟨rfl, rfl⟩

theorem cancelSuperSub_layout (s : CPrinter) :
    tabView (cancelSuperSub s) = tabView s ∧ marginView (cancelSuperSub s) = marginView s :=
  ⟨rfl, rfl⟩

theorem setDoubleWidth_layout (s : CPrinter) :
    tabView (setDoubleWidth s) = tabView s ∧ marginView (setDoubleWidth s) = marginView s := by
  unfold setDoubleWidth
  dsimp only
  split_ifs <;> exact ⟨rfl, rfl⟩

theorem selectPitchPoint_layout (s : CPrinter) :
    tabView (selectPitchPoint s) = tabView s ∧ marginView (selectPitchPoint s) = marginView s := by
  unfold selectPitchPoint
  dsimp only
  split_ifs <;> exact ⟨rfl, rfl⟩

theorem setRelHorizPos_layout (s : CPrinter) :
    tabView (setRelHorizPos s) = tabView s ∧ marginView (setRelHorizPos s) = marginView s :=
  ⟨rfl, rfl⟩

theorem setHMI_layout (s : CPrinter) :
    tabView (setHMI s) = tabView s ∧ marginView (setHMI s) = marginView s :=
  ⟨rfl, rfl⟩

theorem forwardFeed_layout (s : CPrinter) :
    tabView (forwardFeed s) = tabView s ∧ marginView (forwardFeed s) = marginView s := by
  unfold forwardFeed
  split_ifs <;> exact ⟨rfl, rfl⟩

theorem reversePaperFeed_layout (s : CPrinter) :
    tabView (reversePaperFeed s) = tabView s ∧ marginView (reversePaperFeed s) = marginView s := by
  unfold reversePaperFeed
  dsimp only
  split_ifs <;> exact ⟨rfl, rfl⟩

theorem selectTypeface_layout (s : CPrinter) :
    tabView (selectTypeface s) = tabView s ∧ marginView (selectTypeface s) = marginView s := by
  unfold selectTypeface
  dsimp only
  split_ifs <;> exact ⟨rfl, rfl⟩

theorem setLeftMargin_tabs (s : CPrinter) : tabView (setLeftMargin s) = tabView s := by
  unfold setLeftMargin
  dsimp only
  split_ifs <;> exact rfl

theorem setProportional_layout (s : CPrinter) :
    tabView (setProportional s) = tabView s ∧ marginView (setProportional s) = marginView s := by
  unfold setProportional
  dsimp only
  split_ifs <;> exact ⟨rfl, rfl⟩

theorem selectColor_layout (s : CPrinter) :
    tabView (selectColor s) = tabView s ∧ marginView (selectColor s) = marginView s := by
  unfold selectColor
  split_ifs <;> exact ⟨rfl, rfl⟩

theorem selectCharTable_layout (s : CPrinter) :
    tabView (selectCharTable s) = tabView s ∧ marginView (selectCharTable s) = marginView s := by
  unfold selectCharTable
  simp only []
  refine ⟨((updateFont_layout _).1.trans (selectCodepage_layout _ _).1).trans ?_,
    ((updateFont_layout _).2.trans (selectCodepage_layout _ _).2).trans ?_⟩ <;>
    split_ifs <;> rfl

theorem setDoubleHeight_layout (s : CPrinter) :
    tabView (setDoubleHeight s) = tabView s ∧ marginView (setDoubleHeight s) = marginView s := by
  unfold setDoubleHeight
  dsimp only
  split_ifs <;> exact ⟨rfl, rfl⟩

theorem selectQuality_layout (s : CPrinter) :
    tabView (selectQuality s) = tabView s ∧ marginView (selectQuality s) = marginView s := by
  unfold selectQuality
  dsimp only
  split_ifs <;> exact ⟨rfl, rfl⟩

theorem setPageLengthInches_tabs (s : CPrinter) : tabView (setPageLengthInches s) = tabView s :=
  rfl

theorem skipCount_layout (s : CPrinter) :
    tabView (skipCount s) = tabView s ∧ marginView (skipCount s) = marginView s :=
  ⟨rfl, rfl⟩

theorem assignCharTable_layout (s : CPrinter) :
    tabView (assignCharTable s) = tabView s ∧ marginView (assignCharTable s) = marginView s := by
  unfold assignCharTable
  simp only []
  split_ifs
  all_goals first
    | exact ⟨rfl, rfl⟩
    | exact ⟨(selectCodepage_layout _ _).1.trans rfl, (selectCodepage_layout _ _).2.trans rfl⟩

theorem selectScore_layout (s : CPrinter) :
    tabView (selectScore s) = tabView s ∧ marginView (selectScore s) = marginView s :=
  ⟨rfl, rfl⟩

theorem setPageLengthUnits_tabs (s : CPrinter) : tabView (setPageLengthUnits s) = tabView s := by
  unfold setPageLengthUnits
  split_ifs <;> exact rfl

theorem setUnit_layout (s : CPrinter) :
    tabView (setUnit s) = tabView s ∧ marginView (setUnit s) = marginView s :=
  ⟨rfl, rfl⟩

theorem setAbsVertPos_layout (s : CPrinter) :
    tabView (setAbsVertPos s) = tabView s ∧ marginView (setAbsVertPos s) = marginView s := by
  unfold setAbsVertPos
  dsimp only
  split_ifs <;> exact ⟨rfl, rfl⟩

theorem printAsChars_layout (s : CPrinter) :
    tabView (printAsChars s) = tabView s ∧ marginView (printAsChars s) = marginView s :=
  ⟨rfl, rfl⟩

theorem setPageFormat_tabs (s : CPrinter) : tabView (setPageFormat s) = tabView s := by
  unfold setPageFormat
  dsimp only
  split_ifs <;> exact rfl

theorem setRelVertPos_layout (s : CPrinter) :
    tabView (setRelVertPos s) = tabView s ∧ marginView (setRelVertPos s) = marginView s := by
  unfold setRelVertPos
  dsimp only
  split_ifs <;> exact ⟨rfl, rfl⟩

theorem backspace_layout (s : CPrinter) :
    tabView (backspace s) = tabView s ∧ marginView (backspace s) = marginView s := by
  unfold backspace
  dsimp only
  split_ifs <;> exact ⟨rfl, rfl⟩

theorem horizTab_layout (s : CPrinter) :
    tabView (horizTab s) = tabView s ∧ marginView (horizTab s) = marginView s := by
  unfold horizTab
  dsimp only
  split_ifs <;> exact ⟨rfl, rfl⟩

theorem lineFeed_layout (s : CPrinter) :
    tabView (lineFeed s) = tabView s ∧ marginView (lineFeed s) = marginView s := by
  unfold lineFeed
  simp only []
  split_ifs
  · exact ⟨((newPage_layout _ true false).1.trans rfl).trans (cancelOneLineWidth_layoutView s).1,
      ((newPage_layout _ true false).2.trans rfl).trans (cancelOneLineWidth_layoutView s).2⟩
  · exact ⟨(cancelOneLineWidth_layoutView s).1, (cancelOneLineWidth_layoutView s).2⟩

theorem vertTab_layout (s : CPrinter) :
    tabView (vertTab s) = tabView s ∧ marginView (vertTab s) = marginView s := by
  unfold vertTab
  simp only []
  refine ⟨(cancelOneLineWidth_layoutView _).1.trans ?_, (cancelOneLineWidth_layoutView _).2.trans ?_⟩ <;>
    split_ifs <;> rfl

theorem formFeedCode_layout (s : CPrinter) :
    tabView (formFeedCode s) = tabView s ∧ marginView (formFeedCode s) = marginView s :=
  ⟨(newPage_layout _ true true).1.trans (cancelOneLineWidth_layoutView s).1,
    (newPage_layout _ true true).2.trans (cancelOneLineWidth_layoutView s).2⟩

theorem carriageReturn_layout (s : CPrinter) :
    tabView (carriageReturn s) = tabView s ∧ marginView (carriageReturn s) = marginView s := by
  unfold carriageReturn
  simp only []
  split_ifs
  · exact ⟨rfl, rfl⟩
  · exact lineFeed_layout _

theorem cancelCondensed_layout (s : CPrinter) :
    tabView (cancelCondensed s) = tabView s ∧ marginView (cancelCondensed s) = marginView s :=
  ⟨rfl, rfl⟩

theorem cancelDoubleWidthOneLine_layout (s : CPrinter) :
    tabView (cancelDoubleWidthOneLine s) = tabView s ∧ marginView (cancelDoubleWidthOneLine s) = marginView s :=
  ⟨rfl, rfl⟩

theorem seeESC_layout (s : CPrinter) :
    tabView (seeESC s) = tabView s ∧ marginView (seeESC s) = marginView s :=
  ⟨rfl, rfl⟩

theorem seeFS_layout (s : CPrinter) :
    tabView (seeFS s) = tabView s ∧ marginView (seeFS s) = marginView s :=
  ⟨rfl, rfl⟩

/-- Every arm of the dispatch but `ESC @` leaves the tab stops alone, and the margins too
unless it is the arm of a margin command. -/
theorem commandTable_layout : commandTable.Forall
    (fun e => e.1 ≠ 0x40 → ∀ s : CPrinter,
      tabView (e.2 s) = tabView s ∧ (e.1 ∉ marginCmds → marginView (e.2 s) = marginView s)) :=
  ⟨fun _ _ => ⟨rfl, fun _ => rfl⟩,
    fun _ s => ⟨(selectDoubleWidthOneLine_layout s).1, fun _ => (selectDoubleWidthOneLine_layout s).2⟩,
    fun _ s => ⟨(selectCondensed_layout s).1, fun _ => (selectCondensed_layout s).2⟩,
    fun _ s => ⟨(controlPaper_layout s).1, fun _ => (controlPaper_layout s).2⟩,
    fun _ s => ⟨(setIntercharSpace_layout s).1, fun _ => (setIntercharSpace_layout s).2⟩,
    fun _ s => ⟨(masterSelect_layout s).1, fun _ => (masterSelect_layout s).2⟩,
    fun _ _ => ⟨rfl, fun _ => rfl⟩,
    fun _ s => ⟨(setAbsHorizPos_layout s).1, fun _ => (setAbsHorizPos_layout s).2⟩,
    fun _ _ => ⟨rfl, fun _ => rfl⟩,
    fun _ _ => ⟨rfl, fun _ => rfl⟩,
    fun _ _ => ⟨rfl, fun _ => rfl⟩,
    fun _ _ => ⟨rfl, fun _ => rfl⟩,
    fun _ s => ⟨(setUnderline_layout s).1, fun _ => (setUnderline_layout s).2⟩,
    fun _ _ => ⟨rfl, fun _ => rfl⟩,
    fun _ _ => ⟨rfl, fun _ => rfl⟩,
    fun _ _ => ⟨rfl, fun _ => rfl⟩,
    fun _ _ => ⟨rfl, fun _ => rfl⟩,
    fun _ _ => ⟨rfl, fun _ => rfl⟩,
    fun _ _ => ⟨rfl, fun _ => rfl⟩,
    fun _ _ => ⟨rfl, fun _ => rfl⟩,
    fun _ _ => ⟨rfl, fun _ => rfl⟩,
    fun _ _ => ⟨rfl, fun _ => rfl⟩,
    fun _ _ => ⟨rfl, fun _ => rfl⟩,
    fun _ _ => ⟨rfl, fun _ => rfl⟩,
    fun _ s => ⟨(reassignBitImage_layout s).1, fun _ => (reassignBitImage_layout s).2⟩,
    fun h => absurd rfl h,
    fun _ _ => ⟨rfl, fun _ => rfl⟩,
    fun _ _ => ⟨rfl, fun _ => rfl⟩,
    fun _ s => ⟨setPageLengthLines_tabs s, fun hm => absurd (by decide) hm⟩,
    fun _ _ => ⟨rfl, fun _ => rfl⟩,
    fun _ _ => ⟨rfl, fun _ => rfl⟩,
    fun _ _ => ⟨rfl, fun _ => rfl⟩,
    fun _ _ => ⟨rfl, fun _ => rfl⟩,
    fun _ s => ⟨(advanceVert_layout s).1, fun _ => (advanceVert_layout s).2⟩,
    fun _ _ => ⟨rfl, fun _ => rfl⟩,
    fun _ _ => ⟨rfl, fun _ => rfl⟩,
    fun _ _ => ⟨rfl, fun _ => rfl⟩,
    fun _ s => ⟨setBottomMargin_tabs s, fun hm => absurd (by decide) hm⟩,
    fun _ s => ⟨cancelBottomMargin_tabs s, fun hm => absurd (by decide) hm⟩,
    fun _ _ => ⟨rfl, fun _ => rfl⟩,
    fun _ s => ⟨setRightMargin_tabs s, fun hm => absurd (by decide) hm⟩,
    fun _ s => ⟨(selectIntCharSet_layout s).1, fun _ => (selectIntCharSet_layout s).2⟩,
    fun _ s => ⟨(selectSuperSub_layout s).1, fun _ => (selectSuperSub_layout s).2⟩,
    fun _ s => ⟨(cancelSuperSub_layout s).1, fun _ => (cancelSuperSub_layout s).2⟩,
    fun _ _ => ⟨rfl, fun _ => rfl⟩,
    fun _ s => ⟨(setDoubleWidth_layout s).1, fun _ => (setDoubleWidth_layout s).2⟩,
    fun _ s => ⟨(selectPitchPoint_layout s).1, fun _ => (selectPitchPoint_layout s).2⟩,
    fun _ _ => ⟨rfl, fun _ => rfl⟩,
    fun _ _ => ⟨rfl, fun _ => rfl⟩,
    fun _ s => ⟨(setRelHorizPos_layout s).1, fun _ => (setRelHorizPos_layout s).2⟩,
    fun _ _ => ⟨rfl, fun _ => rfl⟩,
    fun _ s => ⟨(setHMI_layout s).1, fun _ => (setHMI_layout s).2⟩,
    fun _ _ => ⟨rfl, fun _ => rfl⟩,
    fun _ s => ⟨(forwardFeed_layout s).1, fun _ => (forwardFeed_layout s).2⟩,
    fun _ s => ⟨(reversePaperFeed_layout s).1, fun _ => (reversePaperFeed_layout s).2⟩,
    fun _ s => ⟨(selectTypeface_layout s).1, fun _ => (selectTypeface_layout s).2⟩,
    fun _ s => ⟨setLeftMargin_tabs s, fun hm => absurd (by decide) hm⟩,
    fun _ s => ⟨(setProportional_layout s).1, fun _ => (setProportional_layout s).2⟩,
    fun _ s => ⟨(selectColor_layout s).1, fun _ => (selectColor_layout s).2⟩,
    fun _ _ => ⟨rfl, fun _ => rfl⟩,
    fun _ s => ⟨(selectCharTable_layout s).1, fun _ => (selectCharTable_layout s).2⟩,
    fun _ s => ⟨(selectCharTable_layout s).1, fun _ => (selectCharTable_layout s).2⟩,
    fun _ s => ⟨(setDoubleHeight_layout s).1, fun _ => (setDoubleHeight_layout s).2⟩,
    fun _ s => ⟨(selectQuality_layout s).1, fun _ => (selectQuality_layout s).2⟩,
    fun _ s => ⟨setPageLengthInches_tabs s, fun hm => absurd (by decide) hm⟩,
    fun _ s => ⟨(skipCount_layout s).1, fun _ => (skipCount_layout s).2⟩,
    fun _ s => ⟨(assignCharTable_layout s).1, fun _ => (assignCharTable_layout s).2⟩,
    fun _ s => ⟨(selectScore_layout s).1, fun _ => (selectScore_layout s).2⟩,
    fun _ s => ⟨(skipCount_layout s).1, fun _ => (skipCount_layout s).2⟩,
    fun _ s => ⟨setPageLengthUnits_tabs s, fun hm => absurd (by decide) hm⟩,
    fun _ s => ⟨(setUnit_layout s).1, fun _ => (setUnit_layout s).2⟩,
    fun _ s => ⟨(setAbsVertPos_layout s).1, fun _ => (setAbsVertPos_layout s).2⟩,
    fun _ s => ⟨(printAsChars_layout s).1, fun _ => (printAsChars_layout s).2⟩,
    fun _ s => ⟨setPageFormat_tabs s, fun hm => absurd (by decide) hm⟩,
    fun _ s => ⟨(setRelVertPos_layout s).1, fun _ => (setRelVertPos_layout s).2⟩⟩

/-! ## Properties along the control flow of `processCommandChar` -/

theorem Flow.sat_andThen {R N N' : CPrinter → Prop} (f : Flow) (k : CPrinter → Flow)
    (hf : f.Sat R N) (hk : ∀ s, N s → (k s).Sat R N') : (f.andThen k).Sat R N' := by
  cases f with
  | ret r s => exact hf
  | next s => exact hk s hf

/-- A property `R` that holds of the state wherever `processCommandChar` returns holds of
its result. -/
theorem processCommandChar_sat {R N : CPrinter → Prop} (s : CPrinter) (ch : Nat)
    (hf : ((((escStage s ch).andThen fun s => twoByteStage s ch).andThen vfuStage).andThen
      fun s => (paramStage (horizTabStage (vertTabStage s ch) ch) ch).andThen dispatchStage).Sat R N)
    (hc : ∀ t, N t → R (controlStage t ch).2) : R (processCommandChar s ch).2 := by
  unfold processCommandChar
  simp only []
  generalize ((((escStage s ch).andThen fun s => twoByteStage s ch).andThen vfuStage).andThen
      fun s => (paramStage (horizTabStage (vertTabStage s ch) ch) ch).andThen dispatchStage) = f at hf
  cases f with
  | ret r t => exact hf
  | next t => exact hc t hf

/-! ## Tab stops and margins: printing leaves them alone -/

theorem bitColumnByte_layout (px py : Nat) (s : CPrinter) (b : Nat) :
    (tabView (bitColumnByte px py s b), marginView (bitColumnByte px py s b)) =
      (tabView s, marginView s) := by
  unfold bitColumnByte
  apply foldl_state_proj (fun s => (tabView s, marginView s))
  intro s j
  simp only []
  split_ifs <;> rfl

theorem rasterColumn_layout (s : CPrinter) :
    tabView (rasterColumn s) = tabView s ∧ marginView (rasterColumn s) = marginView s := by
  unfold rasterColumn
  simp only []
  generalize hF : List.foldl _ s (List.range s.bitGraph.bytesColumn) = F
  have h : (tabView F, marginView F) = (tabView s, marginView s) := by
    rw [← hF]
    exact foldl_state_proj (fun s => (tabView s, marginView s)) _
      (fun s _ => bitColumnByte_layout _ _ s _) _ s
  simp only [Prod.mk.injEq] at h
  exact ⟨h.1, h.2⟩

theorem printBitGraph_layout (s : CPrinter) (ch : Nat) :
    tabView (printBitGraph s ch) = tabView s ∧ marginView (printBitGraph s ch) = marginView s := by
  unfold printBitGraph
  simp only []
  split_ifs
  · exact ⟨rfl, rfl⟩
  · exact ⟨(rasterColumn_layout _).1.trans rfl, (rasterColumn_layout _).2.trans rfl⟩

theorem drawScore_layout (s : CPrinter) (face : FT_Face) (lineStart : Nat) :
    tabView (drawScore s face lineStart) = tabView s ∧
    marginView (drawScore s face lineStart) = marginView s := by
  unfold drawScore
  simp only []
  split_ifs <;> exact ⟨rfl, rfl⟩

theorem ite_sat {α : Type} (P : α → Prop) (c : Prop) [Decidable c] (a b : α) (ha : P a)
    (hb : P b) : P (if c then a else b) := by
  split_ifs
  · exact ha
  · exact hb

theorem blitChar_layout (s : CPrinter) (bitmap : FT_Bitmap) (penX penY : Nat) :
    tabView (blitChar s bitmap penX penY) = tabView s ∧
    marginView (blitChar s bitmap penX penY) = marginView s := by
  have hb : ∀ (t : CPrinter) (b : FT_Bitmap) (x y : Nat) (add : Bool),
      (tabView t = tabView s ∧ marginView t = marginView s) →
      (tabView (blitGlyph t b x y add) = tabView s ∧
        marginView (blitGlyph t b x y add) = marginView s) :=
    fun t b x y add h => h
  have h2 : tabView (blitGlyph (blitGlyph s bitmap penX penY false) bitmap ((penX + 1) % 65536)
      penY true) = tabView s ∧ marginView (blitGlyph (blitGlyph s bitmap penX penY false) bitmap
      ((penX + 1) % 65536) penY true) = marginView s := ⟨rfl, rfl⟩
  have h3 := ite_sat (fun t => tabView t = tabView s ∧ marginView t = marginView s)
    (hasStyle (blitGlyph (blitGlyph s bitmap penX penY false) bitmap ((penX + 1) % 65536)
      penY true).style STYLE_DOUBLESTRIKE = true) _ _ (hb _ bitmap ((penX + 1) % 65536) ((penY + 1) % 65536) true
      (hb _ bitmap penX ((penY + 1) % 65536) true h2)) h2
  unfold blitChar
  exact ite_sat (fun t => tabView t = tabView s ∧ marginView t = marginView s) _ _ _
    (hb _ _ _ _ _ (hb _ _ _ _ _ (hb _ _ _ _ _ h3))) h3
theorem wrapLine_layout (s : CPrinter) (x : Real64) :
    tabView (wrapLine s x) = tabView s ∧ marginView (wrapLine s x) = marginView s := by
  unfold wrapLine
  simp only []
  split_ifs
  · exact ⟨(newPage_layout _ true false).1.trans rfl, (newPage_layout _ true false).2.trans rfl⟩
  · exact ⟨rfl, rfl⟩
  · exact ⟨rfl, rfl⟩

/-- The rendering part of `printChar` in named steps. -/
theorem renderChar_eq (s : CPrinter) (ch : Nat) :
    renderChar s ch =
      match s.curFont with
      | none => s
      | some face =>
        let g := s.FTlib.glyph face (s.curMap (if ch = 0x1 then 0x20 else ch))
        let penX : Nat := (((PIXX s : Int) + g.bitmap_left) % 65536).toNat
        let penY : Nat :=
          (((PIXY s : Int) - g.bitmap_top + Int.tdiv (s.FTlib.ascender face) 64) % 65536).toNat
        let penY := if hasStyle s.style STYLE_SUBSCRIPT then (penY + g.bitmap.rows / 2) % 65536 else penY
        let s1 := blitChar s g.bitmap penX penY
        wrapLine (drawScore { s1 with curX := s1.curX + xAdvance s1 g } face (PIXX s1 % 65536))
          (xAdvance s1 g) := by
  unfold renderChar
  rfl

theorem renderChar_layout (s : CPrinter) (ch : Nat) :
    tabView (renderChar s ch) = tabView s ∧ marginView (renderChar s ch) = marginView s := by
  rw [renderChar_eq]
  split
  · exact ⟨rfl, rfl⟩
  · simp only []
    exact ⟨(wrapLine_layout _ _).1.trans ((drawScore_layout _ _ _).1.trans
        ((Eq.refl _).trans (blitChar_layout _ _ _ _).1)),
      (wrapLine_layout _ _).2.trans ((drawScore_layout _ _ _).2.trans
        ((Eq.refl _).trans (blitChar_layout _ _ _ _).2))⟩

theorem controlStage_layout (s : CPrinter) (ch : Nat) :
    tabView (controlStage s ch).2 = tabView s ∧ marginView (controlStage s ch).2 = marginView s := by
  unfold controlStage
  repeat' apply ite_sat (fun r : Bool × CPrinter =>
    tabView r.2 = tabView s ∧ marginView r.2 = marginView s)
  · exact ⟨rfl, rfl⟩
  · exact ⟨rfl, rfl⟩
  · exact backspace_layout s
  · exact horizTab_layout s
  · exact vertTab_layout s
  · exact formFeedCode_layout s
  · exact carriageReturn_layout s
  · exact lineFeed_layout s
  · exact selectDoubleWidthOneLine_layout s
  · exact selectCondensed_layout s
  · exact ⟨rfl, rfl⟩
  · exact cancelCondensed_layout s
  · exact ⟨rfl, rfl⟩
  · exact cancelDoubleWidthOneLine_layout s
  · exact ⟨rfl, rfl⟩
  · exact ⟨rfl, rfl⟩
  · exact ⟨rfl, rfl⟩
  · exact ⟨rfl, rfl⟩

/-! ## The run-length encoder of the PostScript output -/

theorem rleLoop_chunks (pg : Page) (numpix : Nat) :
    ∀ (rounds pix : Nat),
      rleLoop pg numpix rounds pix = (rleChunks pg numpix rounds pix).flatMap Chunk.encode := by
  intro rounds
  induction rounds with
  | zero => exact fun _ => rfl
  | succ r ih =>
    intro pix
    unfold rleLoop rleChunks
    split_ifs
    · simp only [List.flatMap_cons, Chunk.encode, ih]
      rfl
    · simp only [List.flatMap_cons, Chunk.encode, ih, List.length_map, List.length_range]
    · rfl

/-- The loop over `sameCount` stops at a count of at most 128; the pixels it counted equal
`col` and lie in the raster; it was not cut short by the bound on its rounds. -/
theorem sameRun_spec (pg : Page) (numpix pix col : Nat) :
    ∀ (rounds c0 : Nat), c0 ≤ 128 → 128 ≤ rounds + c0 →
      c0 ≤ sameRun pg numpix pix col rounds c0 ∧ sameRun pg numpix pix col rounds c0 ≤ 128 ∧
      (∀ i, c0 ≤ i → i < sameRun pg numpix pix col rounds c0 →
        i + pix < numpix ∧ col = getPixel pg (pix + i)) ∧
      ¬ (sameRun pg numpix pix col rounds c0 < 128 ∧
          sameRun pg numpix pix col rounds c0 + pix < numpix ∧
          col = getPixel pg (pix + sameRun pg numpix pix col rounds c0)) := by
  intro rounds
  induction rounds with
  | zero =>
    intro c0 h1 h2
    have : c0 = 128 := by omega
    subst this
    exact ⟨Nat.le_refl _, Nat.le_refl _, fun i h3 h4 => absurd h4 (by unfold sameRun; omega),
      fun h => absurd h.1 (by unfold sameRun; omega)⟩
  | succ r ih =>
    intro c0 h1 h2
    unfold sameRun
    split_ifs with hc
    · obtain ⟨a1, a2, a3, a4⟩ := ih (c0 + 1) (by omega) (by omega)
      refine ⟨by omega, a2, fun i h3 h4 => ?_, a4⟩
      by_cases hi : i = c0
      · subst hi
        exact ⟨hc.2.1, hc.2.2⟩
      · exact a3 i (by omega) h4
    · exact ⟨Nat.le_refl _, h1, fun i h3 h4 => absurd h4 (by omega), hc⟩

/-- The loop over `diffCount` stops at a count of at most 128 and stays inside the raster. -/
theorem diffRun_spec (pg : Page) (numpix pix : Nat) :
    ∀ (rounds c0 : Nat), c0 ≤ 128 → 128 ≤ rounds + c0 →
      c0 ≤ diffRun pg numpix pix rounds c0 ∧ diffRun pg numpix pix rounds c0 ≤ 128 ∧
      (c0 + pix ≤ numpix → diffRun pg numpix pix rounds c0 + pix ≤ numpix) ∧
      ¬ (diffRun pg numpix pix rounds c0 < 128 ∧
          diffRun pg numpix pix rounds c0 + pix < numpix ∧
          (diffRun pg numpix pix rounds c0 + pix < sub32 numpix 2 ∨
            getPixel pg (pix + diffRun pg numpix pix rounds c0) ≠
              getPixel pg (pix + diffRun pg numpix pix rounds c0 + 1) ∨
            getPixel pg (pix + diffRun pg numpix pix rounds c0) ≠
              getPixel pg (pix + diffRun pg numpix pix rounds c0 + 2))) := by
  intro rounds
  induction rounds with
  | zero =>
    intro c0 h1 h2
    have : c0 = 128 := by omega
    subst this
    exact ⟨Nat.le_refl _, Nat.le_refl _, fun h => by unfold diffRun; exact h,
      fun h => absurd h.1 (by unfold diffRun; omega)⟩
  | succ r ih =>
    intro c0 h1 h2
    unfold diffRun
    split_ifs with hc
    · obtain ⟨a1, a2, a3, a4⟩ := ih (c0 + 1) (by omega) (by omega)
      exact ⟨by omega, a2, fun _ => a3 (by omega), a4⟩
    · exact ⟨Nat.le_refl _, h1, fun h => h, hc⟩
theorem rleChunks_valid (pg : Page) (numpix : Nat) :
    ∀ (rounds pix : Nat), ∀ c ∈ rleChunks pg numpix rounds pix, c.Valid := by
  intro rounds
  induction rounds with
  | zero =>
    intro pix c hc
    exact absurd hc (List.not_mem_nil c)
  | succ r ih =>
    intro pix c hc
    unfold rleChunks at hc
    split_ifs at hc
    · rcases List.mem_cons.1 hc with h | h
      · subst h
        obtain ⟨a1, a2, -⟩ := sameRun_spec pg numpix pix (getPixel pg pix) 125 3 (by omega) (by omega)
        exact ⟨a1, a2⟩
      · exact ih _ c h
    · rcases List.mem_cons.1 hc with h | h
      · subst h
        obtain ⟨a1, a2, -⟩ := diffRun_spec pg numpix pix 127 1 (by omega) (by omega)
        show 1 ≤ (List.map _ (List.range _)).length ∧ (List.map _ (List.range _)).length ≤ 128
        rw [List.length_map, List.length_range]
        exact ⟨a1, a2⟩
      · exact ih _ c h
    · exact absurd hc (List.not_mem_nil c)

theorem invPixels_append (pg : Page) (pix a b : Nat) :
    invPixels pg pix (a + b) = invPixels pg pix a ++ invPixels pg (pix + a) b := by
  unfold invPixels
  rw [← List.map_append, List.range'_append_1, Nat.add_comm b a]

theorem invPixels_literal (pg : Page) (pix n : Nat) :
    ((List.range n).map fun i => 255 - getPixel pg (pix + i)) = invPixels pg pix n := by
  unfold invPixels
  rw [List.range'_eq_map_range, List.map_map]
  rfl

theorem invPixels_same (pg : Page) (pix n col : Nat)
    (h : ∀ i, i < n → getPixel pg (pix + i) = col) :
    invPixels pg pix n = List.replicate n (255 - col) := by
  rw [← invPixels_literal]
  apply List.eq_replicate_iff.2
  refine ⟨by rw [List.length_map, List.length_range], fun b hb => ?_⟩
  obtain ⟨i, hi, rfl⟩ := List.mem_map.1 hb
  rw [h i (List.mem_range.1 hi)]
theorem sub32_two (n : Nat) (h1 : 2 ≤ n) (h2 : n < 4294967296) : sub32 n 2 = n - 2 := by
  unfold sub32
  omega

/-- With at least two pixels the chunks cover the raster from `pix` to its end, no more
and no less. -/
theorem rleChunks_cover (pg : Page) (numpix : Nat) (h1 : 2 ≤ numpix) (h2 : numpix < 4294967296) :
    ∀ (rounds pix : Nat), pix ≤ numpix → numpix ≤ pix + rounds →
      (rleChunks pg numpix rounds pix).flatMap Chunk.expand = invPixels pg pix (numpix - pix) := by
  intro rounds
  induction rounds with
  | zero =>
    intro pix h3 h4
    have : numpix - pix = 0 := by omega
    rw [this]
    rfl
  | succ r ih =>
    intro pix h3 h4
    unfold rleChunks
    split_ifs with ha hb
    · obtain ⟨a1, a2, a3, -⟩ :=
        sameRun_spec pg numpix pix (getPixel pg pix) 125 3 (by omega) (by omega)
      rw [sub32_two numpix h1 h2] at hb
      have hin : sameRun pg numpix pix (getPixel pg pix) 125 3 + pix ≤ numpix := by
        by_cases h3' : sameRun pg numpix pix (getPixel pg pix) 125 3 = 3
        · omega
        · have := (a3 (sameRun pg numpix pix (getPixel pg pix) 125 3 - 1) (by omega) (by omega)).1
          omega
      have hsame : ∀ i, i < sameRun pg numpix pix (getPixel pg pix) 125 3 →
          getPixel pg (pix + i) = getPixel pg pix := by
        intro i hi
        by_cases h0 : i = 0
        · subst h0
          rfl
        · by_cases h1' : i = 1
          · subst h1'
            exact hb.2.1.symm
          · by_cases h2' : i = 2
            · subst h2'
              exact hb.2.2.symm
            · exact ((a3 i (by omega) hi).2).symm
      rw [List.flatMap_cons, ih _ (by omega) (by omega)]
      show List.replicate _ _ ++ _ = _
      rw [← invPixels_same pg pix _ _ hsame,
        show numpix - pix = sameRun pg numpix pix (getPixel pg pix) 125 3 +
          (numpix - (pix + sameRun pg numpix pix (getPixel pg pix) 125 3)) from by omega,
        invPixels_append]
    · obtain ⟨a1, a2, a3, -⟩ := diffRun_spec pg numpix pix 127 1 (by omega) (by omega)
      have hin := a3 (by omega)
      rw [List.flatMap_cons, ih _ (by omega) (by omega)]
      show List.map _ (List.range _) ++ _ = _
      rw [invPixels_literal,
        show numpix - pix = diffRun pg numpix pix 127 1 +
          (numpix - (pix + diffRun pg numpix pix 127 1)) from by omega,
        invPixels_append]
    · have : numpix - pix = 0 := by omega
      rw [this]
      rfl

/-- Decoding the stream of a list of valid chunks and the end-of-data marker gives the
bytes that the chunks stand for. -/
theorem rleDecode_chunks : ∀ (chunks : List Chunk) (fuel : Nat), (∀ c ∈ chunks, c.Valid) →
    chunks.length < fuel → ∀ tail : List Nat,
    rleDecode fuel (chunks.flatMap Chunk.encode ++ 128 :: tail) =
      some (chunks.flatMap Chunk.expand) := by
  intro chunks
  induction chunks with
  | nil =>
    intro fuel _ hf tail
    obtain ⟨f, rfl⟩ : ∃ f, fuel = f + 1 := ⟨fuel - 1, by simp only [List.length_nil] at hf; omega⟩
    simp [rleDecode]
  | cons c cs ih =>
    intro fuel hv hf tail
    simp only [List.length_cons] at hf
    obtain ⟨f, rfl⟩ : ∃ f, fuel = f + 1 := ⟨fuel - 1, by omega⟩
    have hc := hv c (List.mem_cons_self c cs)
    have ih' := ih f (fun x hx => hv x (List.mem_cons_of_mem c hx)) (by omega) tail
    cases c with
    | rep count v =>
      obtain ⟨v1, v2⟩ := hc
      simp only [List.flatMap_cons, Chunk.encode, Chunk.expand, List.cons_append, List.nil_append]
      unfold rleDecode
      rw [if_neg (by omega), if_neg (by omega)]
      simp only []
      rw [ih']
      simp only [Option.map_some']
      rw [show 257 - (257 - count) = count from by omega]
    | lit bs =>
      obtain ⟨v1, v2⟩ := hc
      simp only [List.flatMap_cons, Chunk.encode, Chunk.expand, List.cons_append]
      unfold rleDecode
      rw [if_neg (by omega), if_pos (by omega)]
      have hlen : bs.length - 1 + 1 = bs.length := by omega
      rw [hlen, if_neg (by simp only [List.length_append]; omega), List.append_assoc,
        List.drop_left, List.take_left, ih']
      rfl
theorem rleStream_chunks (pg : Page) :
    rleStream pg =
      (rleChunks pg (numPixels pg) (numPixels pg) 0).flatMap Chunk.encode ++ [128] := by
  unfold rleStream
  rw [rleLoop_chunks]

theorem numPixels_eq (pg : Page) (h : pg.w * pg.h < 2147483648) :
    numPixels pg = pg.w * pg.h := by
  unfold numPixels
  rw [Nat.mul_comm pg.h pg.w]
  omega

theorem rleDecode_empty (pg : Page) (h : numPixels pg = 0) :
    rleDecode (rleStream pg).length (rleStream pg) = some [] := by
  have : rleStream pg = [128] := by
    unfold rleStream
    rw [h]
    rfl
  rw [this]
  rfl

theorem rleChunks_step (pg : Page) (numpix rounds pix : Nat) :
    (pix < numpix →
      (pix < sub32 numpix 2 ∧ getPixel pg pix = getPixel pg (pix + 1) ∧
        getPixel pg pix = getPixel pg (pix + 2)) →
      rleChunks pg numpix (rounds + 1) pix =
        Chunk.rep (sameRun pg numpix pix (getPixel pg pix) 125 3) (255 - getPixel pg pix) ::
          rleChunks pg numpix rounds (pix + sameRun pg numpix pix (getPixel pg pix) 125 3)) ∧
    (pix < numpix →
      ¬ (pix < sub32 numpix 2 ∧ getPixel pg pix = getPixel pg (pix + 1) ∧
        getPixel pg pix = getPixel pg (pix + 2)) →
      rleChunks pg numpix (rounds + 1) pix =
        Chunk.lit ((List.range (diffRun pg numpix pix 127 1)).map
            fun i => 255 - getPixel pg (pix + i)) ::
          rleChunks pg numpix rounds (pix + diffRun pg numpix pix 127 1)) ∧
    (¬ pix < numpix → rleChunks pg numpix (rounds + 1) pix = []) := by
  refine ⟨fun ha hb => ?_, fun ha hb => ?_, fun ha => ?_⟩
  · rw [rleChunks, if_pos ha, if_pos hb]
  · rw [rleChunks, if_pos ha, if_neg hb]
  · rw [rleChunks, if_neg ha]

theorem rep_length (count v : Nat) : (Chunk.rep count v).expand.length = count :=
  List.length_replicate _ _

theorem lit_length (pg : Page) (pix n : Nat) :
    (Chunk.lit ((List.range n).map fun i => 255 - getPixel pg (pix + i))).expand.length = n := by
  show (List.map _ (List.range _)).length = _
  rw [List.length_map, List.length_range]

theorem sameRun_pixels (pg : Page) (numpix pix : Nat)
    (hb : getPixel pg pix = getPixel pg (pix + 1) ∧ getPixel pg pix = getPixel pg (pix + 2)) :
    ∀ i, i < sameRun pg numpix pix (getPixel pg pix) 125 3 →
      getPixel pg (pix + i) = getPixel pg pix := by
  obtain ⟨a1, a2, a3, -⟩ :=
    sameRun_spec pg numpix pix (getPixel pg pix) 125 3 (by omega) (by omega)
  intro i hi
  by_cases h0 : i = 0
  · subst h0
    rfl
  · by_cases h1 : i = 1
    · subst h1
      exact hb.1.symm
    · by_cases h2 : i = 2
      · subst h2
        exact hb.2.symm
      · exact ((a3 i (by omega) hi).2).symm

theorem rleChunks_covers (pg : Page) (numpix : Nat) :
    ∀ (rounds pix : Nat), Covers pg pix (rleChunks pg numpix rounds pix) := by
  intro rounds
  induction rounds with
  | zero => exact fun _ => trivial
  | succ r ih =>
    intro pix
    obtain ⟨s1, s2, s3⟩ := rleChunks_step pg numpix r pix
    by_cases ha : pix < numpix
    · by_cases hb : pix < sub32 numpix 2 ∧ getPixel pg pix = getPixel pg (pix + 1) ∧
          getPixel pg pix = getPixel pg (pix + 2)
      · rw [s1 ha hb]
        refine ⟨?_, ?_⟩
        · rw [rep_length]
          exact (invPixels_same pg pix _ _ (sameRun_pixels pg numpix pix hb.2)).symm
        · rw [rep_length]
          exact ih _
      · rw [s2 ha hb]
        refine ⟨?_, ?_⟩
        · rw [lit_length]
          exact invPixels_literal pg pix _
        · rw [lit_length]
          exact ih _
    · rw [s3 ha]
      trivial

theorem valid_size (c : Chunk) (h : c.Valid) : 1 ≤ c.expand.length ∧ c.expand.length ≤ 128 := by
  cases c with
  | rep count v =>
    obtain ⟨h1, h2⟩ := h
    show 1 ≤ (List.replicate count v).length ∧ (List.replicate count v).length ≤ 128
    rw [List.length_replicate]
    omega
  | lit bs => exact h

theorem rleChunks_total (pg : Page) (numpix : Nat) :
    ∀ (rounds pix : Nat), numpix ≤ pix + rounds →
      numpix ≤ pix + coveredPixels (rleChunks pg numpix rounds pix) := by
  intro rounds
  induction rounds with
  | zero => exact fun pix h => by omega
  | succ r ih =>
    intro pix h
    obtain ⟨s1, s2, s3⟩ := rleChunks_step pg numpix r pix
    by_cases ha : pix < numpix
    · by_cases hb : pix < sub32 numpix 2 ∧ getPixel pg pix = getPixel pg (pix + 1) ∧
          getPixel pg pix = getPixel pg (pix + 2)
      · obtain ⟨a1, -⟩ :=
          sameRun_spec pg numpix pix (getPixel pg pix) 125 3 (by omega) (by omega)
        have := ih (pix + sameRun pg numpix pix (getPixel pg pix) 125 3) (by omega)
        rw [s1 ha hb]
        unfold coveredPixels at this ⊢
        rw [List.map_cons, List.sum_cons, rep_length]
        omega
      · obtain ⟨a1, -⟩ := diffRun_spec pg numpix pix 127 1 (by omega) (by omega)
        have := ih (pix + diffRun pg numpix pix 127 1) (by omega)
        rw [s2 ha hb]
        unfold coveredPixels at this ⊢
        rw [List.map_cons, List.sum_cons, lit_length]
        omega
    · omega

theorem coveredPixels_le : ∀ (chunks : List Chunk), (∀ c ∈ chunks, c.Valid) →
    coveredPixels chunks ≤ 128 * chunks.length := by
  intro chunks
  induction chunks with
  | nil => exact fun _ => Nat.le_refl _
  | cons c cs ih =>
    intro hv
    have h1 := (valid_size c (hv c (List.mem_cons_self c cs))).2
    have h2 := ih (fun x hx => hv x (List.mem_cons_of_mem c hx))
    unfold coveredPixels at h2 ⊢
    rw [List.map_cons, List.sum_cons, List.length_cons]
    omega

theorem encode_length_le : ∀ (chunks : List Chunk),
    chunks.length ≤ (chunks.flatMap Chunk.encode).length := by
  intro chunks
  induction chunks with
  | nil => exact Nat.le_refl _
  | cons c cs ih =>
    rw [List.flatMap_cons, List.length_append, List.length_cons]
    have : 1 ≤ c.encode.length := by
      cases c with
      | rep count v => exact Nat.le_of_lt (Nat.lt_succ_self 1)
      | lit bs => exact Nat.succ_le_succ (Nat.zero_le _)
    omega

/-! ## C11: the tab stops -/

theorem commandEffect_margins (s : CPrinter) (h : s.ESCCmd ∉ marginCmds) :
    marginView (commandEffect s) = marginView s := by
  unfold commandEffect
  split
  · rename_i e he
    have hm := List.mem_of_find?_eq_some he
    have hp := List.find?_some he
    simp only [beq_iff_eq] at hp
    have h40 : e.1 ≠ 0x40 := by
      intro h0
      rw [← hp, h0] at h
      exact h (by decide)
    exact ((List.forall_iff_forall_mem.1 commandTable_layout) e hm h40 s).2 (by rw [hp]; exact h)
  · rfl

theorem escStage_margins (s : CPrinter) (ch : Nat) :
    (escStage s ch).Sat (fun t => marginView t = marginView s) (MarginsKept s ch) := by
  unfold escStage
  by_cases h : (s.ESCSeen || s.FSSeen) = true
  · rw [if_pos h]
    simp only []
    have hp : pendingCmd s ch = if s.FSSeen = true then ch ||| 0x800 else ch := by
      unfold pendingCmd
      rw [if_pos h]
    repeat' split
    all_goals first
      | exact (rfl : marginView _ = marginView s)
      | (refine ⟨rfl, Or.inl ?_⟩
         rw [hp]
         first
           | rw [if_pos (by assumption)]
           | rw [if_neg (by assumption)])
  · rw [if_neg h]
    refine ⟨rfl, Or.inl ?_⟩
    unfold pendingCmd
    rw [if_neg h]

theorem esc2ParamCount_pos (c n : Nat) (h : esc2ParamCount c = some n) : 0 < n := by
  unfold esc2ParamCount at h
  split_ifs at h <;> simp only [Option.some.injEq] at h <;> omega

theorem twoByteStage_margins (s t : CPrinter) (ch : Nat) (h : MarginsKept s ch t) :
    (twoByteStage t ch).Sat (fun t => marginView t = marginView s) (MarginsKept s ch) := by
  unfold twoByteStage
  simp only []
  repeat' split
  all_goals first
    | exact h
    | exact (rfl : marginView _ = marginView t).trans h.1
    | (exfalso
       have := esc2ParamCount_pos _ _ (by assumption)
       omega)

theorem vfuStage_margins (s t : CPrinter) (ch : Nat) (h : MarginsKept s ch t) :
    (vfuStage t).Sat (fun t => marginView t = marginView s) (MarginsKept s ch) := by
  unfold vfuStage
  split
  · exact (rfl : marginView _ = marginView t).trans h.1
  · exact h

theorem vertTabStage_margins (s t : CPrinter) (ch : Nat) (h : MarginsKept s ch t) :
    MarginsKept s ch (vertTabStage t ch) := by
  unfold vertTabStage
  split_ifs
  · exact ⟨h.1, Or.inr rfl⟩
  · exact h
  · exact h
  · exact h

theorem horizTabStage_margins (s t : CPrinter) (ch : Nat) (h : MarginsKept s ch t) :
    MarginsKept s ch (horizTabStage t ch) := by
  unfold horizTabStage
  split_ifs
  · exact ⟨h.1, Or.inr rfl⟩
  · exact h
  · exact h
  · exact h

theorem paramStage_margins (s t : CPrinter) (ch : Nat) (h : MarginsKept s ch t) :
    (paramStage t ch).Sat (fun t => marginView t = marginView s) (MarginsKept s ch) := by
  unfold paramStage
  simp only []
  repeat' split
  all_goals first
    | exact h
    | exact (storeParam_views t ch).2.1.trans h.1
    | exact ⟨(storeParam_views t ch).2.1.trans h.1, by
        rw [(storeParam_frame t ch).2.2.1]
        exact h.2⟩

theorem dispatchStage_margins (s t : CPrinter) (ch : Nat) (h : MarginsKept s ch t)
    (hp : pendingCmd s ch ∉ marginCmds) :
    (dispatchStage t).Sat (fun t => marginView t = marginView s) (MarginsKept s ch) := by
  unfold dispatchStage
  split_ifs with h0 h1
  · exact (rfl : marginView _ = marginView t).trans h.1
  · have hc : t.ESCCmd ∉ marginCmds := by
      rcases h.2 with e | e
      · rw [e]
        exact hp
      · exact absurd e h0
    exact ((rfl : marginView _ = marginView (commandEffect t)).trans
      (commandEffect_margins t hc)).trans h.1
  · exact h

/-- A byte that does not belong to a margin command leaves the four margins as they are. -/
theorem processCommandChar_margins (s : CPrinter) (ch : Nat)
    (hp : pendingCmd s ch ∉ marginCmds) :
    marginView (processCommandChar s ch).2 = marginView s := by
  apply processCommandChar_sat s ch (R := fun t => marginView t = marginView s)
    (N := MarginsKept s ch)
  · apply Flow.sat_andThen (N := MarginsKept s ch)
    · apply Flow.sat_andThen (N := MarginsKept s ch)
      · apply Flow.sat_andThen (N := MarginsKept s ch)
        · exact escStage_margins s ch
        · exact fun t ht => twoByteStage_margins s t ch ht
      · exact fun t ht => vfuStage_margins s t ch ht
    · intro t ht
      apply Flow.sat_andThen (N := MarginsKept s ch)
      · exact paramStage_margins s _ ch
          (horizTabStage_margins s _ ch (vertTabStage_margins s t ch ht))
      · exact fun u hu => dispatchStage_margins s u ch hu hp
  · intro t ht
    exact (controlStage_layout t ch).2.trans ht.1

theorem printChar_margins (s : CPrinter) (ch : Nat)
    (hp : pendingCmd s (applyMSB s.msb ch) ∉ marginCmds) :
    marginView (printChar s ch) = marginView s := by
  have h1 := processCommandChar_margins { s with charRead := true } (applyMSB s.msb ch) hp
  unfold printChar
  simp only []
  split_ifs
  · exact (printBitGraph_layout _ _).2.trans rfl
  · exact (renderChar_layout _ _).2.trans rfl
  · exact h1
  · exact (renderChar_layout _ _).2.trans h1

theorem construct_margins (raw : CPrinter) (dpi width height : Nat) (multipage : Bool) :
    marginView (construct raw dpi width height multipage) =
      (0, (height : Real64) / 10, 0, (width : Real64) / 10) := by
  obtain ⟨-, -, r3, r4, r5, r6, -⟩ := resetPrinter_defaults { raw with
    dpi := dpi, multipageOutput := multipage,
    defaultPageWidth := (width : Real64) / 10, defaultPageHeight := (height : Real64) / 10,
    page := { w := toBitu ((width : Real64) / 10 * dpi), h := toBitu ((height : Real64) / 10 * dpi),
              pixels := fun _ _ => 0 },
    outputPages := [], paramsOverrun := [],
    color := COLOR_BLACK, curFont := none, charRead := false, autoFeed := false }
  unfold marginView
  unfold construct
  simp only []
  rw [r3, r4, r5, r6]

/-- A complete declared command other than the margin commands and `ESC @` leaves the
four margins as they are. -/
theorem declared_command_margins (s : CPrinter) (hs : ParserIdle s) (intro : List Nat)
    (cmd n : Nat) (hd : Declared intro cmd n) (hm : cmd ∉ marginCmds) (ps : List Nat)
    (hlen : ps.length = n) :
    marginView (feedCommand s (intro ++ ps)) = marginView s := by
  rw [feed_declared_eq s hs intro cmd n hd ps hlen]
  have hfold : marginView (ps.foldl storeParam (armed s cmd n)) = marginView s :=
    (foldl_state_proj marginView storeParam (fun t b => (storeParam_views t b).2.1) ps
      (armed s cmd n)).trans rfl
  have hcmd : (ps.foldl storeParam (armed s cmd n)).ESCCmd = cmd :=
    (foldl_state_proj (fun t => t.ESCCmd) storeParam
      (fun t b => (storeParam_frame t b).2.2.1) ps (armed s cmd n)).trans rfl
  have h43 : cmd ≠ 0x43 := by
    intro h
    rw [h] at hm
    exact hm (by decide)
  have hne : ¬ ((ps.foldl storeParam (armed s cmd n)).ESCCmd = 0x43 ∧
      (ps.foldl storeParam (armed s cmd n)).params 0 = 0) := by
    rintro ⟨a, -⟩
    rw [hcmd] at a
    exact h43 a
  unfold dispatched
  rw [if_neg hne]
  exact (rfl : marginView _ = marginView (commandEffect _)).trans
    ((commandEffect_margins _ (by rw [hcmd]; exact hm)).trans hfold)

/-- C12 (amended). A freshly constructed printer with a paper size above zero has
`topMargin = 0 < bottomMargin` and `leftMargin = 0 < rightMargin`. The four margins are
left as they are by every byte that arrives while no parameter byte is outstanding and
that does not belong to one of the margin commands (`ESC l`, `ESC Q`, `ESC N`, `ESC O`,
`ESC C`, `ESC ( C`, `ESC ( c`) or to `ESC @`, by the arm of every other command, and by
every other declared command fed with its parameters to an idle parser; so the two
orderings are kept there. The arms of `ESC l`, `ESC Q` and `ESC N` store the new margin
`(n-1)/cpi`, `(n-1)/cpi`, `n*lineSpacing` without comparing it with the opposite margin. -/
theorem margins_kept_by_other_commands (raw : CPrinter) (dpi width height : Nat)
    (multipage : Bool) (s : CPrinter) (ch n : Nat) :
    (0 < width → 0 < height →
      (construct raw dpi width height multipage).topMargin = 0 ∧
      (construct raw dpi width height multipage).leftMargin = 0 ∧
      (construct raw dpi width height multipage).topMargin <
        (construct raw dpi width height multipage).bottomMargin ∧
      (construct raw dpi width height multipage).leftMargin <
        (construct raw dpi width height multipage).rightMargin) ∧
    (s.neededParam ≤ s.numParam → pendingCmd s (applyMSB s.msb ch) ∉ marginCmds →
      marginView (printChar s ch) = marginView s ∧
      (s.topMargin < s.bottomMargin → (printChar s ch).topMargin < (printChar s ch).bottomMargin) ∧
      (s.leftMargin < s.rightMargin → (printChar s ch).leftMargin < (printChar s ch).rightMargin)) ∧
    (s.ESCCmd ∉ marginCmds → marginView (commandEffect s) = marginView s) ∧
    (ParserIdle s → ∀ (intro : List Nat) (cmd k : Nat) (ps : List Nat),
      Declared intro cmd k → cmd ∉ marginCmds → ps.length = k →
      marginView (feedCommand s (intro ++ ps)) = marginView s) ∧
    (ParserIdle s →
      marginView (feedCommand s [0x1b, 0x6c, n]) =
        (s.topMargin, s.bottomMargin, ((n : Real64) - 1) / s.cpi, s.rightMargin) ∧
      marginView (feedCommand s [0x1b, 0x51, n]) =
        (s.topMargin, s.bottomMargin, s.leftMargin, ((n : Real64) - 1) / s.cpi) ∧
      marginView (feedCommand s [0x1b, 0x4e, n]) =
        (0, (n : Real64) * s.lineSpacing, s.leftMargin, s.rightMargin)) := by
  refine ⟨fun hw hh => ?_, fun _ hp => ?_, fun hm => commandEffect_margins s hm,
    fun hs intro cmd k ps hd hm hlen => declared_command_margins s hs intro cmd k hd hm ps hlen,
    fun hs => ?_⟩
  · have hm := construct_margins raw dpi width height multipage
    simp only [marginView, Prod.mk.injEq] at hm
    obtain ⟨m1, m2, m3, m4⟩ := hm
    refine ⟨m1, m3, ?_, ?_⟩
    · rw [m1, m2]
      have : (0 : Real64) < (height : Real64) := by exact_mod_cast hh
      positivity
    · rw [m3, m4]
      have : (0 : Real64) < (width : Real64) := by exact_mod_cast hw
      positivity
  · have hm := printChar_margins s ch hp
    refine ⟨hm, ?_, ?_⟩
    · simp only [marginView, Prod.mk.injEq] at hm
      obtain ⟨m1, m2, m3, m4⟩ := hm
      rw [m1, m2]
      exact id
    · simp only [marginView, Prod.mk.injEq] at hm
      obtain ⟨m1, m2, m3, m4⟩ := hm
      rw [m3, m4]
      exact id
  · refine ⟨?_, ?_, ?_⟩
    · rw [show [0x1b, 0x6c, n] = [0x1b, 0x6c] ++ [n] from rfl,
        feed_declared_eq s hs [0x1b, 0x6c] 0x6c 1 (Declared.esc 0x6c 1 (by decide) (by decide))
          [n] rfl,
        dispatched_arm _ 0x6c setLeftMargin rfl (by decide) rfl]
      have hp : ([n].foldl storeParam (armed s 0x6c 1)).params 0 = n := by
        simp [storeParam, PARAMS_SIZE, armed]
      unfold setLeftMargin
      simp only [hp]
      split_ifs <;> rfl
    · rw [show [0x1b, 0x51, n] = [0x1b, 0x51] ++ [n] from rfl,
        feed_declared_eq s hs [0x1b, 0x51] 0x51 1 (Declared.esc 0x51 1 (by decide) (by decide))
          [n] rfl,
        dispatched_arm _ 0x51 setRightMargin rfl (by decide) rfl]
      have hp : ([n].foldl storeParam (armed s 0x51 1)).params 0 = n := by
        simp [storeParam, PARAMS_SIZE, armed]
      unfold setRightMargin
      simp only [hp]
      rfl
    · rw [show [0x1b, 0x4e, n] = [0x1b, 0x4e] ++ [n] from rfl,
        feed_declared_eq s hs [0x1b, 0x4e] 0x4e 1 (Declared.esc 0x4e 1 (by decide) (by decide))
          [n] rfl,
        dispatched_arm _ 0x4e setBottomMargin rfl (by decide) rfl]
      have hp : ([n].foldl storeParam (armed s 0x4e 1)).params 0 = n := by
        simp [storeParam, PARAMS_SIZE, armed]
      unfold setBottomMargin
      simp only [hp]
      rfl

/-- C12 (as stated, refuted). On the freshly constructed sample printer `ESC l 200` sets
the left margin to 19.9 inch while the right margin stays at 2 inch, and `ESC N 0` sets
the bottom margin to 0, the value of the top margin. -/
theorem margin_commands_store_any_value :
    (feed samplePrinter [0x1b, 0x6c, 200]).leftMargin = 199 / 10 ∧
    (feed samplePrinter [0x1b, 0x6c, 200]).rightMargin = 2 ∧
    ¬ ((feed samplePrinter [0x1b, 0x6c, 200]).leftMargin <
      (feed samplePrinter [0x1b, 0x6c, 200]).rightMargin) ∧
    (feed samplePrinter [0x1b, 0x4e, 0]).topMargin = 0 ∧
    (feed samplePrinter [0x1b, 0x4e, 0]).bottomMargin = 0 ∧
    ¬ ((feed samplePrinter [0x1b, 0x4e, 0]).topMargin <
      (feed samplePrinter [0x1b, 0x4e, 0]).bottomMargin) := by
  refine ⟨by decide!, by decide!, by decide!, by decide!, by decide!, by decide!⟩

/-- Witness of C12 (amended): the sample printer is built on a paper of 2.0 by 3.0 inch;
no parameter byte is outstanding there, the letter `A` is no margin command, and `ESC J`
with its parameter is a declared command other than the margin commands. -/
theorem margins_kept_by_other_commands_witness :
    samplePrinter.neededParam ≤ samplePrinter.numParam ∧
    pendingCmd samplePrinter (applyMSB samplePrinter.msb 0x41) ∉ marginCmds ∧
    samplePrinter.topMargin < samplePrinter.bottomMargin ∧
    marginView (printChar samplePrinter 0x41) = marginView samplePrinter ∧
    ParserIdle samplePrinter ∧ Declared [0x1b, 0x4a] 0x4a 1 ∧
    marginView (feedCommand samplePrinter ([0x1b, 0x4a] ++ [5])) = marginView samplePrinter :=
  have hn : samplePrinter.neededParam ≤ samplePrinter.numParam := by decide
  have hp : pendingCmd samplePrinter (applyMSB samplePrinter.msb 0x41) ∉ marginCmds := by decide
  have hs : ParserIdle samplePrinter := ⟨by decide, by decide, by decide, by decide⟩
  have hd : Declared [0x1b, 0x4a] 0x4a 1 := Declared.esc 0x4a 1 (by decide) (by decide)
  ⟨hn, hp, ((margins_kept_by_other_commands sampleRaw 20 20 30 false samplePrinter 0x41 0).1
      (by decide) (by decide)).2.2.1,
    ((margins_kept_by_other_commands sampleRaw 20 20 30 false samplePrinter 0x41 0).2.1 hn hp).1,
    hs, hd,
    (margins_kept_by_other_commands sampleRaw 20 20 30 false samplePrinter 0x41 0).2.2.2.1 hs
      [0x1b, 0x4a] 0x4a 1 [5] hd (by decide) rfl⟩

/-! ## C13: carriage return -/

theorem cancelOneLineWidth_layout (s : CPrinter) :
    (cancelOneLineWidth s).curX = s.curX ∧ (cancelOneLineWidth s).curY = s.curY ∧
    (cancelOneLineWidth s).leftMargin = s.leftMargin ∧
    (cancelOneLineWidth s).topMargin = s.topMargin ∧
    (cancelOneLineWidth s).bottomMargin = s.bottomMargin ∧
    (cancelOneLineWidth s).lineSpacing = s.lineSpacing ∧
    (cancelOneLineWidth s).page = s.page ∧ (cancelOneLineWidth s).outputPages = s.outputPages := by
  unfold cancelOneLineWidth
  split_ifs <;> exact ⟨rfl, rfl, rfl, rfl, rfl, rfl, rfl, rfl⟩

theorem cancelOneLineWidth_curX (s : CPrinter) (x : Real64) :
    cancelOneLineWidth { s with curX := x } = { cancelOneLineWidth s with curX := x } := by
  unfold cancelOneLineWidth
  split_ifs <;> rfl

/-- C13. In every state whose parser is idle, so in every `Idle` state, CR is consumed and
sets `curX = leftMargin`. With `autoFeed` false nothing else changes (in particular
`curY`, the page and the pages handed to the encoder). With `autoFeed` true the resulting
state is the state that LF produces from the same starting state: `curY` advanced by
`lineSpacing`, or, when that is past `bottomMargin`, a new page with the old one handed to
the encoder. -/
theorem carriage_return_to_left_margin (s : CPrinter) (hs : ParserIdle s) :
    (processCommandChar s 0x0d).1 = true ∧
    (processCommandChar s 0x0d).2.curX = s.leftMargin ∧
    (s.autoFeed = false →
      (processCommandChar s 0x0d).2 = { s with curX := s.leftMargin } ∧
      (processCommandChar s 0x0d).2.curY = s.curY ∧
      (processCommandChar s 0x0d).2.page = s.page ∧
      (processCommandChar s 0x0d).2.outputPages = s.outputPages) ∧
    (s.autoFeed = true →
      (processCommandChar s 0x0d).2 = (processCommandChar s 0x0a).2 ∧
      (¬ s.curY + s.lineSpacing > s.bottomMargin →
        (processCommandChar s 0x0d).2.curY = s.curY + s.lineSpacing ∧
        (processCommandChar s 0x0d).2.page = s.page ∧
        (processCommandChar s 0x0d).2.outputPages = s.outputPages) ∧
      (s.curY + s.lineSpacing > s.bottomMargin →
        (processCommandChar s 0x0d).2.curY = s.topMargin ∧
        (processCommandChar s 0x0d).2.page = s.page.clear ∧
        (processCommandChar s 0x0d).2.outputPages = s.outputPages ++ [s.page])) := by
  rw [processCommandChar_idle s hs, processCommandChar_idle s hs]
  have hcr : controlStage s 0x0d = (true, carriageReturn s) := by simp [controlStage]
  have hlf : controlStage s 0x0a = (true, lineFeed s) := by simp [controlStage]
  rw [hcr, hlf]
  obtain ⟨l1, l2, l3, l4, l5, l6, l7, l8⟩ := cancelOneLineWidth_layout s
  have hLF : lineFeed { s with curX := s.leftMargin } = lineFeed s := by
    unfold lineFeed
    rw [cancelOneLineWidth_curX]
  by_cases ha : s.autoFeed = false
  · have e : carriageReturn s = { s with curX := s.leftMargin } := by
      simp [carriageReturn, ha]
    refine ⟨rfl, by rw [e], fun _ => ⟨e, by rw [e], by rw [e], by rw [e]⟩, fun h => ?_⟩
    rw [ha] at h
    exact absurd h (by decide)
  · have e : carriageReturn s = lineFeed s := by
      unfold carriageReturn
      simp only []
      rw [if_neg ha, hLF]
    refine ⟨rfl, ?_, fun h => absurd h ha, fun _ => ⟨by rw [e], ?_, ?_⟩⟩
    · show (carriageReturn s).curX = s.leftMargin
      rw [e]
      unfold lineFeed
      simp only []
      split_ifs <;> simp [newPage, outputPage, l3]
    · intro hb
      show (carriageReturn s).curY = _ ∧ (carriageReturn s).page = _ ∧
        (carriageReturn s).outputPages = _
      rw [e]
      unfold lineFeed
      simp only [l2, l6, l5]
      rw [if_neg hb]
      exact ⟨by simp [l2, l6], l7, l8⟩
    · intro hb
      show (carriageReturn s).curY = _ ∧ (carriageReturn s).page = _ ∧
        (carriageReturn s).outputPages = _
      rw [e]
      unfold lineFeed
      simp only [l2, l6, l5]
      rw [if_pos hb]
      simp [newPage, outputPage, l4, l7, l8]

/-- Witness of C13: the sample printer with `autoFeed` switched on by the host is idle, and
CR leaves it in the state that LF leaves it in. -/
theorem carriage_return_to_left_margin_witness :
    Idle { samplePrinter with autoFeed := true } ∧
    (processCommandChar { samplePrinter with autoFeed := true } 0x0d).2 =
      (processCommandChar { samplePrinter with autoFeed := true } 0x0a).2 :=
  have hs : Idle { samplePrinter with autoFeed := true } :=
    ⟨⟨by decide, by decide, by decide, by decide⟩, by decide, by decide⟩
  ⟨hs, ((carriage_return_to_left_margin { samplePrinter with autoFeed := true } hs.1).2.2.2 rfl).1⟩

/-! ## C14: vertical motion and the bottom margin -/

theorem movedTo_below (s t : CPrinter) (pos : Real64) (h : MovedTo s t pos)
    (hm : s.topMargin ≤ s.bottomMargin) : t.curY ≤ t.bottomMargin := by
  obtain ⟨-, h2, h3, h4⟩ := h
  rw [h2]
  by_cases hp : pos > s.bottomMargin
  · rw [(h3 hp).1]
    exact hm
  · rw [(h4 hp).1]
    exact not_lt.1 hp

theorem lineFeed_movedTo (s : CPrinter) : MovedTo s (lineFeed s) (s.curY + s.lineSpacing) := by
  unfold lineFeed MovedTo
  rcases cancelOneLineWidth_cases s with hc | hc <;> rw [hc] <;> simp only [] <;>
    refine ⟨?_, ?_, fun h => ?_, fun h => ?_⟩
  all_goals first
    | (split_ifs <;> rfl)
    | (rw [if_pos (by exact h)]; exact ⟨rfl, rfl, rfl⟩)
    | (rw [if_neg (by exact h)]; exact ⟨rfl, rfl, rfl⟩)

theorem advanceVert_movedTo (w : CPrinter) :
    MovedTo w (advanceVert w) (w.curY + (w.params 0 : Real64) / 180) := by
  unfold advanceVert MovedTo
  simp only []
  refine ⟨?_, ?_, fun h => ?_, fun h => ?_⟩
  · split_ifs <;> rfl
  · split_ifs <;> rfl
  · rw [if_pos (by exact h)]; exact ⟨rfl, rfl, rfl⟩
  · rw [if_neg (by exact h)]; exact ⟨rfl, rfl, rfl⟩

theorem setAbsVertPos_movedTo (w : CPrinter) :
    MovedTo w (setAbsVertPos w) (w.topMargin + (PARAM16 w.params 2 : Real64) * vertUnit w) := by
  unfold setAbsVertPos MovedTo vertUnit
  simp only []
  refine ⟨?_, ?_, fun h => ?_, fun h => ?_⟩
  · split_ifs <;> rfl
  · split_ifs <;> rfl
  · rw [if_pos (by exact h)]; exact ⟨rfl, rfl, rfl⟩
  · rw [if_neg (by exact h)]; exact ⟨rfl, rfl, rfl⟩

theorem setRelVertPos_movedTo (w : CPrinter)
    (h : w.curY + (toInt16 (PARAM16 w.params 2) : Real64) * vertUnit w > w.topMargin) :
    MovedTo w (setRelVertPos w)
      (w.curY + (toInt16 (PARAM16 w.params 2) : Real64) * vertUnit w) := by
  unfold vertUnit at h
  unfold setRelVertPos MovedTo vertUnit
  simp only []
  rw [if_pos (by exact h)]
  refine ⟨?_, ?_, fun h => ?_, fun h => ?_⟩
  · split_ifs <;> rfl
  · split_ifs <;> rfl
  · rw [if_pos (by exact h)]; exact ⟨rfl, rfl, rfl⟩
  · rw [if_neg (by exact h)]; exact ⟨rfl, rfl, rfl⟩

theorem setRelVertPos_ignored (w : CPrinter)
    (h : ¬ w.curY + (toInt16 (PARAM16 w.params 2) : Real64) * vertUnit w > w.topMargin) :
    setRelVertPos w = w := by
  unfold vertUnit at h
  unfold setRelVertPos
  simp only []
  rw [if_neg (by exact h)]

/-- Moving the dispatch frame: the result of a move from the collected state `w` is the
result of a move from the state `s` before the command whenever `w` differs from `s` in
parser members only; the dispatch then clears `ESCCmd`. -/
theorem movedTo_transfer (s w t : CPrinter) (pos : Real64) (h : MovedTo w t pos)
    (e1 : w.topMargin = s.topMargin) (e2 : w.bottomMargin = s.bottomMargin)
    (e3 : w.outputPages = s.outputPages) (e4 : w.page = s.page) :
    MovedTo s { t with ESCCmd := 0 } pos := by
  obtain ⟨h1, h2, h3, h4⟩ := h
  rw [e1, e2, e3, e4] at *
  exact ⟨h1, h2, h3, h4⟩

theorem storeParam_four (t : CPrinter) (c1 c2 n1 n2 : Nat) (h0 : t.numParam = 0) :
    PARAM16 ([c1, c2, n1, n2].foldl storeParam t).params 2 = n2 * 256 + n1 := by
  simp [storeParam, PARAMS_SIZE, PARAM16, h0]

theorem collected_vertView (s : CPrinter) (cmd n : Nat) (ps : List Nat) :
    vertView (ps.foldl storeParam (armed s cmd n)) = vertView s :=
  (foldl_state_proj vertView storeParam (fun t b => (storeParam_views t b).2.2.1) ps
    (armed s cmd n)).trans rfl

theorem vertUnit_congr (w s : CPrinter) (h : w.definedUnit = s.definedUnit) :
    vertUnit w = vertUnit s := by
  unfold vertUnit
  rw [h]

theorem movedTo_collected (s w t : CPrinter) (pos : Real64 → Real64 → Real64 → Real64)
    (hv : vertView w = vertView s)
    (h : MovedTo w t (pos w.topMargin w.curY (vertUnit w))) :
    MovedTo s { t with ESCCmd := 0 } (pos s.topMargin s.curY (vertUnit s)) := by
  have e1 : w.topMargin = s.topMargin := congrArg (fun v => v.1) hv
  have e2 : w.bottomMargin = s.bottomMargin := congrArg (fun v => v.2.1) hv
  have e3 : w.curY = s.curY := congrArg (fun v => v.2.2.1) hv
  have e4 : w.definedUnit = s.definedUnit := congrArg (fun v => v.2.2.2.1) hv
  have e5 : w.outputPages = s.outputPages := congrArg (fun v => v.2.2.2.2.1) hv
  have e6 : w.page = s.page := congrArg (fun v => v.2.2.2.2.2) hv
  rw [vertUnit_congr w s e4, e1, e3] at h
  exact movedTo_transfer s w t _ h e1 e2 e5 e6

/-- C14 (amended). For every state with an idle parser and `topMargin ≤ bottomMargin`: LF,
`ESC J n` and `ESC ( V` move to the advanced position (`curY + lineSpacing`,
`curY + n/180`, `topMargin + n*unit`), and `ESC ( v` does so when its advanced position
`curY + n*unit` is greater than `topMargin`: past `bottomMargin` the page is handed to the
encoder and cleared and `curY = topMargin`, otherwise `curY` is the advanced position; in
all these cases `curY ≤ bottomMargin` afterwards. When the advanced position of `ESC ( v`
is not greater than `topMargin` the command is ignored: cursor, margins and page stay. -/
theorem vertical_motion_below_bottom_margin (s : CPrinter) (hs : ParserIdle s)
    (hm : s.topMargin ≤ s.bottomMargin) (n c1 c2 n1 n2 : Nat) :
    (MovedTo s (processCommandChar s 0x0a).2 (s.curY + s.lineSpacing) ∧
      (processCommandChar s 0x0a).2.curY ≤ (processCommandChar s 0x0a).2.bottomMargin) ∧
    (MovedTo s (feedCommand s [0x1b, 0x4a, n]) (s.curY + (n : Real64) / 180) ∧
      (feedCommand s [0x1b, 0x4a, n]).curY ≤ (feedCommand s [0x1b, 0x4a, n]).bottomMargin) ∧
    (MovedTo s (feedCommand s [0x1b, 0x28, 0x56, c1, c2, n1, n2])
        (s.topMargin + ((n2 * 256 + n1 : Nat) : Real64) * vertUnit s) ∧
      (feedCommand s [0x1b, 0x28, 0x56, c1, c2, n1, n2]).curY ≤
        (feedCommand s [0x1b, 0x28, 0x56, c1, c2, n1, n2]).bottomMargin) ∧
    (s.curY + (toInt16 (n2 * 256 + n1) : Real64) * vertUnit s > s.topMargin →
      MovedTo s (feedCommand s [0x1b, 0x28, 0x76, c1, c2, n1, n2])
        (s.curY + (toInt16 (n2 * 256 + n1) : Real64) * vertUnit s) ∧
      (feedCommand s [0x1b, 0x28, 0x76, c1, c2, n1, n2]).curY ≤
        (feedCommand s [0x1b, 0x28, 0x76, c1, c2, n1, n2]).bottomMargin) ∧
    (¬ s.curY + (toInt16 (n2 * 256 + n1) : Real64) * vertUnit s > s.topMargin →
      (feedCommand s [0x1b, 0x28, 0x76, c1, c2, n1, n2]).curY = s.curY ∧
      (feedCommand s [0x1b, 0x28, 0x76, c1, c2, n1, n2]).bottomMargin = s.bottomMargin ∧
      (feedCommand s [0x1b, 0x28, 0x76, c1, c2, n1, n2]).outputPages = s.outputPages ∧
      (feedCommand s [0x1b, 0x28, 0x76, c1, c2, n1, n2]).page = s.page) := by
  have hLF : MovedTo s (processCommandChar s 0x0a).2 (s.curY + s.lineSpacing) := by
    rw [processCommandChar_idle s hs]
    have : controlStage s 0x0a = (true, lineFeed s) := by simp [controlStage]
    rw [this]
    exact lineFeed_movedTo s
  have eJ : feedCommand s [0x1b, 0x4a, n] =
      { advanceVert ([n].foldl storeParam (armed s 0x4a 1)) with ESCCmd := 0 } := by
    rw [show [0x1b, 0x4a, n] = [0x1b, 0x4a] ++ [n] from rfl,
      feed_declared_eq s hs [0x1b, 0x4a] 0x4a 1 (Declared.esc 0x4a 1 (by decide) (by decide)) [n] rfl]
    exact dispatched_arm _ 0x4a advanceVert rfl (by decide) rfl
  have hJ : MovedTo s (feedCommand s [0x1b, 0x4a, n]) (s.curY + (n : Real64) / 180) := by
    rw [eJ]
    have := advanceVert_movedTo ([n].foldl storeParam (armed s 0x4a 1))
    rw [show ([n].foldl storeParam (armed s 0x4a 1)).params 0 = n from by simp [storeParam, PARAMS_SIZE, armed]]
      at this
    exact movedTo_collected s _ _ (fun _ y _ => y + (n : Real64) / 180)
      (collected_vertView s 0x4a 1 [n]) this
  have hd : Declared [0x1b, 0x28, 0x56] (0x200 + 0x56) 4 :=
    Declared.esc2 0x56 4 (by decide) (by decide)
  have eV : feedCommand s [0x1b, 0x28, 0x56, c1, c2, n1, n2] =
      { setAbsVertPos ([c1, c2, n1, n2].foldl storeParam (armed s 0x256 4)) with ESCCmd := 0 } := by
    rw [show [0x1b, 0x28, 0x56, c1, c2, n1, n2] = [0x1b, 0x28, 0x56] ++ [c1, c2, n1, n2] from rfl,
      feed_declared_eq s hs [0x1b, 0x28, 0x56] (0x200 + 0x56) 4 hd [c1, c2, n1, n2] rfl]
    exact dispatched_arm _ 0x256 setAbsVertPos rfl (by decide) rfl
  have hV : MovedTo s (feedCommand s [0x1b, 0x28, 0x56, c1, c2, n1, n2])
      (s.topMargin + ((n2 * 256 + n1 : Nat) : Real64) * vertUnit s) := by
    rw [eV]
    have := setAbsVertPos_movedTo ([c1, c2, n1, n2].foldl storeParam (armed s 0x256 4))
    rw [storeParam_four _ c1 c2 n1 n2 rfl] at this
    exact movedTo_collected s _ _ (fun t _ u => t + ((n2 * 256 + n1 : Nat) : Real64) * u)
      (collected_vertView s 0x256 4 [c1, c2, n1, n2]) this
  have hd2 : Declared [0x1b, 0x28, 0x76] (0x200 + 0x76) 4 :=
    Declared.esc2 0x76 4 (by decide) (by decide)
  have ev : feedCommand s [0x1b, 0x28, 0x76, c1, c2, n1, n2] =
      { setRelVertPos ([c1, c2, n1, n2].foldl storeParam (armed s 0x276 4)) with ESCCmd := 0 } := by
    rw [show [0x1b, 0x28, 0x76, c1, c2, n1, n2] = [0x1b, 0x28, 0x76] ++ [c1, c2, n1, n2] from rfl,
      feed_declared_eq s hs [0x1b, 0x28, 0x76] (0x200 + 0x76) 4 hd2 [c1, c2, n1, n2] rfl]
    exact dispatched_arm _ 0x276 setRelVertPos rfl (by decide) rfl
  refine ⟨⟨hLF, movedTo_below _ _ _ hLF hm⟩, ⟨hJ, movedTo_below _ _ _ hJ hm⟩,
    ⟨hV, movedTo_below _ _ _ hV hm⟩, fun h => ?_, fun h => ?_⟩
  · have hv : MovedTo s (feedCommand s [0x1b, 0x28, 0x76, c1, c2, n1, n2])
        (s.curY + (toInt16 (n2 * 256 + n1) : Real64) * vertUnit s) := by
      rw [ev]
      have := setRelVertPos_movedTo ([c1, c2, n1, n2].foldl storeParam (armed s 0x276 4))
      rw [storeParam_four _ c1 c2 n1 n2 rfl] at this
      have hv := collected_vertView s 0x276 4 [c1, c2, n1, n2]
      have e3 : ([c1, c2, n1, n2].foldl storeParam (armed s 0x276 4)).curY = s.curY :=
        congrArg (fun v => v.2.2.1) hv
      have e1 : ([c1, c2, n1, n2].foldl storeParam (armed s 0x276 4)).topMargin = s.topMargin :=
        congrArg (fun v => v.1) hv
      have e4 := vertUnit_congr _ s (congrArg (fun v => v.2.2.2.1) hv)
      exact movedTo_collected s _ _ (fun _ y u => y + (toInt16 (n2 * 256 + n1) : Real64) * u)
        hv (this (by rw [e3, e1, e4]; exact h))
    exact ⟨hv, movedTo_below _ _ _ hv hm⟩
  · have := setRelVertPos_ignored ([c1, c2, n1, n2].foldl storeParam (armed s 0x276 4))
    rw [storeParam_four _ c1 c2 n1 n2 rfl] at this
    have hv := collected_vertView s 0x276 4 [c1, c2, n1, n2]
    have e3 : ([c1, c2, n1, n2].foldl storeParam (armed s 0x276 4)).curY = s.curY :=
      congrArg (fun v => v.2.2.1) hv
    have e1 : ([c1, c2, n1, n2].foldl storeParam (armed s 0x276 4)).topMargin = s.topMargin :=
      congrArg (fun v => v.1) hv
    have e4 := vertUnit_congr _ s (congrArg (fun v => v.2.2.2.1) hv)
    rw [ev, this (by rw [e3, e1, e4]; exact h)]
    exact ⟨e3, congrArg (fun v => v.2.1) hv, congrArg (fun v => v.2.2.2.2.1) hv,
      congrArg (fun v => v.2.2.2.2.2) hv⟩

/-- C14 (as stated, refuted). After LF, LF and `ESC N 1` the sample printer has
`topMargin = 0 ≤ bottomMargin = 1/6` and `curY = 1/3`; the unit is 360. `ESC ( v` with the
argument -1 has the advanced position `1/3 - 360`, which does not exceed `bottomMargin`:
the command is ignored, `curY` is still `1/3`, neither the advanced position nor at most
`bottomMargin`, and no page was handed to the encoder. -/
theorem relative_move_above_top_is_ignored :
    (feed samplePrinter [0x0a, 0x0a, 0x1b, 0x4e, 1]).topMargin = 0 ∧
    (feed samplePrinter [0x0a, 0x0a, 0x1b, 0x4e, 1]).bottomMargin = 1 / 6 ∧
    (feed samplePrinter [0x0a, 0x0a, 0x1b, 0x4e, 1]).curY = 1 / 3 ∧
    vertUnit (feed samplePrinter [0x0a, 0x0a, 0x1b, 0x4e, 1]) = 360 ∧
    toInt16 (0xff * 256 + 0xff) = -1 ∧
    (feed samplePrinter [0x0a, 0x0a, 0x1b, 0x4e, 1, 0x1b, 0x28, 0x76, 2, 0, 0xff, 0xff]).curY = 1 / 3 ∧
    (feed samplePrinter [0x0a, 0x0a, 0x1b, 0x4e, 1, 0x1b, 0x28, 0x76, 2, 0, 0xff, 0xff]).bottomMargin
      = 1 / 6 ∧
    ¬ ((feed samplePrinter [0x0a, 0x0a, 0x1b, 0x4e, 1, 0x1b, 0x28, 0x76, 2, 0, 0xff, 0xff]).curY ≤
      (feed samplePrinter [0x0a, 0x0a, 0x1b, 0x4e, 1, 0x1b, 0x28, 0x76, 2, 0, 0xff, 0xff]).bottomMargin) ∧
    (feed samplePrinter [0x0a, 0x0a, 0x1b, 0x4e, 1, 0x1b, 0x28, 0x76, 2, 0, 0xff, 0xff]).curY ≠
      (feed samplePrinter [0x0a, 0x0a, 0x1b, 0x4e, 1]).curY + ((-1 : Int) : Real64) * 360 ∧
    (feed samplePrinter [0x0a, 0x0a, 0x1b, 0x4e, 1, 0x1b, 0x28, 0x76, 2, 0, 0xff, 0xff]).outputPages.length
      = 0 := by
  refine ⟨by decide!, by decide!, by decide!, by decide!, by decide, by decide!, by decide!,
    by decide!, by decide!, by decide!⟩

/-- Witness of C14 (amended): `ESC J 90` on the sample printer moves half an inch down. -/
theorem vertical_motion_below_bottom_margin_witness :
    ParserIdle samplePrinter ∧ samplePrinter.topMargin ≤ samplePrinter.bottomMargin ∧
    (feedCommand samplePrinter [0x1b, 0x4a, 90]).curY ≤
      (feedCommand samplePrinter [0x1b, 0x4a, 90]).bottomMargin :=
  have hs : ParserIdle samplePrinter := ⟨by decide, by decide, by decide, by decide⟩
  have hm : samplePrinter.topMargin ≤ samplePrinter.bottomMargin := by decide!
  ⟨hs, hm, (vertical_motion_below_bottom_margin samplePrinter hs hm 90 0 0 0 0).2.1.2⟩

/-! ## C15: page ejection and blank pages -/

theorem formFeedCode_output (s : CPrinter) :
    (formFeedCode s).outputPages = s.outputPages ++ [s.page] ∧
    (formFeedCode s).page = s.page.clear := by
  unfold formFeedCode
  rcases cancelOneLineWidth_cases s with h | h <;> rw [h] <;>
    exact ⟨(newPage_save_fields _ true).2.2, (newPage_save_fields _ true).2.1⟩

/-- C15 (amended). FF and `ESC EM R` hand the current page to the output encoder exactly
once, before it is cleared, whether the page is blank or not: both call
`newPage(true, ...)`. The blank test is made by the host-side eject `formFeed()` alone: it
clears a blank page without output, and hands a page that is not blank to the encoder
exactly once before clearing it. -/
theorem page_ejection_outputs_once (s : CPrinter) (hs : ParserIdle s) :
    ((processCommandChar s 0x0c).2.outputPages = s.outputPages ++ [s.page] ∧
      (processCommandChar s 0x0c).2.page = s.page.clear) ∧
    ((feedCommand s [0x1b, 0x19, 0x52]).outputPages = s.outputPages ++ [s.page] ∧
      (feedCommand s [0x1b, 0x19, 0x52]).page = s.page.clear) ∧
    (isBlank s = true →
      (formFeed s).outputPages = s.outputPages ∧ (formFeed s).page = s.page.clear) ∧
    (isBlank s = false →
      (formFeed s).outputPages = s.outputPages ++ [s.page] ∧
      (formFeed s).page = s.page.clear) := by
  refine ⟨?_, ?_, fun h => ?_, fun h => ?_⟩
  · rw [processCommandChar_idle s hs]
    have : controlStage s 0x0c = (true, formFeedCode s) := by simp [controlStage]
    rw [this]
    exact formFeedCode_output s
  · rw [show [0x1b, 0x19, 0x52] = [0x1b, 0x19] ++ [0x52] from rfl,
      feed_declared_eq s hs [0x1b, 0x19] 0x19 1 (Declared.esc 0x19 1 (by decide) (by decide))
        [0x52] rfl,
      dispatched_arm _ 0x19 controlPaper rfl (by decide) rfl]
    have hp : ([0x52].foldl storeParam (armed s 0x19 1)).params 0 = 0x52 := by
      simp [storeParam, PARAMS_SIZE, armed]
    unfold controlPaper
    rw [if_pos hp]
    exact ⟨rfl, rfl⟩
  · unfold formFeed
    rw [h]
    exact ⟨(newPage_discard_fields s true).2.2, (newPage_discard_fields s true).2.1⟩
  · unfold formFeed
    rw [h]
    exact ⟨(newPage_save_fields s true).2.2, (newPage_save_fields s true).2.1⟩

/-- C15 (as stated, refuted). The page of the freshly constructed sample printer is blank
and no page has been output; after FF, and likewise after `ESC EM R`, one page has been
handed to the encoder. -/
theorem blank_page_is_output_by_form_feed :
    isBlank samplePrinter = true ∧ samplePrinter.outputPages.length = 0 ∧
    (processCommandChar samplePrinter 0x0c).1 = true ∧
    (processCommandChar samplePrinter 0x0c).2.outputPages.length = 1 ∧
    (feed samplePrinter [0x0c]).outputPages.length = 1 ∧
    (feed samplePrinter [0x1b, 0x19, 0x52]).outputPages.length = 1 := by
  refine ⟨by decide!, by decide!, by decide!, by decide!, by decide!, by decide!⟩

/-- Witness of C15 (amended): FF on the sample printer. -/
theorem page_ejection_outputs_once_witness :
    ParserIdle samplePrinter ∧
    (processCommandChar samplePrinter 0x0c).2.outputPages =
      samplePrinter.outputPages ++ [samplePrinter.page] :=
  have hs : ParserIdle samplePrinter := ⟨by decide, by decide, by decide, by decide⟩
  ⟨hs, (page_ejection_outputs_once samplePrinter hs).1.1⟩

/-! ## C16: the multipage PostScript document -/

theorem outputPagePs_open (s : CPrinter) (o : PsOutput) (file : List PsItem)
    (hm : s.multipageOutput = true) (ho : o.outputHandle = some file) :
    (outputPagePs s o).outputHandle = some (file ++ psPage s o.multiPageCounter) ∧
    (outputPagePs s o).multiPageCounter = o.multiPageCounter + 1 ∧
    (outputPagePs s o).files = o.files := by
  unfold outputPagePs
  rw [ho]
  simp only []
  rw [if_pos hm]
  exact ⟨rfl, rfl, rfl⟩

theorem outputPagePs_new (s : CPrinter) (o : PsOutput) (hm : s.multipageOutput = true)
    (ho : o.outputHandle = none) :
    (outputPagePs s o).outputHandle = some (psHeader s ++ psPage s 1) ∧
    (outputPagePs s o).multiPageCounter = 2 ∧ (outputPagePs s o).files = o.files := by
  unfold outputPagePs
  rw [ho]
  simp only []
  rw [if_pos hm]
  exact ⟨rfl, rfl, rfl⟩

/-- After `n ≥ 1` pages in multipage mode the document is open and `multiPageCounter` is
`n + 1`: the number of the page that would come next. -/
theorem psDocument_counter : ∀ (pages : List CPrinter) (s : CPrinter) (o : PsOutput),
    (∀ t ∈ s :: pages, t.multipageOutput = true) → o.outputHandle = none →
    (psDocument (s :: pages) o).multiPageCounter = pages.length + 2 ∧
    (psDocument (s :: pages) o).outputHandle ≠ none ∧
    (psDocument (s :: pages) o).files = o.files := by
  intro pages
  induction pages using List.reverseRecOn with
  | nil =>
    intro s o hm ho
    obtain ⟨a1, a2, a3⟩ := outputPagePs_new s o (hm s (List.mem_cons_self s [])) ho
    refine ⟨a2, ?_, a3⟩
    show (outputPagePs s o).outputHandle ≠ none
    rw [a1]
    exact Option.some_ne_none _
  | append_singleton pages t ih =>
    intro s o hm ho
    obtain ⟨b1, b2, b3⟩ := ih s o (fun x hx => hm x (by
      rcases List.mem_cons.1 hx with h | h
      · exact List.mem_cons.2 (Or.inl h)
      · exact List.mem_cons.2 (Or.inr (List.mem_append_left _ h)))) ho
    have ht : t.multipageOutput = true :=
      hm t (List.mem_cons.2 (Or.inr (List.mem_append_right _ (List.mem_singleton_self t))))
    have hstep : psDocument (s :: (pages ++ [t])) o =
        outputPagePs t (psDocument (s :: pages) o) := by
      unfold psDocument
      rw [← List.cons_append, List.foldl_append]
      rfl
    obtain ⟨file, hfile⟩ := Option.ne_none_iff_exists'.1 b2
    obtain ⟨c1, c2, c3⟩ := outputPagePs_open t _ file ht hfile
    rw [hstep]
    refine ⟨?_, ?_, c3.trans b3⟩
    · rw [c2, b1, List.length_append, List.length_singleton]
    · rw [c1]
      exact Option.some_ne_none _

/-- C16 (code at the failing input). Two pages of the sample printer are output in
multipage mode: the open document holds the header with `%%Pages: (atend)` and the two
sections `%%Page: 1 1` and `%%Page: 2 2`, no trailer, and no file is closed. The trailer
that `finishMultipage` then writes is `%%Pages: 3`: it prints `multiPageCounter`, which
is the number of the next page. -/
theorem multipage_trailer_counts_one_more :
    psPrinter.multipageOutput = true ∧
    (psDocument [psPrinter, psPrinter] psStart).files.length = 0 ∧
    (psDocument [psPrinter, psPrinter] psStart).multiPageCounter = 3 ∧
    psLines ((psDocument [psPrinter, psPrinter] psStart).outputHandle.getD []) =
      ["%!PS-Adobe-3.0", "%%Pages: (atend)", "%%BoundingBox: 0 0 14 14",
       "%%Creator: DOSBOX Virtual Printer", "%%DocumentData: Clean7Bit", "%%LanguageLevel: 2",
       "%%EndComments",
       "%%Page: 1 1", "14 14 scale", "2 2 8 [2 0 0 -2 0 2]", "currentfile",
       "/ASCII85Decode filter", "/RunLengthDecode filter", "image", "showpage",
       "%%Page: 2 2", "14 14 scale", "2 2 8 [2 0 0 -2 0 2]", "currentfile",
       "/ASCII85Decode filter", "/RunLengthDecode filter", "image", "showpage"] ∧
    (finishMultipage (psDocument [psPrinter, psPrinter] psStart)).outputHandle.isNone = true ∧
    (finishMultipage (psDocument [psPrinter, psPrinter] psStart)).files.map psLines =
      [["%!PS-Adobe-3.0", "%%Pages: (atend)", "%%BoundingBox: 0 0 14 14",
        "%%Creator: DOSBOX Virtual Printer", "%%DocumentData: Clean7Bit", "%%LanguageLevel: 2",
        "%%EndComments",
        "%%Page: 1 1", "14 14 scale", "2 2 8 [2 0 0 -2 0 2]", "currentfile",
        "/ASCII85Decode filter", "/RunLengthDecode filter", "image", "showpage",
        "%%Page: 2 2", "14 14 scale", "2 2 8 [2 0 0 -2 0 2]", "currentfile",
        "/ASCII85Decode filter", "/RunLengthDecode filter", "image", "showpage",
        "%%Pages: 3", "%%EOF"]] := by
  refine ⟨by decide!, by decide!, by decide!, by decide!, by decide!, by decide!⟩

/-! ## C17: decoding the run-length stream -/

/-- The roundtrip of C17 away from the raster of one pixel. For every page raster of less
than 2^31 pixels (the range of the `int` product `page->h * page->w`) that does not
consist of a single pixel, decoding the run-length stream that `outputPage` emits for
PostScript yields exactly the sequence `255 - getPixel(i)` for `i = 0 .. width*height-1`,
in order, nothing missing and nothing extra. -/
theorem rle_stream_decodes_to_page (pg : Page) (h1 : pg.w * pg.h ≠ 1)
    (h2 : pg.w * pg.h < 2147483648) :
    rleDecode (rleStream pg).length (rleStream pg) =
      some ((List.range (pg.w * pg.h)).map fun i => 255 - getPixel pg i) := by
  have hn := numPixels_eq pg h2
  by_cases h0 : pg.w * pg.h = 0
  · rw [rleDecode_empty pg (by rw [hn]; exact h0), h0]
    rfl
  · have hv := rleChunks_valid pg (numPixels pg) (numPixels pg) 0
    have hc := rleChunks_cover pg (numPixels pg) (by rw [hn]; omega) (by rw [hn]; omega)
      (numPixels pg) 0 (Nat.zero_le _) (by omega)
    have hl := encode_length_le (rleChunks pg (numPixels pg) (numPixels pg) 0)
    rw [rleStream_chunks,
      rleDecode_chunks _ _ hv (by rw [List.length_append, List.length_singleton]; omega) [], hc,
      hn, Nat.sub_zero]
    unfold invPixels
    rw [List.range_eq_range']

/-- C17 (code at the failing input). A printer constructed with 10 dpi on a paper of 0.1
by 0.1 inch has a page of one pixel. There the `uint32_t` difference `numpix-2` wraps
around to 4294967295, so the test `pix < numpix-2` passes and the encoder compares the
pixel with the two bytes that follow it in memory; these being equal, it emits a repeat
chunk of three: the stream `254 255 128` decodes to three bytes, not to the one inverted
pixel. -/
theorem one_pixel_raster_decodes_to_three :
    (construct sampleRaw 10 1 1 true).page.w = 1 ∧ (construct sampleRaw 10 1 1 true).page.h = 1 ∧
    rleStream (construct sampleRaw 10 1 1 true).page = [254, 255, 128] ∧
    onePixelPage.w * onePixelPage.h = 1 ∧ sub32 (numPixels onePixelPage) 2 = 4294967295 ∧
    rleStream onePixelPage = [254, 255, 128] ∧
    rleDecode (rleStream onePixelPage).length (rleStream onePixelPage) = some [255, 255, 255] ∧
    ((List.range (onePixelPage.w * onePixelPage.h)).map fun i => 255 - getPixel onePixelPage i) =
      [255] ∧
    rleDecode (rleStream onePixelPage).length (rleStream onePixelPage) ≠
      some ((List.range (onePixelPage.w * onePixelPage.h)).map
        fun i => 255 - getPixel onePixelPage i) := by
  refine ⟨by decide!, by decide!, by decide!, by decide, by decide, by decide, by decide,
    by decide, by decide⟩

/-- The roundtrip at a concrete raster: the blank page of 2 by 2 pixels of the sample printer; its
stream `253 255 128` decodes to four white bytes. -/
theorem rle_stream_decodes_to_page_witness :
    psPrinter.page.w * psPrinter.page.h ≠ 1 ∧ psPrinter.page.w * psPrinter.page.h < 2147483648 ∧
    rleStream psPrinter.page = [253, 255, 128] ∧
    rleDecode (rleStream psPrinter.page).length (rleStream psPrinter.page) =
      some ((List.range (psPrinter.page.w * psPrinter.page.h)).map
        fun i => 255 - getPixel psPrinter.page i) :=
  have h1 : psPrinter.page.w * psPrinter.page.h ≠ 1 := by decide!
  have h2 : psPrinter.page.w * psPrinter.page.h < 2147483648 := by decide!
  ⟨h1, h2, by decide!, rle_stream_decodes_to_page psPrinter.page h1 h2⟩

/-! ## C18: the chunks of the run-length stream -/

/-- C18. For every page raster the stream that the run-length encoder emits is a sequence
of chunks followed by the end-of-data marker 128. Every chunk is a repeat chunk of 3 to
128 pixels with the length byte `257 - count` in 129..254, or a literal chunk of 1 to 128
pixels with the length byte `count - 1` in 0..127, so no chunk has the length byte 128.
The chunks stand one after the other for the pixels from number 0 on (the pixels of a
repeat chunk are identical), they cover the `numpix` pixels of the raster, and as none
covers more than 128 pixels a longer run is split: there are at least `numpix / 128`
chunks. -/
theorem rle_chunks_within_bounds (pg : Page) :
    rleStream pg =
      (rleChunks pg (numPixels pg) (numPixels pg) 0).flatMap Chunk.encode ++ [128] ∧
    (∀ c ∈ rleChunks pg (numPixels pg) (numPixels pg) 0,
      c.Valid ∧ c.encode.head? = some c.lengthByte ∧ c.lengthByte ≠ 128 ∧
      (∀ count v, c = Chunk.rep count v →
        c.lengthByte = 257 - count ∧ 129 ≤ c.lengthByte ∧ c.lengthByte ≤ 254 ∧
        c.expand = List.replicate count v) ∧
      (∀ bs, c = Chunk.lit bs → c.lengthByte = bs.length - 1 ∧ c.lengthByte ≤ 127)) ∧
    Covers pg 0 (rleChunks pg (numPixels pg) (numPixels pg) 0) ∧
    numPixels pg ≤ coveredPixels (rleChunks pg (numPixels pg) (numPixels pg) 0) ∧
    numPixels pg ≤ 128 * (rleChunks pg (numPixels pg) (numPixels pg) 0).length := by
  have hv := rleChunks_valid pg (numPixels pg) (numPixels pg) 0
  have ht := rleChunks_total pg (numPixels pg) (numPixels pg) 0 (by omega)
  have hle := coveredPixels_le _ hv
  refine ⟨rleStream_chunks pg, fun c hc => ?_, rleChunks_covers pg _ _ 0, by omega, by omega⟩
  have hvc := hv c hc
  cases c with
  | rep count v =>
    obtain ⟨v1, v2⟩ := hvc
    refine ⟨⟨v1, v2⟩, rfl, ?_, ?_, ?_⟩
    · show 257 - count ≠ 128
      omega
    · intro count' v' he
      cases he
      refine ⟨rfl, ?_, ?_, rfl⟩
      · show 129 ≤ 257 - count
        omega
      · show 257 - count ≤ 254
        omega
    · intro bs he
      cases he
  | lit bs =>
    obtain ⟨v1, v2⟩ := hvc
    refine ⟨⟨v1, v2⟩, rfl, ?_, ?_, ?_⟩
    · show bs.length - 1 ≠ 128
      omega
    · intro count' v' he
      cases he
    · intro bs' he
      cases he
      refine ⟨rfl, ?_⟩
      show bs.length - 1 ≤ 127
      omega

/-- Witness of C18: the blank page of 2 by 2 pixels of the sample printer is encoded as
one repeat chunk of four pixels, `253 255`, and the marker 128. -/
theorem rle_chunks_within_bounds_witness :
    rleStream psPrinter.page = [253, 255, 128] ∧
    (rleChunks psPrinter.page (numPixels psPrinter.page) (numPixels psPrinter.page) 0).length
      = 1 ∧
    rleStream psPrinter.page =
      (rleChunks psPrinter.page (numPixels psPrinter.page) (numPixels psPrinter.page) 0).flatMap
        Chunk.encode ++ [128] ∧
    Covers psPrinter.page 0
      (rleChunks psPrinter.page (numPixels psPrinter.page) (numPixels psPrinter.page) 0) :=
  ⟨by decide!, by decide!, (rle_chunks_within_bounds psPrinter.page).1,
    (rle_chunks_within_bounds psPrinter.page).2.2.1⟩

/-! ## C19: `ESC S` -/

/-- C19 (code at the failing input). `ESC $ 0 0` leaves `params[1] = 0`; the following
`ESC S 49` stores 49 in `params[0]` and selects nothing, because the arm tests
`params[1] == 49`. `ESC $ 0 49` leaves `params[1] = 49`; the following `ESC S 0` then
selects subscript and superscript together, while after `ESC $ 0 0` the same `ESC S 0`
selects subscript alone: the outcome depends on the stale second byte of the buffer. -/
theorem super_sub_reads_second_parameter :
    (feed samplePrinter [0x1b, 0x24, 0, 0]).params 1 = 0 ∧
    (feed samplePrinter [0x1b, 0x24, 0, 0, 0x1b, 0x53, 49]).params 0 = 49 ∧
    (feed samplePrinter [0x1b, 0x24, 0, 0, 0x1b, 0x53, 49]).style = 0 ∧
    (feed samplePrinter [0x1b, 0x24, 0, 49]).params 1 = 49 ∧
    (feed samplePrinter [0x1b, 0x24, 0, 49, 0x1b, 0x53, 0]).style =
      STYLE_SUBSCRIPT ||| STYLE_SUPERSCRIPT ∧
    (feed samplePrinter [0x1b, 0x24, 0, 0, 0x1b, 0x53, 0]).style = STYLE_SUBSCRIPT ∧
    (feed samplePrinter [0x1b, 0x24, 0, 0, 0x1b, 0x53, 1]).style = STYLE_SUPERSCRIPT := by
  refine ⟨by decide!, by decide!, by decide!, by decide!, by decide!, by decide!, by decide!⟩

/-! ## C20: horizontal motion in the defined unit -/

/-- C20 (code at the failing input). With no unit defined `ESC $ 36 0` moves the sample
printer to 36/60 inch and `ESC \ 36 0` by 36/180 inch. After `ESC ( U 1 0 10` the defined
unit is 10/3600 inch, the left margin 0, the right margin 2 and the cursor at 0;
`ESC $ 36 0` then leaves the cursor at 0 and `ESC \ 36 0` moves it to 12960 inch: both arms
divide the argument by the defined unit, where 36 units of 10/3600 inch are 1/10 inch. -/
theorem horizontal_motion_divides_by_defined_unit :
    (feed samplePrinter [0x1b, 0x24, 36, 0]).curX = 36 / 60 ∧
    (feed samplePrinter [0x1b, 0x5c, 36, 0]).curX = 36 / 180 ∧
    (feed samplePrinter [0x1b, 0x28, 0x55, 1, 0, 10]).definedUnit = 10 / 3600 ∧
    (feed samplePrinter [0x1b, 0x28, 0x55, 1, 0, 10]).leftMargin = 0 ∧
    (feed samplePrinter [0x1b, 0x28, 0x55, 1, 0, 10]).rightMargin = 2 ∧
    (feed samplePrinter [0x1b, 0x28, 0x55, 1, 0, 10]).curX = 0 ∧
    (feed samplePrinter [0x1b, 0x28, 0x55, 1, 0, 10, 0x1b, 0x24, 36, 0]).curX = 0 ∧
    (feed samplePrinter [0x1b, 0x28, 0x55, 1, 0, 10, 0x1b, 0x5c, 36, 0]).curX = 12960 ∧
    (0 : Real64) + 36 * (10 / 3600) = 1 / 10 := by
  refine ⟨by decide!, by decide!, by decide!, by decide!, by decide!, by decide!, by decide!,
    by decide!, by norm_num⟩

/-! ## C21: printing without a font -/

theorem Flow.consumed_andThen {N N' : CPrinter → Prop} (f : Flow) (k : CPrinter → Flow)
    (hf : f.Consumed N) (hk : ∀ s, N s → (k s).Consumed N') : (f.andThen k).Consumed N' := by
  cases f with
  | ret r s => exact hf
  | next s => exact hk s hf

theorem escStage_consumed (s : CPrinter) (ch : Nat) :
    (escStage s ch).Consumed (fun t => inkView t = inkView s) := by
  unfold escStage
  simp only []
  repeat' split
  all_goals rfl

theorem twoByteStage_consumed (s : CPrinter) (ch : Nat) :
    (twoByteStage s ch).Consumed (fun t => inkView t = inkView s) := by
  unfold twoByteStage
  simp only []
  repeat' split
  all_goals rfl

theorem vfuStage_consumed (s : CPrinter) :
    (vfuStage s).Consumed (fun t => inkView t = inkView s) := by
  unfold vfuStage
  split <;> rfl

theorem paramStage_consumed (s : CPrinter) (ch : Nat) :
    (paramStage s ch).Consumed (fun t => inkView t = inkView s) := by
  unfold paramStage
  simp only []
  repeat' split
  all_goals first
    | rfl
    | exact (storeParam_views s ch).2.2.2

theorem dispatchStage_consumed (s : CPrinter) :
    (dispatchStage s).Consumed (fun t => inkView t = inkView s) := by
  unfold dispatchStage
  split_ifs <;> rfl

theorem tabStages_inkView (s : CPrinter) (ch : Nat) :
    inkView (horizTabStage (vertTabStage s ch) ch) = inkView s := by
  have h1 : inkView (vertTabStage s ch) = inkView s := by
    unfold vertTabStage
    split_ifs <;> rfl
  have h2 : ∀ t, inkView (horizTabStage t ch) = inkView t := by
    intro t
    unfold horizTabStage
    split_ifs <;> rfl
  rw [h2, h1]

theorem controlStage_unconsumed (s : CPrinter) (ch : Nat) (h : (controlStage s ch).1 = false) :
    (controlStage s ch).2 = s := by
  have key : (controlStage s ch).1 = false → (controlStage s ch).2 = s := by
    unfold controlStage
    repeat' apply ite_sat (fun r : Bool × CPrinter => r.1 = false → r.2 = s)
    all_goals first
      | exact fun hc => Bool.noConfusion (show true = false from hc)
      | exact fun _ => rfl
  exact key h

/-- A call of `processCommandChar` that returns false has left the cursor, the page, the
pages handed to the encoder and the font as they were. -/
theorem processCommandChar_unconsumed (s : CPrinter) (ch : Nat)
    (h : (processCommandChar s ch).1 = false) :
    inkView (processCommandChar s ch).2 = inkView s := by
  have hf : ((((escStage s ch).andThen fun s => twoByteStage s ch).andThen vfuStage).andThen
      fun s => (paramStage (horizTabStage (vertTabStage s ch) ch) ch).andThen
        dispatchStage).Consumed (fun t => inkView t = inkView s) := by
    have h1 : ((escStage s ch).andThen fun s => twoByteStage s ch).Consumed
        (fun t => inkView t = inkView s) :=
      @Flow.consumed_andThen (fun t => inkView t = inkView s) (fun t => inkView t = inkView s)
        _ _ (escStage_consumed s ch) fun t ht => by
          have := twoByteStage_consumed t ch
          rw [ht] at this
          exact this
    have h2 : (((escStage s ch).andThen fun s => twoByteStage s ch).andThen vfuStage).Consumed
        (fun t => inkView t = inkView s) :=
      @Flow.consumed_andThen (fun t => inkView t = inkView s) (fun t => inkView t = inkView s)
        _ _ h1 fun t ht => by
          have := vfuStage_consumed t
          rw [ht] at this
          exact this
    refine @Flow.consumed_andThen (fun t => inkView t = inkView s)
      (fun t => inkView t = inkView s) _ _ h2 fun t ht => ?_
    refine @Flow.consumed_andThen
      (fun u => inkView u = inkView (horizTabStage (vertTabStage t ch) ch))
      (fun t => inkView t = inkView s) _ _ (paramStage_consumed _ ch) fun u hu => ?_
    have := dispatchStage_consumed u
    rw [hu, tabStages_inkView, ht] at this
    exact this
  unfold processCommandChar at h ⊢
  simp only [] at h ⊢
  generalize ((((escStage s ch).andThen fun s => twoByteStage s ch).andThen vfuStage).andThen
      fun s => (paramStage (horizTabStage (vertTabStage s ch) ch) ch).andThen dispatchStage) = f
    at hf h ⊢
  cases f with
  | ret r t =>
    have hr : r = true := hf
    rw [hr] at h
    exact Bool.noConfusion (show true = false from h)
  | next t =>
    have ht : inkView t = inkView s := hf
    show inkView (controlStage t ch).2 = inkView s
    rw [controlStage_unconsumed t ch h, ht]

theorem renderChar_none (s : CPrinter) (ch : Nat) (h : s.curFont = none) :
    renderChar s ch = s := by
  rw [renderChar_eq]
  split
  · rfl
  · rename_i face hf
    rw [h] at hf
    exact Option.noConfusion hf

/-- C21. When no font is loaded, `printChar` of a byte that goes neither to a bit-image
session nor is consumed by command processing (`processCommandChar` returns false for
it, or it is one of the bytes that `ESC ( ^` has announced as characters) renders nothing
and skips the position advance: `curX`, `curY` and the page, pixel by pixel, are
unchanged, no page is handed to the encoder, and the font is still missing. The call
returns: `printChar` is a total function. -/
theorem no_font_prints_nothing (s : CPrinter) (ch : Nat) (hfont : s.curFont = none)
    (himage : ¬ s.bitGraph.remBytes > 0)
    (hprint : s.numPrintAsChar > 0 ∨
      (processCommandChar { s with charRead := true } (applyMSB s.msb ch)).1 = false) :
    (printChar s ch).curX = s.curX ∧ (printChar s ch).curY = s.curY ∧
    (printChar s ch).page = s.page ∧
    (∀ x y, (printChar s ch).page.pixels x y = s.page.pixels x y) ∧
    (printChar s ch).outputPages = s.outputPages ∧ (printChar s ch).curFont = none := by
  have hview : inkView (printChar s ch) = inkView s := by
    unfold printChar
    simp only []
    rw [if_neg himage]
    by_cases hn : s.numPrintAsChar > 0
    · rw [if_pos hn]
      refine Eq.trans (congrArg inkView (renderChar_none _ _ ?_)) ?_
      · exact hfont
      · rfl
    · rw [if_neg hn]
      have hu := hprint.resolve_left hn
      have hv := processCommandChar_unconsumed _ _ hu
      have hnone : (processCommandChar { s with charRead := true } (applyMSB s.msb ch)).2.curFont
          = none := (congrArg (fun v => v.2.2.2.2) hv).trans hfont
      rw [hu]
      simp only [Bool.false_eq_true, if_false]
      rw [renderChar_none _ _ hnone]
      exact hv
  simp only [inkView, Prod.mk.injEq] at hview
  obtain ⟨h1, h2, h3, h4, h5⟩ := hview
  exact ⟨h1, h2, h3, fun x y => by rw [h3], h4, h5.trans hfont⟩

/-- Witness of C21: the sample printer with its font taken away; the letter `A` is not
consumed by command processing. -/
theorem no_font_prints_nothing_witness :
    ({ samplePrinter with curFont := none } : CPrinter).curFont = none ∧
    (processCommandChar { { samplePrinter with curFont := none } with charRead := true }
      (applyMSB ({ samplePrinter with curFont := none } : CPrinter).msb 0x41)).1 = false ∧
    (printChar { samplePrinter with curFont := none } 0x41).curX = samplePrinter.curX ∧
    (printChar { samplePrinter with curFont := none } 0x41).page = samplePrinter.page :=
  have hu : (processCommandChar { { samplePrinter with curFont := none } with charRead := true }
      (applyMSB ({ samplePrinter with curFont := none } : CPrinter).msb 0x41)).1 = false := by
    decide!
  ⟨rfl, hu,
    (no_font_prints_nothing { samplePrinter with curFont := none } 0x41 rfl (by decide)
      (Or.inr hu)).1,
    (no_font_prints_nothing { samplePrinter with curFont := none } 0x41 rfl (by decide)
      (Or.inr hu)).2.2.1⟩

/-! ## C22: one byte and one strobe -/

/-- What a write to the control register prints: the data register on the falling edge of
the strobe bit, else nothing. -/
theorem PRINTER_writecontrol_printed (p : PrinterPort) (val : Nat) :
    (PRINTER_writecontrol p val).printed =
      p.printed ++ (if ¬ (val &&& 0x1 ≠ 0) ∧ p.controlreg &&& 0x1 ≠ 0 then [p.dataregister]
        else []) ∧
    (PRINTER_writecontrol p val).controlreg = val % 256 ∧
    (PRINTER_writecontrol p val).dataregister = p.dataregister := by
  unfold PRINTER_writecontrol
  simp only []
  by_cases h1 : val &&& 0x04 ≠ 0 ∧ p.defaultPrinter.isSome ∧ ¬ (p.controlreg &&& 0x04 ≠ 0)
  · rw [if_pos h1]
    by_cases h2 : ¬ (val &&& 0x1 ≠ 0) ∧ p.controlreg &&& 0x1 ≠ 0
    · rw [if_pos h2, if_pos h2]
      refine ⟨?_, ?_, ?_⟩ <;> trivial
    · rw [if_neg h2, if_neg h2]
      refine ⟨?_, ?_, ?_⟩ <;> first | trivial | exact (List.append_nil _).symm
  · rw [if_neg h1]
    by_cases h2 : ¬ (val &&& 0x1 ≠ 0) ∧ p.controlreg &&& 0x1 ≠ 0
    · rw [if_pos h2, if_pos h2]
      refine ⟨?_, ?_, ?_⟩ <;> trivial
    · rw [if_neg h2, if_neg h2]
      refine ⟨?_, ?_, ?_⟩ <;> first | trivial | exact (List.append_nil _).symm

theorem PRINTER_readstatus_fields (p : PrinterPort) :
    (PRINTER_readstatus p).2.printed = p.printed ∧
    (PRINTER_readstatus p).2.controlreg = p.controlreg ∧
    (PRINTER_readstatus p).2.dataregister = p.dataregister := by
  unfold PRINTER_readstatus
  split <;> exact ⟨rfl, rfl, rfl⟩

theorem ack_state (s : CPrinter) : (ack s).2 = { s with charRead := false } := by
  unfold ack
  by_cases h : s.charRead = true
  · rw [if_pos h]
  · rw [if_neg h]
    have h0 : s.charRead = false := by
      cases hc : s.charRead
      · rfl
      · exact absurd hc h
    cases s
    simp only at h0
    subst h0
    rfl

theorem PRINTER_writecontrol_quiet (p : PrinterPort) (val : Nat) (s : CPrinter)
    (hs : p.defaultPrinter = some s) (hr : ¬ (val &&& 0x04 ≠ 0 ∧ ¬ (p.controlreg &&& 0x04 ≠ 0)))
    (hst : ¬ (¬ (val &&& 0x1 ≠ 0) ∧ p.controlreg &&& 0x1 ≠ 0)) :
    PRINTER_writecontrol p val =
      { p with controlreg := val % 256,
               defaultPrinter := some (setAutofeed s (val &&& 0x02 > 0)) } := by
  have hA : ¬ (val &&& 0x04 ≠ 0 ∧ p.defaultPrinter.isSome ∧ ¬ (p.controlreg &&& 0x04 ≠ 0)) :=
    fun hc => hr ⟨hc.1, hc.2.2⟩
  unfold PRINTER_writecontrol
  simp only []
  rw [if_neg hA, if_neg hst, hs]
  rfl

theorem PRINTER_writecontrol_strobe (p : PrinterPort) (val : Nat) (s : CPrinter)
    (hs : p.defaultPrinter = some s) (hr : ¬ (val &&& 0x04 ≠ 0 ∧ ¬ (p.controlreg &&& 0x04 ≠ 0)))
    (hst : ¬ (val &&& 0x1 ≠ 0) ∧ p.controlreg &&& 0x1 ≠ 0) :
    PRINTER_writecontrol p val =
      { p with controlreg := val % 256,
               defaultPrinter := some (setAutofeed (printChar s p.dataregister) (val &&& 0x02 > 0)),
               printed := p.printed ++ [p.dataregister] } := by
  have hA : ¬ (val &&& 0x04 ≠ 0 ∧ p.defaultPrinter.isSome ∧ ¬ (p.controlreg &&& 0x04 ≠ 0)) :=
    fun hc => hr ⟨hc.1, hc.2.2⟩
  unfold PRINTER_writecontrol
  simp only []
  rw [if_neg hA, if_pos hst, hs]
  rfl

/-- The strobe pulse `Write_CON(0xD5)`, `Write_CON(0xD4)` after the control register held
0xD4: one call of `printChar` with the data register. -/
theorem strobe_pulse (q : PrinterPort) (s : CPrinter) (hq : q.defaultPrinter = some s)
    (hc : q.controlreg = 0xD4) :
    PRINTER_writecontrol (PRINTER_writecontrol q 0xD5) 0xD4 =
      { q with controlreg := 0xD4,
               defaultPrinter :=
                 some (setAutofeed (printChar (setAutofeed s false) q.dataregister) false),
               printed := q.printed ++ [q.dataregister] } := by
  have e1 := PRINTER_writecontrol_quiet q 0xD5 s hq (by rw [hc]; decide) (by rw [hc]; decide)
  rw [e1]
  refine (PRINTER_writecontrol_strobe _ 0xD4 _ rfl ?_ ?_).trans ?_
  · show ¬ (0xD4 &&& 0x04 ≠ 0 ∧ ¬ (0xD5 % 256 &&& 0x04 ≠ 0))
    decide
  · show ¬ (0xD4 &&& 0x1 ≠ 0) ∧ 0xD5 % 256 &&& 0x1 ≠ 0
    decide
  · rfl

/-- When the strobe bit is clear and the init bit set, `Putchar(val)` is one call of
`printChar` on the printer behind the port, with the argument `val`; around it the
autofeed line is switched off and the acknowledge is cleared. -/
theorem putchar_state (p : PrinterPort) (val : Nat) (hv : val < 256) (s : CPrinter)
    (hs : p.defaultPrinter = some s) (h0 : p.controlreg &&& 0x1 = 0)
    (h4 : p.controlreg &&& 0x04 ≠ 0) :
    (Putchar p val).defaultPrinter =
      some { setAutofeed (printChar (setAutofeed s false) val) false with charRead := false } := by
  have w1 := PRINTER_writecontrol_quiet p 0xD4 s hs (fun hc => hc.2 h4) (fun hc => hc.2 h0)
  have h2 : setAutofeed (setAutofeed s (0xD4 &&& 0x02 > 0)) false = setAutofeed s false := rfl
  unfold Putchar PRINTER_writedata
  simp only []
  rw [w1, strobe_pulse _ (setAutofeed s (0xD4 &&& 0x02 > 0)) rfl rfl, h2]
  unfold PRINTER_readstatus
  simp only [ack_state, Nat.mod_eq_of_lt hv]

/-- C22 (amended). For every byte `val` and every prior state of the port,
`Putchar(val)` leaves `val` in the data register and 0xD4 in the control register, and
its last call of `printChar` has the argument `val`. When the strobe bit of the control
register was clear before, this is the only call; when it was set, the first write of
0xD4 is a falling edge of its own and prints the prior data register before. With the
strobe bit clear and the init bit set the printer behind the port goes through this one
call of `printChar`. -/
theorem putchar_prints_once_after_clear_strobe (p : PrinterPort) (val : Nat) (hv : val < 256) :
    (Putchar p val).dataregister = val ∧ (Putchar p val).controlreg = 0xD4 ∧
    (p.controlreg &&& 0x1 = 0 → (Putchar p val).printed = p.printed ++ [val]) ∧
    (p.controlreg &&& 0x1 ≠ 0 →
      (Putchar p val).printed = p.printed ++ [p.dataregister, val]) ∧
    (∀ s, p.defaultPrinter = some s → p.controlreg &&& 0x1 = 0 → p.controlreg &&& 0x04 ≠ 0 →
      (Putchar p val).defaultPrinter =
        some { setAutofeed (printChar (setAutofeed s false) val) false with
          charRead := false }) := by
  have main : (Putchar p val).dataregister = val ∧ (Putchar p val).controlreg = 0xD4 ∧
      (p.controlreg &&& 0x1 = 0 → (Putchar p val).printed = p.printed ++ [val]) ∧
      (p.controlreg &&& 0x1 ≠ 0 →
        (Putchar p val).printed = p.printed ++ [p.dataregister, val]) := by
    unfold Putchar
    simp only []
    obtain ⟨r1, r2, r3⟩ := PRINTER_readstatus_fields
      (PRINTER_writecontrol (PRINTER_writecontrol (PRINTER_writedata
        (PRINTER_writecontrol p 0xD4) val) 0xD5) 0xD4)
    obtain ⟨c1, c2, c3⟩ := PRINTER_writecontrol_printed
      (PRINTER_writecontrol (PRINTER_writedata (PRINTER_writecontrol p 0xD4) val) 0xD5) 0xD4
    obtain ⟨b1, b2, b3⟩ := PRINTER_writecontrol_printed
      (PRINTER_writedata (PRINTER_writecontrol p 0xD4) val) 0xD5
    obtain ⟨a1, a2, a3⟩ := PRINTER_writecontrol_printed p 0xD4
    have hd : (PRINTER_writedata (PRINTER_writecontrol p 0xD4) val).dataregister = val :=
      Nat.mod_eq_of_lt hv
    have hp : (PRINTER_writedata (PRINTER_writecontrol p 0xD4) val).printed =
        (PRINTER_writecontrol p 0xD4).printed := rfl
    have hc : (PRINTER_writedata (PRINTER_writecontrol p 0xD4) val).controlreg =
        (PRINTER_writecontrol p 0xD4).controlreg := rfl
    rw [r1, r2, r3, c1, c2, c3, b1, b2, b3, hd, hp, hc, a1, a2]
    have e1 : ¬ (¬ (0xD5 &&& 0x1 ≠ 0) ∧ 0xD4 % 256 &&& 0x1 ≠ 0) := by decide
    have e2 : ¬ (0xD4 &&& 0x1 ≠ 0) ∧ 0xD5 % 256 &&& 0x1 ≠ 0 := by decide
    rw [if_neg e1, if_pos e2, List.append_nil]
    refine ⟨rfl, rfl, fun h0 => ?_, fun h1 => ?_⟩
    · rw [if_neg (fun hc => hc.2 h0), List.append_nil]
    · rw [if_pos ⟨by decide, h1⟩, List.append_assoc]
      rfl
  exact ⟨main.1, main.2.1, main.2.2.1, main.2.2.2,
    fun s hs h0 h4 => putchar_state p val hv s hs h0 h4⟩

/-- C22 (as stated, refuted). The control register holds 0x05, strobe bit set, and the
data register 0x41; `Putchar(0x42)` calls `printChar` twice, first with 0x41. -/
theorem putchar_after_set_strobe_prints_twice :
    (samplePort 0x41 0x05).printed.length = 0 ∧
    (Putchar (samplePort 0x41 0x05) 0x42).printed = [0x41, 0x42] ∧
    (Putchar (samplePort 0x41 0x05) 0x42).printed.length ≠ 1 ∧
    (Putchar (samplePort 0x41 0x04) 0x42).printed = [0x42] := by
  refine ⟨by decide, by decide!, by decide!, by decide!⟩

/-- Witness of C22 (amended): the control register holds 0x04 as after the start; the
byte 0x42 is printed once. -/
theorem putchar_prints_once_after_clear_strobe_witness :
    (0x42 : Nat) < 256 ∧ (samplePort 0x41 0x04).controlreg &&& 0x1 = 0 ∧
    (Putchar (samplePort 0x41 0x04) 0x42).printed = (samplePort 0x41 0x04).printed ++ [0x42] :=
  ⟨by decide, by decide,
    (putchar_prints_once_after_clear_strobe (samplePort 0x41 0x04) 0x42 (by decide)).2.2.1
      (by decide)⟩

/-! ## C23: the horizontal tab -/

/-- The loop of the HT and VT arms has no `break`: over ascending stops it ends with the
last stop when that one lies beyond the position, and with -1 otherwise. -/
theorem findTab_last (tabs : Nat → Real64) (pos : Real64) :
    ∀ n, TabsOrdered tabs (n + 1) →
      findTab tabs (n + 1) pos = if tabs n > pos then tabs n else -1 := by
  intro n
  induction n with
  | zero =>
    intro _
    rfl
  | succ n ih =>
    intro h
    have hstep : findTab tabs (n + 1 + 1) pos =
        if tabs (n + 1) > pos then tabs (n + 1) else findTab tabs (n + 1) pos := by
      unfold findTab
      rw [List.range_succ, List.foldl_append]
      rfl
    rw [hstep]
    by_cases hgt : tabs (n + 1) > pos
    · rw [if_pos hgt, if_pos hgt]
    · rw [if_neg hgt, if_neg hgt, ih (fun i hi => h i (by omega))]
      have hle : tabs n ≤ tabs (n + 1) := h n (by omega)
      rw [if_neg (fun hc => hgt (lt_of_lt_of_le hc hle))]

/-- C23 (code at the failing input). On the fresh sample printer the cursor is at 0, the
right margin at 2 inch and the default stops at 0, 0.8, 1.6, ... 24.8 inch: HT leaves the
cursor at 0, because the loop ends with the last stop, 24.8, which is not left of the
right margin. On a page of 30 inch, HT moves from 0 to 24.8 and not to 0.8. With the two
stops 0.5 and 1 set, HT moves from 0 to 1 and not to 0.5. -/
theorem horizontal_tab_takes_last_stop :
    samplePrinter.curX = 0 ∧ samplePrinter.rightMargin = 2 ∧ samplePrinter.numHorizTabs = 32 ∧
    samplePrinter.horiztabs 0 = 0 ∧ samplePrinter.horiztabs 1 = 4 / 5 ∧
    samplePrinter.horiztabs 31 = 124 / 5 ∧
    findTab samplePrinter.horiztabs samplePrinter.numHorizTabs samplePrinter.curX = 124 / 5 ∧
    (feed samplePrinter [0x09]).curX = 0 ∧
    (construct sampleRaw 20 300 30 false).rightMargin = 30 ∧
    (construct sampleRaw 20 300 30 false).horiztabs 1 = 4 / 5 ∧
    (feed (construct sampleRaw 20 300 30 false) [0x09]).curX = 124 / 5 ∧
    (feed samplePrinter [0x1b, 0x24, 0, 0, 0x1b, 0x44, 5, 10]).numHorizTabs = 2 ∧
    (feed samplePrinter [0x1b, 0x24, 0, 0, 0x1b, 0x44, 5, 10]).horiztabs 0 = 1 / 2 ∧
    (feed samplePrinter [0x1b, 0x24, 0, 0, 0x1b, 0x44, 5, 10]).horiztabs 1 = 1 ∧
    (feed samplePrinter [0x1b, 0x24, 0, 0, 0x1b, 0x44, 5, 10]).curX = 0 ∧
    (feed samplePrinter [0x1b, 0x24, 0, 0, 0x1b, 0x44, 5, 10, 0x09]).curX = 1 := by
  refine ⟨by decide!, by decide!, by decide!, by decide!, by decide!, by decide!, by decide!,
    by decide!, by decide!, by decide!, by decide!, by decide!, by decide!, by decide!,
    by decide!, by decide!⟩

/-! ## C24: the ASCII85 data decode to the bytes written -/

theorem isWhite_digit (c : Nat) (h : 33 ≤ c) : isWhite c = false := by
  unfold isWhite
  simp only [decide_eq_false_iff_not]
  omega

theorem stripWhite_append (xs ys : List Nat) :
    stripWhite (xs ++ ys) = stripWhite xs ++ stripWhite ys := List.filter_append _ _

theorem stripWhite_digits (cs : List Nat) (h : ∀ c ∈ cs, 33 ≤ c) : stripWhite cs = cs := by
  unfold stripWhite
  rw [List.filter_eq_self]
  intro c hc
  rw [isWhite_digit c (h c hc)]
  rfl

theorem base85_digits (num : Nat) : ∀ c ∈ base85 num, 33 ≤ c ∧ c ≤ 117 := by
  intro c hc
  unfold base85 at hc
  simp only [List.mem_cons, List.mem_singleton, List.not_mem_nil, or_false] at hc
  rcases hc with h | h | h | h | h <;> omega

theorem bufferValue_eq (a : Ascii85) (h0 : a.ASCII85Buffer 0 < 256) (h1 : a.ASCII85Buffer 1 < 256)
    (h2 : a.ASCII85Buffer 2 < 256) (h3 : a.ASCII85Buffer 3 < 256) :
    bufferValue a = a.ASCII85Buffer 0 * 16777216 + a.ASCII85Buffer 1 * 65536 +
      a.ASCII85Buffer 2 * 256 + a.ASCII85Buffer 3 := by
  unfold bufferValue
  generalize a.ASCII85Buffer 0 = b0 at h0 ⊢
  generalize a.ASCII85Buffer 1 = b1 at h1 ⊢
  generalize a.ASCII85Buffer 2 = b2 at h2 ⊢
  generalize a.ASCII85Buffer 3 = b3 at h3 ⊢
  have e3 : 2 ^ 8 * b2 ||| b3 = 2 ^ 8 * b2 + b3 :=
    (Nat.mul_add_lt_is_or (show b3 < 2 ^ 8 by omega) b2).symm
  have e2 : 2 ^ 16 * b1 ||| (2 ^ 8 * b2 + b3) = 2 ^ 16 * b1 + (2 ^ 8 * b2 + b3) :=
    (Nat.mul_add_lt_is_or (show 2 ^ 8 * b2 + b3 < 2 ^ 16 by omega) b1).symm
  have e1 : 2 ^ 24 * b0 ||| (2 ^ 16 * b1 + (2 ^ 8 * b2 + b3)) =
      2 ^ 24 * b0 + (2 ^ 16 * b1 + (2 ^ 8 * b2 + b3)) :=
    (Nat.mul_add_lt_is_or (show 2 ^ 16 * b1 + (2 ^ 8 * b2 + b3) < 2 ^ 24 by omega) b0).symm
  rw [Nat.shiftLeft_eq, Nat.shiftLeft_eq, Nat.shiftLeft_eq, Nat.or_assoc, Nat.or_assoc,
    Nat.mul_comm b2, e3, Nat.mul_comm b1, e2, Nat.mul_comm b0, e1]
  omega

theorem putColumn_fields (a : Ascii85) (c : Nat) (hc : 33 ≤ c) (hcol : a.ASCII85CurCol < 79) :
    stripWhite (putColumn a c).written = stripWhite a.written ++ [c] ∧
    (putColumn a c).ASCII85CurCol < 79 ∧
    (putColumn a c).ASCII85BufferPos = a.ASCII85BufferPos ∧
    (putColumn a c).ASCII85Buffer = a.ASCII85Buffer := by
  have h1 : stripWhite [c] = [c] := stripWhite_digits [c] (by
    intro d hd
    rw [List.mem_singleton.1 hd]
    exact hc)
  have h2 : stripWhite [10] = [] := by decide
  unfold putColumn
  by_cases h : a.ASCII85CurCol + 1 ≥ 79
  · rw [if_pos h]
    refine ⟨?_, show (0 : Nat) < 79 by decide, rfl, rfl⟩
    show stripWhite ((a.written ++ [c]) ++ [10]) = _
    rw [stripWhite_append, stripWhite_append, h1, h2, List.append_nil]
  · rw [if_neg h]
    refine ⟨?_, show a.ASCII85CurCol + 1 < 79 by omega, rfl, rfl⟩
    show stripWhite (a.written ++ [c]) = _
    rw [stripWhite_append, h1]

theorem putColumns_fields (cs : List Nat) : ∀ a : Ascii85, (∀ c ∈ cs, 33 ≤ c) →
    a.ASCII85CurCol < 79 →
    stripWhite (cs.foldl putColumn a).written = stripWhite a.written ++ cs ∧
    (cs.foldl putColumn a).ASCII85CurCol < 79 ∧
    (cs.foldl putColumn a).ASCII85BufferPos = a.ASCII85BufferPos ∧
    (cs.foldl putColumn a).ASCII85Buffer = a.ASCII85Buffer := by
  induction cs with
  | nil =>
    intro a _ hcol
    exact ⟨(List.append_nil _).symm, hcol, rfl, rfl⟩
  | cons c cs ih =>
    intro a hc hcol
    obtain ⟨p1, p2, p3, p4⟩ := putColumn_fields a c (hc c (List.mem_cons_self c cs)) hcol
    obtain ⟨q1, q2, q3, q4⟩ := ih (putColumn a c)
      (fun d hd => hc d (List.mem_cons_of_mem c hd)) p2
    rw [List.foldl_cons]
    refine ⟨?_, q2, q3.trans p3, q4.trans p4⟩
    rw [q1, p1, List.append_assoc]
    rfl

/-- The characters that the block writes, white space apart. -/
theorem writeGroup_written (a : Ascii85) (b : Nat) (hcol : a.ASCII85CurCol < 79)
    (hw : a.ASCII85BufferPos = 4 ∨ b = 257) :
    stripWhite (writeGroup a b).written = stripWhite a.written ++
      (if bufferValue a = 0 ∧ b ≠ 257 then [122]
       else (base85 (bufferValue a)).take (if b ≠ 257 then 5 else a.ASCII85BufferPos + 1)) ∧
    (writeGroup a b).ASCII85CurCol < 79 ∧ (writeGroup a b).ASCII85BufferPos = 0 ∧
    (writeGroup a b).ASCII85Buffer = a.ASCII85Buffer := by
  unfold writeGroup
  rw [if_pos hw]
  by_cases hz : bufferValue a = 0 ∧ b ≠ 257
  · rw [if_pos hz, if_pos hz]
    obtain ⟨p1, p2, -, p4⟩ := putColumn_fields a 122 (by decide) hcol
    exact ⟨p1, p2, rfl, p4⟩
  · rw [if_neg hz, if_neg hz]
    have hd : ∀ c ∈ (base85 (bufferValue a)).take (if b ≠ 257 then 5 else a.ASCII85BufferPos + 1),
        33 ≤ c := fun c hc => (base85_digits _ c (List.mem_of_mem_take hc)).1
    by_cases hs : a.ASCII85CurCol = 0 ∧ (base85 (bufferValue a)).head? = some 37
    · rw [if_pos hs]
      obtain ⟨q1, q2, -, q4⟩ := putColumns_fields _ { a with written := a.written ++ [32] } hd hcol
      refine ⟨?_, q2, rfl, q4⟩
      refine q1.trans ?_
      show stripWhite (a.written ++ [32]) ++ _ = _
      rw [stripWhite_append, show stripWhite [32] = [] from by decide, List.append_nil]
    · rw [if_neg hs]
      obtain ⟨q1, q2, -, q4⟩ := putColumns_fields _ a hd hcol
      exact ⟨q1, q2, rfl, q4⟩

theorem storeByte_fields (a : Ascii85) (b : Nat) (hb : b < 256) :
    (storeByte a b).ASCII85Buffer =
      (fun i => if i = a.ASCII85BufferPos then b else a.ASCII85Buffer i) ∧
    (storeByte a b).ASCII85BufferPos = a.ASCII85BufferPos + 1 ∧
    (storeByte a b).ASCII85CurCol = a.ASCII85CurCol ∧ (storeByte a b).written = a.written := by
  unfold storeByte
  rw [if_pos hb]
  exact ⟨rfl, rfl, rfl, rfl⟩

theorem fprintASCII85_data (a : Ascii85) (b : Nat) (hb : b < 256) :
    fprintASCII85 a b = writeGroup (storeByte a b) b := by
  unfold fprintASCII85 fprintASCII85Store
  rw [if_pos (by omega)]

theorem pending_succ (a : Ascii85) (b : Nat) (hb : b < 256) :
    pending (storeByte a b) = pending a ++ [b] := by
  obtain ⟨s1, s2, -, -⟩ := storeByte_fields a b hb
  unfold pending
  rw [s1, s2, List.range_succ, List.map_append, List.map_singleton]
  simp only [if_true]
  congr 1
  apply List.map_congr_left
  intro i hi
  simp only [if_neg (Nat.ne_of_lt (List.mem_range.1 hi))]

/-- A byte that does not fill the buffer waits in it; nothing is written. -/
theorem store_pending (a : Ascii85) (b : Nat) (hb : b < 256) (hr : a.Ready)
    (hp : a.ASCII85BufferPos < 3) :
    (fprintASCII85 a b).written = a.written ∧ (fprintASCII85 a b).Ready ∧
    pending (fprintASCII85 a b) = pending a ++ [b] := by
  obtain ⟨s1, s2, s3, s4⟩ := storeByte_fields a b hb
  rw [fprintASCII85_data a b hb]
  unfold writeGroup
  rw [if_neg (by
    intro hc
    rcases hc with h | h
    · rw [s2] at h
      omega
    · omega)]
  refine ⟨s4, ⟨by rw [s2]; omega, by rw [s3]; exact hr.2.1, fun i hi => ?_⟩,
    pending_succ a b hb⟩
  rw [s1]
  rw [s2] at hi
  show (if i = a.ASCII85BufferPos then b else a.ASCII85Buffer i) < 256
  by_cases he : i = a.ASCII85BufferPos
  · rw [if_pos he]
    exact hb
  · rw [if_neg he]
    exact hr.2.2 i (by omega)

/-- The fourth byte has the buffer written as a group. -/
theorem store_full (a : Ascii85) (b : Nat) (hb : b < 256) (hr : a.Ready)
    (hp : a.ASCII85BufferPos = 3) :
    stripWhite (fprintASCII85 a b).written = stripWhite a.written ++
      group85 (a.ASCII85Buffer 0) (a.ASCII85Buffer 1) (a.ASCII85Buffer 2) b ∧
    (fprintASCII85 a b).Ready ∧ (fprintASCII85 a b).ASCII85BufferPos = 0 := by
  obtain ⟨s1, s2, s3, s4⟩ := storeByte_fields a b hb
  have hb0 : (storeByte a b).ASCII85Buffer 0 = a.ASCII85Buffer 0 := by
    rw [s1]
    exact if_neg (by omega)
  have hb1 : (storeByte a b).ASCII85Buffer 1 = a.ASCII85Buffer 1 := by
    rw [s1]
    exact if_neg (by omega)
  have hb2 : (storeByte a b).ASCII85Buffer 2 = a.ASCII85Buffer 2 := by
    rw [s1]
    exact if_neg (by omega)
  have hb3 : (storeByte a b).ASCII85Buffer 3 = b := by
    rw [s1]
    exact if_pos hp.symm
  have hv := bufferValue_eq (storeByte a b) (by rw [hb0]; exact hr.2.2 0 (by omega))
    (by rw [hb1]; exact hr.2.2 1 (by omega)) (by rw [hb2]; exact hr.2.2 2 (by omega))
    (by rw [hb3]; exact hb)
  rw [hb0, hb1, hb2, hb3] at hv
  obtain ⟨w1, w2, w3, -⟩ := writeGroup_written (storeByte a b) b (by rw [s3]; exact hr.2.1)
    (Or.inl (by rw [s2]; omega))
  rw [fprintASCII85_data a b hb]
  refine ⟨?_, ⟨by rw [w3]; decide, w2, fun i hi => ?_⟩, w3⟩
  · rw [w1, hv, s4]
    congr 1
    unfold group85
    have h257 : b ≠ 257 := by omega
    by_cases hz : a.ASCII85Buffer 0 * 16777216 + a.ASCII85Buffer 1 * 65536 +
        a.ASCII85Buffer 2 * 256 + b = 0
    · rw [if_pos ⟨hz, h257⟩, if_pos hz]
    · rw [if_neg (fun hc => hz hc.1), if_neg hz, if_pos h257]
      rfl
  · rw [w3] at hi
    exact absurd hi (Nat.not_lt_zero i)

theorem pending_cases (a : Ascii85) :
    (a.ASCII85BufferPos = 0 → pending a = []) ∧
    (a.ASCII85BufferPos = 1 → pending a = [a.ASCII85Buffer 0]) ∧
    (a.ASCII85BufferPos = 2 → pending a = [a.ASCII85Buffer 0, a.ASCII85Buffer 1]) ∧
    (a.ASCII85BufferPos = 3 →
      pending a = [a.ASCII85Buffer 0, a.ASCII85Buffer 1, a.ASCII85Buffer 2]) := by
  unfold pending
  refine ⟨fun h => ?_, fun h => ?_, fun h => ?_, fun h => ?_⟩ <;> rw [h] <;> rfl

/-- The closing call writes what waits in the buffer as a partial group, then `~>`. -/
theorem close_written (a : Ascii85) (hr : a.Ready) :
    stripWhite (fprintASCII85 a 256).written =
      stripWhite a.written ++ groups85 (pending a) ++ [126, 62] := by
  obtain ⟨hp, hcol, hbuf⟩ := hr
  obtain ⟨c0, c1, c2, c3⟩ := pending_cases a
  have hend : stripWhite [126, 62, 10] = [126, 62] := by decide
  unfold fprintASCII85
  rw [if_neg (fun h => h rfl)]
  show stripWhite ((if a.ASCII85BufferPos > 0 then fprintASCII85Store (padBuffer a) 257
    else a).written ++ [126, 62, 10]) = _
  rw [stripWhite_append, hend]
  congr 1
  by_cases h0 : a.ASCII85BufferPos > 0
  · rw [if_pos h0]
    have hs : fprintASCII85Store (padBuffer a) 257 = writeGroup (padBuffer a) 257 := by
      unfold fprintASCII85Store storeByte
      rw [if_neg (by decide)]
    obtain ⟨w1, -, -, -⟩ := writeGroup_written (padBuffer a) 257 hcol (Or.inr rfl)
    rw [hs, w1, if_neg (fun h => h.2 rfl), if_neg (fun h => h rfl)]
    show stripWhite a.written ++ _ = _
    congr 1
    have hpad : ∀ i, (padBuffer a).ASCII85Buffer i =
        if a.ASCII85BufferPos ≤ i ∧ i < 4 then 0 else a.ASCII85Buffer i := fun _ => rfl
    have hlt : ∀ i, i < 4 → (padBuffer a).ASCII85Buffer i < 256 := by
      intro i hi
      rw [hpad]
      by_cases hc : a.ASCII85BufferPos ≤ i ∧ i < 4
      · rw [if_pos hc]
        decide
      · rw [if_neg hc]
        exact hbuf i (by omega)
    have hv := bufferValue_eq (padBuffer a) (hlt 0 (by decide)) (hlt 1 (by decide))
      (hlt 2 (by decide)) (hlt 3 (by decide))
    rw [hv, hpad, hpad, hpad, hpad]
    show List.take (a.ASCII85BufferPos + 1) _ = _
    have hcases : a.ASCII85BufferPos = 1 ∨ a.ASCII85BufferPos = 2 ∨ a.ASCII85BufferPos = 3 := by
      omega
    rcases hcases with h | h | h
    · rw [c1 h, h]
      simp [groups85]
    · rw [c2 h, h]
      simp [groups85]
    · rw [c3 h, h]
      simp [groups85]
  · rw [if_neg h0, c0 (by omega)]
    exact (List.append_nil _).symm

/-- All characters written for a byte sequence, white space apart: the groups of the
bytes, those waiting in the buffer first, then `~>`. -/
theorem writeASCII85_written (bytes : List Nat) : ∀ a : Ascii85, (∀ b ∈ bytes, b < 256) →
    a.Ready →
    stripWhite (writeASCII85 a bytes).written =
      stripWhite a.written ++ groups85 (pending a ++ bytes) ++ [126, 62] := by
  induction bytes with
  | nil =>
    intro a _ hr
    rw [List.append_nil]
    exact close_written a hr
  | cons b bs ih =>
    intro a hb hr
    have hb0 : b < 256 := hb b (List.mem_cons_self b bs)
    have hbs : ∀ c ∈ bs, c < 256 := fun c hc => hb c (List.mem_cons_of_mem b hc)
    have hstep : writeASCII85 a (b :: bs) = writeASCII85 (fprintASCII85 a b) bs := rfl
    rw [hstep]
    by_cases hp : a.ASCII85BufferPos < 3
    · obtain ⟨s1, s2, s3⟩ := store_pending a b hb0 hr hp
      rw [ih _ hbs s2, s1, s3, List.append_assoc (pending a)]
      rfl
    · have hp3 : a.ASCII85BufferPos = 3 := by
        have := hr.1
        omega
      obtain ⟨s1, s2, s3⟩ := store_full a b hb0 hr hp3
      rw [ih _ hbs s2, s1, (pending_cases _).1 s3, (pending_cases a).2.2.2 hp3, List.nil_append,
        List.append_assoc (stripWhite a.written)]
      rfl

/-! ### Decoding the groups -/

theorem value85_base85 (num : Nat) (h : num < 4294967296) : value85 (base85 num) = num := by
  unfold value85 base85
  simp only [List.foldl]
  omega

theorem bytes4_value (b0 b1 b2 b3 : Nat) (h0 : b0 < 256) (h1 : b1 < 256) (h2 : b2 < 256)
    (h3 : b3 < 256) : bytes4 (b0 * 16777216 + b1 * 65536 + b2 * 256 + b3) = [b0, b1, b2, b3] := by
  unfold bytes4
  have e0 : (b0 * 16777216 + b1 * 65536 + b2 * 256 + b3) / 16777216 % 256 = b0 := by omega
  have e1 : (b0 * 16777216 + b1 * 65536 + b2 * 256 + b3) / 65536 % 256 = b1 := by omega
  have e2 : (b0 * 16777216 + b1 * 65536 + b2 * 256 + b3) / 256 % 256 = b2 := by omega
  have e3 : (b0 * 16777216 + b1 * 65536 + b2 * 256 + b3) % 256 = b3 := by omega
  rw [e0, e1, e2, e3]

theorem partial_three (b0 b1 b2 : Nat) (h0 : b0 < 256) (h1 : b1 < 256) (h2 : b2 < 256) :
    value85 ((base85 (b0 * 16777216 + b1 * 65536 + b2 * 256)).take 4 ++ List.replicate 1 117)
      < 4294967296 ∧
    (bytes4 (value85 ((base85 (b0 * 16777216 + b1 * 65536 + b2 * 256)).take 4 ++
      List.replicate 1 117))).take 3 = [b0, b1, b2] := by
  generalize hn : b0 * 16777216 + b1 * 65536 + b2 * 256 = num
  have hv : value85 ((base85 num).take 4 ++ List.replicate 1 117) = num - num % 85 + 84 := by
    unfold value85 base85
    simp only [List.take, List.replicate, List.cons_append, List.nil_append, List.foldl]
    omega
  rw [hv]
  unfold bytes4
  simp only [List.take]
  have hq : (num - num % 85 + 84) / 256 = b0 * 65536 + b1 * 256 + b2 := by omega
  have d1 : (num - num % 85 + 84) / 65536 = (num - num % 85 + 84) / 256 / 256 :=
    (Nat.div_div_eq_div_mul _ 256 256).symm
  have d0 : (num - num % 85 + 84) / 16777216 = (num - num % 85 + 84) / 256 / 65536 :=
    (Nat.div_div_eq_div_mul _ 256 65536).symm
  have r0 : (b0 * 65536 + b1 * 256 + b2) / 65536 % 256 = b0 := by
    clear hv hq d0 d1 hn
    omega
  have r1 : (b0 * 65536 + b1 * 256 + b2) / 256 % 256 = b1 := by
    clear hv hq d0 d1 hn
    omega
  have r2 : (b0 * 65536 + b1 * 256 + b2) % 256 = b2 := by
    clear hv hq d0 d1 hn
    omega
  have e0 : (num - num % 85 + 84) / 16777216 % 256 = b0 := by rw [d0, hq]; exact r0
  have e1 : (num - num % 85 + 84) / 65536 % 256 = b1 := by rw [d1, hq]; exact r1
  have e2 : (num - num % 85 + 84) / 256 % 256 = b2 := by rw [hq]; exact r2
  rw [e0, e1, e2]
  exact ⟨by omega, rfl⟩

theorem partial_two (b0 b1 : Nat) (h0 : b0 < 256) (h1 : b1 < 256) :
    value85 ((base85 (b0 * 16777216 + b1 * 65536)).take 3 ++ List.replicate 2 117)
      < 4294967296 ∧
    (bytes4 (value85 ((base85 (b0 * 16777216 + b1 * 65536)).take 3 ++
      List.replicate 2 117))).take 2 = [b0, b1] := by
  generalize hn : b0 * 16777216 + b1 * 65536 = num
  have q2 : num / 85 / 85 = num / 7225 := Nat.div_div_eq_div_mul _ _ _
  have hv : value85 ((base85 num).take 3 ++ List.replicate 2 117) =
      num / 85 / 85 * 7225 + 7224 := by
    unfold value85 base85
    simp only [List.take, List.replicate, List.cons_append, List.nil_append, List.foldl]
    omega
  rw [hv, q2]
  unfold bytes4
  simp only [List.take]
  have hq : (num / 7225 * 7225 + 7224) / 65536 = b0 * 256 + b1 := by omega
  have d0 : (num / 7225 * 7225 + 7224) / 16777216 = (num / 7225 * 7225 + 7224) / 65536 / 256 :=
    (Nat.div_div_eq_div_mul _ 65536 256).symm
  have r0 : (b0 * 256 + b1) / 256 % 256 = b0 := by
    clear hv hq d0 q2 hn
    omega
  have r1 : (b0 * 256 + b1) % 256 = b1 := by
    clear hv hq d0 q2 hn
    omega
  have e0 : (num / 7225 * 7225 + 7224) / 16777216 % 256 = b0 := by rw [d0, hq]; exact r0
  have e1 : (num / 7225 * 7225 + 7224) / 65536 % 256 = b1 := by rw [hq]; exact r1
  rw [e0, e1]
  exact ⟨by omega, rfl⟩

theorem partial_one (b0 : Nat) (h0 : b0 < 256) :
    value85 ((base85 (b0 * 16777216)).take 2 ++ List.replicate 3 117) < 4294967296 ∧
    (bytes4 (value85 ((base85 (b0 * 16777216)).take 2 ++ List.replicate 3 117))).take 1 = [b0] := by
  generalize hn : b0 * 16777216 = num
  have q3 : num / 85 / 85 / 85 = num / 614125 := by
    rw [Nat.div_div_eq_div_mul, Nat.div_div_eq_div_mul]
  have hv : value85 ((base85 num).take 2 ++ List.replicate 3 117) =
      num / 85 / 85 / 85 * 614125 + 614124 := by
    unfold value85 base85
    simp only [List.take, List.replicate, List.cons_append, List.nil_append, List.foldl]
    omega
  rw [hv, q3]
  unfold bytes4
  simp only [List.take]
  have hq : (num / 614125 * 614125 + 614124) / 16777216 = b0 := by omega
  have e0 : (num / 614125 * 614125 + 614124) / 16777216 % 256 = b0 := by rw [hq]; omega
  rw [e0]
  exact ⟨by omega, rfl⟩

theorem decodeGroups_succ (fuel : Nat) (cs : List Nat) :
    decodeGroups (fuel + 1) cs =
      if cs = [] then some []
      else if cs.head? = some 122 then (decodeGroups fuel cs.tail).map fun r => [0, 0, 0, 0] ++ r
      else if 5 ≤ cs.length then
        if (cs.take 5).all isDigit85 ∧ value85 (cs.take 5) < 4294967296 then
          (decodeGroups fuel (cs.drop 5)).map fun r => bytes4 (value85 (cs.take 5)) ++ r
        else none
      else if 2 ≤ cs.length ∧ cs.all isDigit85 ∧
          value85 (cs ++ List.replicate (5 - cs.length) 117) < 4294967296 then
        some ((bytes4 (value85 (cs ++ List.replicate (5 - cs.length) 117))).take (cs.length - 1))
      else none := rfl

theorem digits_all (cs : List Nat) (h : ∀ c ∈ cs, 33 ≤ c ∧ c ≤ 117) :
    cs.all isDigit85 = true := by
  rw [List.all_eq_true]
  intro c hc
  unfold isDigit85
  exact decide_eq_true (h c hc)

/-- A full group decodes to its four bytes. -/
theorem decodeGroups_group (fuel b0 b1 b2 b3 : Nat) (h0 : b0 < 256) (h1 : b1 < 256)
    (h2 : b2 < 256) (h3 : b3 < 256) (rest : List Nat) :
    decodeGroups (fuel + 1) (group85 b0 b1 b2 b3 ++ rest) =
      (decodeGroups fuel rest).map fun r => [b0, b1, b2, b3] ++ r := by
  unfold group85
  by_cases hz : b0 * 16777216 + b1 * 65536 + b2 * 256 + b3 = 0
  · rw [if_pos hz, decodeGroups_succ]
    have e0 : b0 = 0 := by omega
    have e1 : b1 = 0 := by omega
    have e2 : b2 = 0 := by omega
    have e3 : b3 = 0 := by omega
    rw [e0, e1, e2, e3]
    rfl
  · rw [if_neg hz, decodeGroups_succ]
    have hlt : b0 * 16777216 + b1 * 65536 + b2 * 256 + b3 < 4294967296 := by omega
    generalize hn : b0 * 16777216 + b1 * 65536 + b2 * 256 + b3 = num at hz hlt ⊢
    have c1 : base85 num ++ rest ≠ [] := by
      unfold base85
      exact List.cons_ne_nil _ _
    have c2 : (base85 num ++ rest).head? ≠ some 122 := by
      unfold base85
      show some (num / 85 / 85 / 85 / 85 % 85 + 33) ≠ some 122
      intro hc
      have := Option.some.inj hc
      omega
    have c3 : 5 ≤ (base85 num ++ rest).length := by
      rw [List.length_append]
      exact Nat.le_add_right 5 _
    have c4 : (base85 num ++ rest).take 5 = base85 num := rfl
    have c5 : (base85 num ++ rest).drop 5 = rest := rfl
    rw [if_neg c1, if_neg c2, if_pos c3, c4, c5, value85_base85 num hlt,
      if_pos ⟨digits_all _ (base85_digits num), hlt⟩, ← hn, bytes4_value b0 b1 b2 b3 h0 h1 h2 h3]

theorem groups85_chars (bytes : List Nat) :
    ∀ n, bytes.length ≤ n → ∀ c ∈ groups85 bytes, c = 122 ∨ (33 ≤ c ∧ c ≤ 117) := by
  intro n
  induction n generalizing bytes with
  | zero =>
    intro hl c hc
    have : bytes = [] := List.length_eq_zero.1 (Nat.le_zero.1 hl)
    rw [this] at hc
    exact absurd hc (List.not_mem_nil c)
  | succ n ih =>
    intro hl c hc
    rcases bytes with _ | ⟨b0, _ | ⟨b1, _ | ⟨b2, _ | ⟨b3, rest⟩⟩⟩⟩
    · exact absurd hc (List.not_mem_nil c)
    · exact Or.inr (base85_digits _ c (List.mem_of_mem_take hc))
    · exact Or.inr (base85_digits _ c (List.mem_of_mem_take hc))
    · exact Or.inr (base85_digits _ c (List.mem_of_mem_take hc))
    · have hg : groups85 (b0 :: b1 :: b2 :: b3 :: rest) =
          group85 b0 b1 b2 b3 ++ groups85 rest := rfl
      rw [hg] at hc
      rcases List.mem_append.1 hc with h | h
      · unfold group85 at h
        by_cases hz : b0 * 16777216 + b1 * 65536 + b2 * 256 + b3 = 0
        · rw [if_pos hz] at h
          exact Or.inl (List.mem_singleton.1 h)
        · rw [if_neg hz] at h
          exact Or.inr (base85_digits _ c h)
      · exact ih rest (by
          have : rest.length + 4 ≤ n + 1 := hl
          omega) c h

/-- The groups of a byte sequence decode to the bytes. -/
theorem decodeGroups_groups85 : ∀ n (bytes : List Nat), bytes.length ≤ n →
    (∀ b ∈ bytes, b < 256) → ∀ fuel, (groups85 bytes).length < fuel →
    decodeGroups fuel (groups85 bytes) = some bytes := by
  intro n
  induction n with
  | zero =>
    intro bytes hl _ fuel hf
    have hb : bytes = [] := List.length_eq_zero.1 (Nat.le_zero.1 hl)
    rw [hb] at hf ⊢
    obtain ⟨f, rfl⟩ : ∃ f, fuel = f + 1 := ⟨fuel - 1, by omega⟩
    rfl
  | succ n ih =>
    intro bytes hl hb fuel hf
    obtain ⟨f, rfl⟩ : ∃ f, fuel = f + 1 := ⟨fuel - 1, by omega⟩
    rcases bytes with _ | ⟨b0, _ | ⟨b1, _ | ⟨b2, _ | ⟨b3, rest⟩⟩⟩⟩
    · rfl
    · have h0 : b0 < 256 := hb b0 (by simp)
      obtain ⟨p1, p2⟩ := partial_one b0 h0
      have e : groups85 [b0] = (base85 (b0 * 16777216)).take 2 := rfl
      rw [e, decodeGroups_succ]
      have c1 : (base85 (b0 * 16777216)).take 2 ≠ [] := by
        unfold base85
        exact List.cons_ne_nil _ _
      have c2 : ((base85 (b0 * 16777216)).take 2).head? ≠ some 122 := by
        unfold base85
        show some (b0 * 16777216 / 85 / 85 / 85 / 85 % 85 + 33) ≠ some 122
        intro hc
        have := Option.some.inj hc
        omega
      have c3 : ((base85 (b0 * 16777216)).take 2).length = 2 := rfl
      rw [if_neg c1, if_neg c2, c3, if_neg (by decide),
        if_pos ⟨by decide, digits_all _ (fun c hc => base85_digits _ c (List.mem_of_mem_take hc)),
          p1⟩]
      exact congrArg some p2
    · have h0 : b0 < 256 := hb b0 (by simp)
      have h1 : b1 < 256 := hb b1 (by simp)
      obtain ⟨p1, p2⟩ := partial_two b0 b1 h0 h1
      have e : groups85 [b0, b1] = (base85 (b0 * 16777216 + b1 * 65536)).take 3 := rfl
      rw [e, decodeGroups_succ]
      have c1 : (base85 (b0 * 16777216 + b1 * 65536)).take 3 ≠ [] := by
        unfold base85
        exact List.cons_ne_nil _ _
      have c2 : ((base85 (b0 * 16777216 + b1 * 65536)).take 3).head? ≠ some 122 := by
        unfold base85
        show some ((b0 * 16777216 + b1 * 65536) / 85 / 85 / 85 / 85 % 85 + 33) ≠ some 122
        intro hc
        have := Option.some.inj hc
        omega
      have c3 : ((base85 (b0 * 16777216 + b1 * 65536)).take 3).length = 3 := rfl
      rw [if_neg c1, if_neg c2, c3, if_neg (by decide),
        if_pos ⟨by decide, digits_all _ (fun c hc => base85_digits _ c (List.mem_of_mem_take hc)),
          p1⟩]
      exact congrArg some p2
    · have h0 : b0 < 256 := hb b0 (by simp)
      have h1 : b1 < 256 := hb b1 (by simp)
      have h2 : b2 < 256 := hb b2 (by simp)
      obtain ⟨p1, p2⟩ := partial_three b0 b1 b2 h0 h1 h2
      have e : groups85 [b0, b1, b2] =
          (base85 (b0 * 16777216 + b1 * 65536 + b2 * 256)).take 4 := rfl
      rw [e, decodeGroups_succ]
      have c1 : (base85 (b0 * 16777216 + b1 * 65536 + b2 * 256)).take 4 ≠ [] := by
        unfold base85
        exact List.cons_ne_nil _ _
      have c2 : ((base85 (b0 * 16777216 + b1 * 65536 + b2 * 256)).take 4).head? ≠ some 122 := by
        unfold base85
        show some ((b0 * 16777216 + b1 * 65536 + b2 * 256) / 85 / 85 / 85 / 85 % 85 + 33) ≠
          some 122
        intro hc
        have := Option.some.inj hc
        omega
      have c3 : ((base85 (b0 * 16777216 + b1 * 65536 + b2 * 256)).take 4).length = 4 := rfl
      rw [if_neg c1, if_neg c2, c3, if_neg (by decide),
        if_pos ⟨by decide, digits_all _ (fun c hc => base85_digits _ c (List.mem_of_mem_take hc)),
          p1⟩]
      exact congrArg some p2
    · have h0 : b0 < 256 := hb b0 (by simp)
      have h1 : b1 < 256 := hb b1 (by simp)
      have h2 : b2 < 256 := hb b2 (by simp)
      have h3 : b3 < 256 := hb b3 (by simp)
      have hg : groups85 (b0 :: b1 :: b2 :: b3 :: rest) =
          group85 b0 b1 b2 b3 ++ groups85 rest := rfl
      have hlen : 1 ≤ (group85 b0 b1 b2 b3).length := by
        unfold group85
        split_ifs
        · exact Nat.le_refl 1
        · exact (show 1 ≤ 5 by decide)
      rw [hg, List.length_append] at hf
      rw [hg, decodeGroups_group f b0 b1 b2 b3 h0 h1 h2 h3,
        ih rest (by
          have : rest.length + 4 ≤ n + 1 := hl
          omega)
          (fun b hbm => hb b (List.mem_cons_of_mem _ (List.mem_cons_of_mem _
            (List.mem_cons_of_mem _ (List.mem_cons_of_mem _ hbm))))) f (by omega)]
      rfl

/-- C24. For every byte sequence written through `fprintASCII85`, starting with an empty
buffer in column 0, and closed with the value 256: standard ASCII85 decoding of the
characters written yields exactly the byte sequence; white space apart, the characters
are the groups of the bytes followed by `~>`; and every data character is `z` or lies in
`!` to `u`. -/
theorem ascii85_decodes_to_bytes (a : Ascii85) (bytes : List Nat)
    (hb : ∀ b ∈ bytes, b < 256) (hpos : a.ASCII85BufferPos = 0) (hcol : a.ASCII85CurCol = 0)
    (hw : a.written = []) :
    ascii85Decode (writeASCII85 a bytes).written = some bytes ∧
    stripWhite (writeASCII85 a bytes).written = groups85 bytes ++ [126, 62] ∧
    dataChars (writeASCII85 a bytes).written = groups85 bytes ∧
    (∀ c ∈ dataChars (writeASCII85 a bytes).written, c = 122 ∨ (33 ≤ c ∧ c ≤ 117)) := by
  have hr : a.Ready := ⟨by rw [hpos]; decide, by rw [hcol]; decide, fun i hi => by
    rw [hpos] at hi
    exact absurd hi (Nat.not_lt_zero i)⟩
  have hs : stripWhite (writeASCII85 a bytes).written = groups85 bytes ++ [126, 62] := by
    rw [writeASCII85_written bytes a hb hr, hw, (pending_cases a).1 hpos]
    rfl
  have hchars := groups85_chars bytes bytes.length (Nat.le_refl _)
  have hd : dataChars (writeASCII85 a bytes).written = groups85 bytes := by
    unfold dataChars
    rw [hs, List.takeWhile_append_of_pos]
    · exact List.append_nil _
    · intro c hc
      rcases hchars c hc with h | h
      · rw [h]
        decide
      · exact decide_eq_true (by omega)
  refine ⟨?_, hs, hd, fun c hc => hchars c (by rw [hd] at hc; exact hc)⟩
  unfold ascii85Decode
  rw [hd, hs, List.drop_left, if_pos (show List.take 2 [126, 62] = [126, 62] from rfl)]
  exact decodeGroups_groups85 bytes.length bytes (Nat.le_refl _) hb _ (Nat.lt_succ_self _)

/-- Witness of C24: the bytes `Man `, four zeros and a single 1 are written as
`9jqo^z!<~>` and decode to themselves. -/
theorem ascii85_decodes_to_bytes_witness :
    (writeASCII85 ascii85Start [77, 97, 110, 32, 0, 0, 0, 0, 1]).written =
      [57, 106, 113, 111, 94, 122, 33, 60, 126, 62, 10] ∧
    ascii85Decode (writeASCII85 ascii85Start [77, 97, 110, 32, 0, 0, 0, 0, 1]).written =
      some [77, 97, 110, 32, 0, 0, 0, 0, 1] :=
  ⟨by decide,
    (ascii85_decodes_to_bytes ascii85Start [77, 97, 110, 32, 0, 0, 0, 0, 1] (by decide) rfl rfl
      rfl).1⟩

/-! ## C25: lines that start with `%` -/

set_option maxRecDepth 1000000 in
/-- C25 (code at the failing input). Sixty bytes 1 and the bytes 0, 0, 0, 4 are written
through `fprintASCII85`: the first fifteen groups and four characters of the sixteenth,
`!!!!`, fill the 79 columns of the first line, and its fifth character, `%`, starts the
second line; the test for `%` is made for the first character of a group only. The same
happens for a page: a printer of 60 dpi on a paper of 1.0 by 0.1 inch receives one
bit-image command of 60 columns; the data of its page of 60 by 6 pixels have the lines
`rW)rt ... XoPL` and `%SH+0~>`. -/
theorem percent_starts_line_inside_group :
    (writeASCII85 ascii85Start (List.replicate 60 1 ++ [0, 0, 0, 4])).written =
      (List.replicate 15 [33, 60, 69, 51, 37]).flatten ++
        [33, 33, 33, 33, 10, 37, 126, 62, 10] ∧
    lineStarts (writeASCII85 ascii85Start (List.replicate 60 1 ++ [0, 0, 0, 4])).written =
      [33, 37] ∧
    (construct sampleRaw 60 10 1 true).page.w = 60 ∧
    (construct sampleRaw 60 10 1 true).page.h = 6 ∧
    lineStarts (pageData (feed (construct sampleRaw 60 10 1 true) zebraBytes).page) =
      [114, 37] ∧
    (feed (construct sampleRaw 60 10 1 true) (zebraBytes ++ [0x0c])).outputPages.map
      (fun pg => lineStarts (pageData pg)) = [[114, 37]] := by
  refine ⟨by decide!, by decide!, by decide!, by decide!, by decide!, by decide!⟩

/-! ## C26: cancelling the MSB control -/

/-- C26 (code at the failing input). After `ESC =` the sample printer has `msb = 0`, and
`ESC #` sets it back to 255. After `ESC >` it has `msb = 1`: the bytes of `ESC #` reach
`processCommandChar` as 0x9b and 0xa3, neither is consumed, `msb` is still 1, and the
cursor has moved by two characters, the two bytes having been printed. -/
theorem msb_one_is_not_cancelled :
    (feed samplePrinter [0x1b, 0x3d]).msb = 0 ∧
    (feed samplePrinter [0x1b, 0x3d, 0x1b, 0x23]).msb = 255 ∧
    (feed samplePrinter [0x1b, 0x3d, 0x1b, 0x23]).curX = 0 ∧
    (feed samplePrinter [0x1b, 0x3e]).msb = 1 ∧
    applyMSB 1 0x1b = 0x9b ∧ applyMSB 1 0x23 = 0xa3 ∧
    (processCommandChar (feed samplePrinter [0x1b, 0x3e]) 0x9b).1 = false ∧
    (feed samplePrinter [0x1b, 0x3e, 0x1b, 0x23]).msb = 1 ∧
    (feed samplePrinter [0x1b, 0x3e, 0x1b, 0x23]).curX = 1 / 5 ∧
    (feed samplePrinter [0x1b, 0x3e, 0x1b, 0x23, 0x1b, 0x23, 0x1b, 0x40]).msb = 1 := by
  refine ⟨by decide!, by decide!, by decide!, by decide!, by decide, by decide, by decide!,
    by decide!, by decide!, by decide!⟩

/-! ## C27: the register offset of a port access -/

/-- C27 (code at the failing input). Whatever ports are installed, a read of 0x3bc,
0x3bd or 0x3be returns 0xff and reaches no register: `PARALLEL_Read` selects the
register by `port & 0x7`, which is 4, 5, 6 there, while `PARALLEL_Write` selects by
`port & 0x3`. With three ports installed whose registers read as 1 to 9, the reads of
the first two bases return their data, status and control registers, those of the third
return 0xff, and the writes to all three bases reach `Write_PR`, `Write_IOSEL` and
`Write_CON` of their port. -/
theorem read_of_third_base_reaches_no_register (parallelports : Nat → Option CParallel) :
    PARALLEL_Read parallelports 0x3bc = 0xff ∧ PARALLEL_Read parallelports 0x3bd = 0xff ∧
    PARALLEL_Read parallelports 0x3be = 0xff ∧
    0x3bc &&& 0x7 = 4 ∧ 0x3bc &&& 0x3 = 0 ∧
    (List.range 3).map (fun k => PARALLEL_Read samplePorts (0x378 + k)) = [1, 2, 3] ∧
    (List.range 3).map (fun k => PARALLEL_Read samplePorts (0x278 + k)) = [4, 5, 6] ∧
    (List.range 3).map (fun k => PARALLEL_Read samplePorts (0x3bc + k)) = [0xff, 0xff, 0xff] ∧
    (samplePorts 2).map (fun p => [p.Read_PR, p.Read_SR, p.Read_CON]) = some [7, 8, 9] ∧
    (List.range 3).map (fun k => PARALLEL_Write samplePorts (0x378 + k) 0x55) =
      [some (PortWrite.Write_PR 0 0x55), some (PortWrite.Write_IOSEL 0 0x55),
       some (PortWrite.Write_CON 0 0x55)] ∧
    (List.range 3).map (fun k => PARALLEL_Write samplePorts (0x3bc + k) 0x55) =
      [some (PortWrite.Write_PR 2 0x55), some (PortWrite.Write_IOSEL 2 0x55),
       some (PortWrite.Write_CON 2 0x55)] := by
  have key : ∀ port, port = 0x3bc ∨ port = 0x3bd ∨ port = 0x3be →
      PARALLEL_Read parallelports port = 0xff := by
    intro port hp
    have h0 : port &&& 0xfffc = 0x3bc := by
      rcases hp with h | h | h <;> rw [h] <;> decide
    have h7 : port &&& 0x7 ≠ 0 ∧ port &&& 0x7 ≠ 1 ∧ port &&& 0x7 ≠ 2 := by
      rcases hp with h | h | h <;> rw [h] <;> decide
    unfold PARALLEL_Read readLoop readLoop readLoop readLoop
    rw [h0]
    cases parallelports 0 <;> cases parallelports (0 + 1) <;> cases parallelports (0 + 1 + 1) <;>
      simp [parallel_baseaddr, h7.1, h7.2.1, h7.2.2]
  exact ⟨key _ (Or.inl rfl), key _ (Or.inr (Or.inl rfl)), key _ (Or.inr (Or.inr rfl)),
    by decide, by decide, by decide, by decide, by decide, by decide, by decide, by decide⟩

/-! ## C28: the parameter buffer -/

set_option maxRecDepth 1000000 in
/-- C28 (code at the failing input). After `ESC ( B 0xff 0xff` the sample printer has
`neededParam = 255`, the low byte of the count 65535 in the 8 bit counter, and
`numParam = 0`; each of the next bytes is stored in `params` at the index `numParam`, the
eighth at index 7, and the parser goes on collecting. The 21st and the 22nd byte are
stored behind the 20 bytes of `params`, on the two bytes of `style`, the 23rd behind
`style`; of 255 bytes, the last is stored at index 254 and 233 land behind `style`. The
same happens behind a two byte command that is not supported, here `ESC ( !` with the
count 9. -/
theorem skip_count_is_stored_as_parameter_count :
    (feed samplePrinter [0x1b, 0x28, 0x42, 0xff, 0xff]).neededParam = 255 ∧
    (feed samplePrinter [0x1b, 0x28, 0x42, 0xff, 0xff]).numParam = 0 ∧
    (feed samplePrinter [0x1b, 0x28, 0x42, 0xff, 0xff, 1, 2, 3, 4, 5, 6, 7]).params 7 = 0 ∧
    (feed samplePrinter [0x1b, 0x28, 0x42, 0xff, 0xff, 1, 2, 3, 4, 5, 6, 7, 8]).params 7 = 8 ∧
    (feed samplePrinter [0x1b, 0x28, 0x42, 0xff, 0xff, 1, 2, 3, 4, 5, 6, 7, 8]).numParam = 8 ∧
    (feed samplePrinter [0x1b, 0x28, 0x42, 0xff, 0xff, 1, 2, 3, 4, 5, 6, 7, 8]).neededParam
      = 255 ∧
    (feed samplePrinter [0x1b, 0x28, 0x42, 0xff, 0xff, 1, 2, 3, 4, 5, 6, 7, 8, 9, 10, 11, 12,
      13, 14, 15, 16, 17, 18, 19, 20]).style = 0 ∧
    (feed samplePrinter [0x1b, 0x28, 0x42, 0xff, 0xff, 1, 2, 3, 4, 5, 6, 7, 8, 9, 10, 11, 12,
      13, 14, 15, 16, 17, 18, 19, 20, 21, 22]).style = 22 * 256 + 21 ∧
    (feed samplePrinter [0x1b, 0x28, 0x42, 0xff, 0xff, 1, 2, 3, 4, 5, 6, 7, 8, 9, 10, 11, 12,
      13, 14, 15, 16, 17, 18, 19, 20, 21, 22]).paramsOverrun = [] ∧
    (feed samplePrinter [0x1b, 0x28, 0x42, 0xff, 0xff, 1, 2, 3, 4, 5, 6, 7, 8, 9, 10, 11, 12,
      13, 14, 15, 16, 17, 18, 19, 20, 21, 22, 23]).paramsOverrun = [(22, 23)] ∧
    (feed samplePrinter
      ([0x1b, 0x28, 0x42, 0xff, 0xff] ++ List.replicate 254 0x40)).numParam = 254 ∧
    (feed samplePrinter
      ([0x1b, 0x28, 0x42, 0xff, 0xff] ++ List.replicate 255 0x40)).numParam = 255 ∧
    (feed samplePrinter
      ([0x1b, 0x28, 0x42, 0xff, 0xff] ++ List.replicate 255 0x40)).paramsOverrun.length = 233 ∧
    (feed samplePrinter
      ([0x1b, 0x28, 0x42, 0xff, 0xff] ++ List.replicate 255 0x40)).paramsOverrun.getLast? =
        some (254, 0x40) ∧
    (feed samplePrinter [0x1b, 0x28, 0x21, 9, 0]).neededParam = 9 ∧
    (feed samplePrinter [0x1b, 0x28, 0x21, 9, 0, 1, 2, 3, 4, 5, 6, 7, 8]).params 7 = 8 ∧
    (feed samplePrinter [0x1b, 0x28, 0x21, 9, 0, 1, 2, 3, 4, 5, 6, 7, 8]).numParam = 8 := by
  refine ⟨by decide!, by decide!, by decide!, by decide!, by decide!, by decide!, by decide!,
    by decide!, by decide!, by decide!, by decide!, by decide!, by decide!, by decide!,
    by decide!, by decide!, by decide!⟩

/-! ## C29: the pixels read by the run-length encoder -/

/-- C29 (code at the failing input). For the blank page of 2 by 1 pixels the encoder
passes the indices 1, 2, 1, 3, 0, 1 to `getPixel`: with `numpix = 2` the guard
`diffCount+pix < numpix-2` fails and the condition goes on to compare the last pixel with
the pixels number 2 and 3, which the raster does not have. For the blank page of 13 by
10 pixels the indices 130 and 131 are read, and for a page of 2 by 2 pixels that are all
different the index 4. -/
theorem encoder_reads_behind_the_raster :
    (construct sampleRaw 10 2 1 true).page.w = 2 ∧ (construct sampleRaw 10 2 1 true).page.h = 1 ∧
    numPixels (construct sampleRaw 10 2 1 true).page = 2 ∧
    pageReads (construct sampleRaw 10 2 1 true).page = [1, 2, 1, 3, 0, 1] ∧
    numPixels (construct sampleRaw 10 13 10 true).page = 130 ∧
    (pageReads (construct sampleRaw 10 13 10 true).page).filter (fun i => 130 ≤ i) =
      [130, 131] ∧
    (pageReads { w := 2, h := 2, pixels := fun x y => x + 2 * y + 1 }).filter (fun i => 4 ≤ i) =
      [4] := by
  refine ⟨by decide!, by decide!, by decide!, by decide!, by decide!, by decide!, by decide⟩

/-! ## C30: the default unit of the vertical position -/

/-- C30 (code at the failing input). On the fresh sample printer no unit is defined
(`definedUnit = -1`), the top margin is 0 and the bottom margin 3 inch. `ESC ( V` with
the argument 1 takes the position `0 + 1*360` inch, finds it below the bottom margin and
ejects the page: `curY` is 0 and not 1/360. After LF, `ESC ( v` with the argument 1 takes
`1/6 + 1*360` and ejects the page as well. With the unit 10/3600 inch defined, the two
commands with the argument 36 move to `36*(10/3600) = 1/10` inch and by 1/10 inch, each
as the claim has it. -/
theorem vertical_default_unit_is_360_inches :
    samplePrinter.definedUnit = -1 ∧ samplePrinter.topMargin = 0 ∧
    samplePrinter.bottomMargin = 3 ∧ samplePrinter.curY = 0 ∧
    vertUnit samplePrinter = 360 ∧
    (feed samplePrinter [0x1b, 0x28, 0x56, 2, 0, 1, 0]).curY = 0 ∧
    (feed samplePrinter [0x1b, 0x28, 0x56, 2, 0, 1, 0]).curY ≠ 0 + 1 / 360 ∧
    (feed samplePrinter [0x1b, 0x28, 0x56, 2, 0, 1, 0]).outputPages.length = 1 ∧
    (feed samplePrinter [0x0a]).curY = 1 / 6 ∧
    (feed samplePrinter [0x0a, 0x1b, 0x28, 0x76, 2, 0, 1, 0]).curY = 0 ∧
    (feed samplePrinter [0x0a, 0x1b, 0x28, 0x76, 2, 0, 1, 0]).outputPages.length = 1 ∧
    (feed samplePrinter [0x1b, 0x28, 0x55, 1, 0, 10, 0x1b, 0x28, 0x56, 2, 0, 36, 0]).curY
      = 1 / 10 ∧
    (feed samplePrinter [0x0a, 0x1b, 0x28, 0x55, 1, 0, 10, 0x1b, 0x28, 0x76, 2, 0, 36, 0]).curY
      = 1 / 6 + 1 / 10 ∧
    (feed samplePrinter [0x0a, 0x1b, 0x28, 0x55, 1, 0, 10, 0x1b, 0x28, 0x76, 2, 0, 36,
      0]).outputPages.length = 0 := by
  refine ⟨by decide!, by decide!, by decide!, by decide!, by decide!, by decide!, by decide!,
    by decide!, by decide!, by decide!, by decide!, by decide!, by decide!, by decide!⟩

end Printer
